import Mathlib

/-!
Verification development for the FishbatteryLauncher content-resolution and
cloud-sync engines.

The definitions below are a shallow embedding of the launcher's main-process
code:

* the mods service (`mods.ts`): persisted per-instance state
  (`ModsState`), catalog (`CATALOG`), `setModEnabled`, `listMods` and
  `refreshModsForInstance` with its per-entry resolution pass and the
  breadth-first dependency walk;
* the cloud-sync engine (`cloudSync` portion of the main process):
  `sanitizeSettings`, `collectLocalSnapshot`, `applyRemoteSnapshot`,
  `chooseConflictPolicy` and `syncCloudNow`.

Filesystem directories are modelled as association lists from file names to
byte contents; the Modrinth provider, the SHA-1 hash, the `fabric.mod.json`
reader and the wall clock are abstract parameters (`Env`), since the engine
only observes them through their results.  The dependency `while` loop is
modelled with an explicit fuel parameter counting loop iterations; the
termination theorem exhibits a sufficient fuel bound.
-/

set_option autoImplicit false
set_option linter.unusedVariables false

/-! ## Strings and file names -/

/-- Bytes of a file, abstractly. -/
abbrev Bytes := List Nat

/-- `strStarts s p`: `s.startsWith(p)` of the source. -/
def strStarts (s p : String) : Bool := p.data.isPrefixOf s.data

/-- `strEnds s p`: `s.endsWith(p)` of the source. -/
def strEnds (s p : String) : Bool := p.data.isSuffixOf s.data

/-- `String.prototype.trim()`. -/
def strTrim (s : String) : String :=
  String.mk (((s.data.dropWhile Char.isWhitespace).reverse.dropWhile Char.isWhitespace).reverse)

/-- Characters kept verbatim by the `[^a-zA-Z0-9._-]+` sanitizer. -/
def isSafeChar (c : Char) : Bool := c.isAlphanum || c == '.' || c == '_' || c == '-'

/-- Run-collapsing replacement of unsafe characters; the `Bool` records whether
we are inside a run of unsafe characters already replaced by one `_`. -/
def sanAux : Bool → List Char → List Char
  | _, [] => []
  | inRun, c :: cs =>
    if isSafeChar c then c :: sanAux false cs
    else if inRun then sanAux true cs
    else '_' :: sanAux true cs

/-- `upstreamFileName.replace(/[^a-zA-Z0-9._-]+/g, "_")`. -/
def sanitizeName (s : String) : String := String.mk (sanAux false s.data)

/-- `targetFileName` of `mods.ts`. -/
def targetFileName (catalogId upstreamFileName : String) (enabled : Bool) : String :=
  let base := catalogId ++ "__" ++ sanitizeName upstreamFileName
  if enabled then base else base ++ ".disabled"

/-! ## Directories as finite maps -/

/-- A directory: file name to contents.  Operations keep keys unique. -/
abbrev Dir := List (String × Bytes)

def dirGet : Dir → String → Option Bytes
  | [], _ => none
  | e :: es, n => if e.1 = n then some e.2 else dirGet es n

/-- Write (or overwrite) a file, `fs.writeFileSync` / `fs.copyFileSync`. -/
def dirSet (d : Dir) (n : String) (b : Bytes) : Dir :=
  d.filter (fun e => decide (e.1 ≠ n)) ++ [(n, b)]

/-- Remove a file, `fs.rmSync`. -/
def dirRemove (d : Dir) (n : String) : Dir :=
  d.filter (fun e => decide (e.1 ≠ n))

/-- File names ending in `.jar` or `.jar.disabled`. -/
def isJarName (n : String) : Bool := strEnds n ".jar" || strEnds n ".jar.disabled"

/-- `cleanOldFilesForCatalogId` of `mods.ts`: remove files named
`<catalogId>__…` ending in `.jar` or `.jar.disabled`. -/
def cleanOldFilesForCatalogId (d : Dir) (catalogId : String) : Dir :=
  d.filter (fun e => !(strStarts e.1 (catalogId ++ "__") && isJarName e.1))

/-- `cleanAutoDependencyFiles` of `mods.ts`: remove `dep__….jar` files. -/
def cleanAutoDependencyFiles (d : Dir) : Dir :=
  d.filter (fun e => !(strStarts e.1 "dep__" && strEnds e.1 ".jar"))

/-! ## Catalog and persisted state -/

structure CatalogMod where
  id : String
  name : String
  required : Bool := false
  projectId : String
deriving DecidableEq

/-- The static catalog of `modrinthCatalog.ts`. -/
def CATALOG : List CatalogMod := [
  { id := "fabric-api", name := "Fabric API", required := true, projectId := "P7dR8mSH" },
  { id := "sodium", name := "Sodium", projectId := "AANobbMI" },
  { id := "lithium", name := "Lithium", projectId := "gvQqBUqZ" },
  { id := "mod-menu", name := "Mod Menu", projectId := "mOgUt4GM" },
  { id := "iris", name := "Iris Shaders", projectId := "YL57xq9U" },
  { id := "emf", name := "Entity Model Features", required := true, projectId := "4I1XuqiY" },
  { id := "etf", name := "Entity Texture Features", required := true, projectId := "BVzZfTc1" } ]

inductive MStatus
  | ok
  | unavailable
  | error
deriving DecidableEq

/-- `ResolvedMod` of `mods.ts`. -/
structure ResolvedMod where
  catalogId : String
  enabled : Bool
  status : MStatus
  mcVersion : String
  versionName : Option String := none
  upstreamFileName : Option String := none
  fileName : Option String := none
  downloadUrl : Option String := none
  sha1 : Option String := none
  sha512 : Option String := none
  requiredProjectIds : List String := []
  error : Option String := none
  lastCheckedAt : Nat := 0
deriving DecidableEq

/-- First-match association-list lookup (JS object indexing). -/
def assocFind {α : Type} : List (String × α) → String → Option α
  | [], _ => none
  | e :: es, k => if e.1 = k then some e.2 else assocFind es k

/-- JS object assignment `obj[k] = v`: update in place, append if new. -/
def assocSet {α : Type} : List (String × α) → String → α → List (String × α)
  | [], k, v => [(k, v)]
  | e :: es, k, v => if e.1 = k then (k, v) :: es else e :: assocSet es k v

/-- Persisted `mods-state.json` content. -/
structure ModsState where
  enabled : List (String × Bool)
  resolved : List (String × ResolvedMod)
deriving DecidableEq

/-- `!!state.enabled[id]`. -/
def lookupEnabled (st : ModsState) (id : String) : Bool :=
  (assocFind st.enabled id).getD false

/-- `defaultState()` of `mods.ts`. -/
def defaultState : ModsState :=
  { enabled := CATALOG.map (fun m => (m.id, m.required)), resolved := [] }

/-! ## The provider environment -/

/-- Result of `resolveLatestModrinth` as consumed by `mods.ts`. -/
structure RInfo where
  versionName : String
  fileName : String
  url : String
  sha1 : Option String := none
  sha512 : Option String := none
  requiredProjectIds : List String := []
deriving DecidableEq

/-- The collaborators of the mods service: the Modrinth client
(`resolveLatest`, `download`), the SHA-1 hash and the `fabric.mod.json`
reader.  `Except.error` models a thrown exception. -/
structure Env where
  resolveLatest : String → String → Except String (Option RInfo)
  download : String → Except String Bytes
  sha1Of : Bytes → String
  fabricModId : Bytes → Option String

/-- `collectInstalledModIds`: fabric mod ids of the `.jar` files present. -/
def collectInstalledModIds (env : Env) (d : Dir) : List String :=
  d.filterMap (fun e => if strEnds e.1 ".jar" then env.fabricModId e.2 else none)

/-- Cache file name used by the main catalog pass, including the
falsy-string fallback of `r.sha1 ?? ""`. -/
def mainCacheName (id : String) (r : RInfo) : String :=
  match r.sha1 with
  | some h => if h = "" then id ++ "-" ++ r.fileName else id ++ "-" ++ h ++ ".jar"
  | none => id ++ "-" ++ r.fileName

/-- Cache file name used by the dependency walk. -/
def depCacheName (proj : String) (r : RInfo) : String :=
  match r.sha1 with
  | some h => if h = "" then "dep-" ++ proj ++ "-" ++ r.fileName else "dep-" ++ proj ++ "-" ++ h ++ ".jar"
  | none => "dep-" ++ proj ++ "-" ++ r.fileName

/-- The post-download verification `if (r.sha1) { … throw … }`: `true` means
the download is accepted. -/
def sha1Check (env : Env) (r : RInfo) (buf : Bytes) : Bool :=
  match r.sha1 with
  | some h => if h = "" then true else decide (env.sha1Of buf = h)
  | none => true

/-! ## refreshModsForInstance: main catalog pass -/

/-- The `status: "unavailable"` record. -/
def unavailableRec (mod : CatalogMod) (mc : String) (now : Nat) : ResolvedMod :=
  { catalogId := mod.id, enabled := false, status := .unavailable, mcVersion := mc,
    lastCheckedAt := now }

/-- The `status: "error"` record built in the `catch` branch. -/
def errorRec (mod : CatalogMod) (mc : String) (now : Nat) (msg : String) : ResolvedMod :=
  { catalogId := mod.id, enabled := false, status := .error, mcVersion := mc,
    error := some msg, lastCheckedAt := now }

/-- The `status: "ok"` record. -/
def okRec (mod : CatalogMod) (mc : String) (now : Nat) (r : RInfo) (target : String) : ResolvedMod :=
  { catalogId := mod.id, enabled := true, status := .ok, mcVersion := mc,
    versionName := some r.versionName, upstreamFileName := some r.fileName,
    fileName := some target, downloadUrl := some r.url, sha1 := r.sha1, sha512 := r.sha512,
    requiredProjectIds := r.requiredProjectIds, lastCheckedAt := now }

/-- Outcome of processing one catalog entry. -/
structure EntryOut where
  record : Option ResolvedMod
  mods : Dir
  cache : Dir
  deps : List String
deriving DecidableEq

/-- Shared tail of the success path: clean old versions, copy the cache file
into place, record `status=ok` and enqueue the declared dependencies. -/
def installOk (mc : String) (now : Nat) (mods cache : Dir) (mod : CatalogMod) (r : RInfo)
    (cn : String) : EntryOut :=
  let mods1 := cleanOldFilesForCatalogId mods mod.id
  let target := targetFileName mod.id r.fileName true
  let mods2 := match dirGet cache cn with
    | some b => dirSet mods1 target b
    | none => mods1
  { record := some (okRec mod mc now r target), mods := mods2, cache := cache,
    deps := r.requiredProjectIds }

/-- One iteration of the `for (const mod of CATALOG)` loop for an entry that
is in scope (not skipped by `targetSet`). -/
def processEntryCore (env : Env) (mc : String) (now : Nat) (st : ModsState)
    (mods cache : Dir) (mod : CatalogMod) : EntryOut :=
  let shouldEnable := mod.required || lookupEnabled st mod.id
  if !shouldEnable then
    { record := some (unavailableRec mod mc now), mods := cleanOldFilesForCatalogId mods mod.id,
      cache := cache, deps := [] }
  else
    match env.resolveLatest mod.projectId mc with
    | .error e =>
      { record := some (errorRec mod mc now e), mods := cleanOldFilesForCatalogId mods mod.id,
        cache := cache, deps := [] }
    | .ok none =>
      { record := some (unavailableRec mod mc now), mods := cleanOldFilesForCatalogId mods mod.id,
        cache := cache, deps := [] }
    | .ok (some r) =>
      let cn := mainCacheName mod.id r
      match dirGet cache cn with
      | some _ => installOk mc now mods cache mod r cn
      | none =>
        match env.download r.url with
        | .error e =>
          { record := some (errorRec mod mc now e), mods := cleanOldFilesForCatalogId mods mod.id,
            cache := cache, deps := [] }
        | .ok buf =>
          if sha1Check env r buf then
            installOk mc now mods (dirSet cache cn buf) mod r cn
          else
            { record := some (errorRec mod mc now ("SHA1 mismatch for " ++ mod.id)),
              mods := cleanOldFilesForCatalogId mods mod.id, cache := cache, deps := [] }

/-- One iteration of the catalog loop, including the `targetSet` skip that
carries the previous resolved record over. -/
def processEntry (env : Env) (mc : String) (now : Nat) (tset : Option (List String))
    (st : ModsState) (mods cache : Dir) (mod : CatalogMod) : EntryOut :=
  match tset with
  | some ts =>
    if mod.id ∈ ts then processEntryCore env mc now st mods cache mod
    else { record := assocFind st.resolved mod.id, mods := mods, cache := cache, deps := [] }
  | none => processEntryCore env mc now st mods cache mod

/-- Accumulated result of the main catalog pass. -/
structure PassOut where
  resolved : List (String × ResolvedMod)
  mods : Dir
  cache : Dir
  queue : List String
deriving DecidableEq

/-- The main catalog pass, entry by entry in catalog order. -/
def processList (env : Env) (mc : String) (now : Nat) (tset : Option (List String))
    (st : ModsState) : List CatalogMod → Dir → Dir → PassOut
  | [], mods, cache => { resolved := [], mods := mods, cache := cache, queue := [] }
  | m :: ms, mods, cache =>
    let e := processEntry env mc now tset st mods cache m
    let rest := processList env mc now tset st ms e.mods e.cache
    { resolved := (match e.record with | some r => [(m.id, r)] | none => []) ++ rest.resolved,
      mods := rest.mods, cache := rest.cache, queue := e.deps ++ rest.queue }

/-! ## refreshModsForInstance: dependency walk -/

/-- Instrumentation record of one dependency install. -/
structure DepInstall where
  name : String
  bytes : Bytes
  modId : String
deriving DecidableEq

/-- State of the dependency `while` loop.  `plog` logs the refs processed
(those that pass the visited check) and `ilog` logs the files installed. -/
structure WalkState where
  queue : List String
  visited : List String
  installed : List String
  mods : Dir
  cache : Dir
  plog : List String
  ilog : List DepInstall
deriving DecidableEq

/-- Body of the `try` block for one dependency ref `d` (popped and trimmed,
already added to the visited set). -/
def depStep (env : Env) (mc : String) (s : WalkState) (d : String) : WalkState :=
  match env.resolveLatest d mc with
  | .error _ => s
  | .ok none => s
  | .ok (some r) =>
    let cn := depCacheName d r
    let cache2 : Option Dir :=
      match dirGet s.cache cn with
      | some _ => some s.cache
      | none =>
        match env.download r.url with
        | .error _ => none
        | .ok buf => if sha1Check env r buf then some (dirSet s.cache cn buf) else none
    match cache2 with
    | none => s
    | some cache3 =>
      match dirGet cache3 cn with
      | none => { s with cache := cache3 }
      | some bytes =>
        let modId := (env.fabricModId bytes).getD d
        let s2 :=
          if modId ∈ s.installed then { s with cache := cache3 }
          else
            { s with
              cache := cache3,
              mods := dirSet s.mods ("dep__" ++ modId ++ "__" ++ sanitizeName r.fileName) bytes,
              installed := s.installed ++ [modId],
              ilog := s.ilog ++ [⟨"dep__" ++ modId ++ "__" ++ sanitizeName r.fileName, bytes, modId⟩] }
        { s2 with queue := s2.queue ++ r.requiredProjectIds.filter (fun t => decide (t ∉ s.visited)) }

/-- The dependency `while` loop; `fuel` bounds the number of iterations. -/
def depWalk (env : Env) (mc : String) : Nat → WalkState → WalkState
  | 0, s => s
  | f + 1, s =>
    match s.queue with
    | [] => s
    | q :: rest =>
      let d := strTrim q
      if d = "" ∨ d ∈ s.visited then depWalk env mc f { s with queue := rest }
      else
        depWalk env mc f
          (depStep env mc
            { s with queue := rest, visited := s.visited ++ [d], plog := s.plog ++ [d] } d)

/-! ## listMods, refreshModsForInstance, setModEnabled -/

/-- Public row returned by `listMods`. -/
structure ModView where
  id : String
  name : String
  required : Bool
  enabled : Bool
  status : MStatus
  resolved : Option ResolvedMod
deriving DecidableEq

/-- `listMods` of `mods.ts`. -/
def listMods (st : ModsState) : List ModView :=
  CATALOG.map (fun m =>
    let res := assocFind st.resolved m.id
    { id := m.id, name := m.name, required := m.required,
      enabled := m.required || lookupEnabled st m.id,
      status := (res.map (fun r => r.status)).getD .unavailable,
      resolved := res })

/-- Full result of a `refreshModsForInstance` call: the persisted state, the
final mods directory and cache, the returned view, and the final walk state
(for the instrumentation logs). -/
structure RefreshOut where
  state : ModsState
  mods : Dir
  cache : Dir
  view : List ModView
  walk : WalkState

/-- `refreshModsForInstance` of `mods.ts`.  `targetCatalogIds = some []` is
treated as absent, as in the source (`opts.targetCatalogIds?.length`). -/
def refreshModsForInstance (env : Env) (mc : String) (now : Nat)
    (targetCatalogIds : Option (List String)) (fuel : Nat) (st : ModsState)
    (mods cache : Dir) : RefreshOut :=
  let tset : Option (List String) :=
    match targetCatalogIds with
    | some l => if l.isEmpty then none else some l
    | none => none
  let pass := processList env mc now tset st CATALOG mods cache
  let mods2 := match tset with
    | some _ => pass.mods
    | none => cleanAutoDependencyFiles pass.mods
  let installed := collectInstalledModIds env mods2
  let w := depWalk env mc fuel
    { queue := pass.queue, visited := [], installed := installed, mods := mods2,
      cache := pass.cache, plog := [], ilog := [] }
  let st2 : ModsState := { enabled := st.enabled, resolved := pass.resolved }
  { state := st2, mods := w.mods, cache := w.cache, view := listMods st2, walk := w }

/-- `f.replace(new RegExp("^" + modId + "__"), "")`. -/
def stripStart (s p : String) : String :=
  if strStarts s p then String.mk (s.data.drop p.data.length) else s

/-- `f.replace(/\.disabled$/, "")`. -/
def stripEnd (s p : String) : String :=
  if strEnds s p then String.mk (s.data.take (s.data.length - p.data.length)) else s

/-- Fallback of the `setModEnabled` fast path: rename an existing file for
this mod to the enabled target name. -/
def fallbackRename (mods1 : Dir) (modId target : String) : Dir :=
  match mods1.find? (fun e => strStarts e.1 (modId ++ "__") && isJarName e.1) with
  | some e => dirSet (dirRemove mods1 e.1) target e.2
  | none => mods1

/-- The best-effort filesystem fast path of `setModEnabled` (the body of its
`try` block): apply the new enabled state to the instance directory using the
cache or an already-present file, without touching the network. -/
def setModEnabledFs (st : ModsState) (mods cache : Dir) (modId : String)
    (enabled2 : Bool) : Dir :=
  match assocFind st.resolved modId with
  | none => mods
  | some res =>
    if res.status ≠ .ok then mods
    else if !enabled2 then cleanOldFilesForCatalogId mods modId
    else
      let upstream : Option String :=
        match res.upstreamFileName with
        | some u => some u
        | none =>
          match res.fileName with
          | some f => if f = "" then none else some (stripEnd (stripStart f (modId ++ "__")) ".disabled")
          | none => none
      match upstream with
      | none => mods
      | some up =>
        if up = "" then mods
        else
          let cacheName : Option String :=
            match res.sha1 with
            | some h => if h = "" then none else some (modId ++ "-" ++ h ++ ".jar")
            | none => none
          let mods1 := cleanOldFilesForCatalogId mods modId
          let target := targetFileName modId up true
          match cacheName.bind (fun cn => dirGet cache cn) with
          | some b =>
            if 0 < b.length then dirSet mods1 target b
            else fallbackRename mods1 modId target
          | none => fallbackRename mods1 modId target

/-- `setModEnabled` of `mods.ts`: persist the (required-overridden) flag
immediately, then best-effort apply it to the filesystem. -/
def setModEnabled (env : Env) (st : ModsState) (mods cache : Dir) (modId : String)
    (enabled : Bool) : Except String (ModsState × Dir) :=
  match CATALOG.find? (fun m => m.id == modId) with
  | none => .error "Unknown mod"
  | some mod =>
    let enabled2 := if mod.required then true else enabled
    .ok ({ st with enabled := assocSet st.enabled modId enabled2 },
         setModEnabledFs st mods cache modId enabled2)

/-! ## Cloud sync: data model -/

/-- A settings blob: keys to opaque values. -/
abbrev Settings := List (String × Nat)

/-- The allow-list of `sanitizeSettings`. -/
def SETTINGS_ALLOW_KEYS : List String := [
  "theme", "blur", "accentColor", "surfaceAlpha", "cornerRadius", "borderThickness",
  "pixelFont", "updateChannel", "showSnapshots", "autoUpdateMods", "defaultMemoryMb",
  "jvmArgs", "settingsUpdatedAt", "cloudSyncEnabled", "cloudSyncAuto",
  "cloudSyncConflictPolicy" ]

/-- `sanitizeSettings`: copy exactly the allow-listed keys that are present. -/
def sanitizeSettings (settings : Settings) : Settings :=
  SETTINGS_ALLOW_KEYS.filterMap (fun k => (assocFind settings k).map (fun v => (k, v)))

/-- An instance record as the sync engine sees it; `data` stands for all the
fields the engine copies through untouched. -/
structure InstanceConfig where
  id : String
  syncEnabled : Option Bool := none
  data : Nat := 0
deriving DecidableEq

/-- `pickSyncedInstances`: keep instances not explicitly opted out and mark
them `syncEnabled: true`. -/
def pickSyncedInstances (instances : List InstanceConfig) : List InstanceConfig :=
  (instances.filter (fun i => !(i.syncEnabled == some false))).map
    (fun i => { i with syncEnabled := some true })

/-- The local mutable state visible to the sync engine: the instance database
plus the per-instance state files and their mtimes. -/
structure World where
  instances : List InstanceConfig
  activeInstanceId : Option String := none
  dbUpdatedAt : Nat := 0
  modsStates : List (String × ModsState) := []
  packsStates : List (String × Nat) := []
  modsMtime : List (String × Nat) := []
  packsMtime : List (String × Nat) := []
deriving DecidableEq

/-- `fileMtimeMs` with its missing-file fallback of `0`. -/
def fileMtimeMs (l : List (String × Nat)) (id : String) : Nat := (assocFind l id).getD 0

/-- `CloudSyncSnapshot`. -/
structure CloudSyncSnapshot where
  settings : Settings
  activeInstanceId : Option String
  instances : List InstanceConfig
  modsStateByInstance : List (String × ModsState)
  packsStateByInstance : List (String × Nat)
  settingsUpdatedAt : Nat
  instancesUpdatedAt : Nat
  capturedAt : Nat
deriving DecidableEq

/-- `collectLocalSnapshot`: capture settings (sanitized), synced instances and
their state files; note that `capturedAt` is the current clock reading. -/
def collectLocalSnapshot (w : World) (settings : Settings) (now : Nat) : CloudSyncSnapshot :=
  let synced := pickSyncedInstances w.instances
  let instancesUpdatedAt := synced.foldl
    (fun acc i => max (max acc (fileMtimeMs w.modsMtime i.id)) (fileMtimeMs w.packsMtime i.id))
    w.dbUpdatedAt
  let settingsPatch := sanitizeSettings settings
  let settingsUpdatedAt := (assocFind settingsPatch "settingsUpdatedAt").getD now
  { settings := settingsPatch,
    activeInstanceId := w.activeInstanceId,
    instances := synced,
    modsStateByInstance := synced.map (fun i => (i.id, (assocFind w.modsStates i.id).getD defaultState)),
    packsStateByInstance := synced.map (fun i => (i.id, (assocFind w.packsStates i.id).getD 0)),
    settingsUpdatedAt := settingsUpdatedAt,
    instancesUpdatedAt := instancesUpdatedAt,
    capturedAt := now }

structure CloudSyncRemote where
  revision : Nat
  updatedAt : Nat
  payload : CloudSyncSnapshot
deriving DecidableEq

inductive SyncStatus
  | idle
  | upToDate
  | pushed
  | pulled
  | conflict
  | error
deriving DecidableEq

/-- Persisted `SyncMeta` (`cloud-sync-state.json`). -/
structure CloudSyncState where
  lastSyncedAt : Option Nat
  lastStatus : SyncStatus
  lastError : Option String
  lastRemoteRevision : Option Nat
  lastSnapshotHash : Option String
deriving DecidableEq

inductive ConflictPolicy
  | ask
  | newerWins
  | preferLocal
  | preferCloud
deriving DecidableEq

structure SyncNowInput where
  settings : Settings
  policy : Option ConflictPolicy := none
  resolveConflict : Option Bool := none
deriving DecidableEq

structure ConflictInfo where
  localSettingsUpdatedAt : Nat
  localInstancesUpdatedAt : Nat
  remoteSettingsUpdatedAt : Nat
  remoteInstancesUpdatedAt : Nat
deriving DecidableEq

inductive SyncResultStatus
  | upToDate
  | pushed
  | pulled
  | conflict
  | error
  | skipped
deriving DecidableEq

structure SyncNowResult where
  ok : Bool
  status : SyncResultStatus
  message : String
  lastSyncedAt : Option Nat
  lastRemoteRevision : Option Nat
  settingsPatch : Option Settings := none
  conflict : Option ConflictInfo := none
deriving DecidableEq

/-- `applyRemoteSnapshot`: merge the cloud instance list with the local
opted-out instances, fix up the active-instance pointer, overwrite the synced
instances' state files, and return the settings patch. -/
def applyRemoteSnapshot (w : World) (snapshot : CloudSyncSnapshot) : World × Settings :=
  let localUnsynced := w.instances.filter (fun i => i.syncEnabled == some false)
  let cloudInstances := pickSyncedInstances snapshot.instances
  let merged := localUnsynced ++ cloudInstances
  let mergedActive : Option String :=
    if merged.any (fun x => some x.id == snapshot.activeInstanceId) then snapshot.activeInstanceId
    else if localUnsynced.any (fun x => some x.id == w.activeInstanceId) then w.activeInstanceId
    else (merged.head?).map (fun i => i.id)
  let w2 := { w with
    instances := merged,
    activeInstanceId := mergedActive,
    dbUpdatedAt := snapshot.instancesUpdatedAt }
  let w3 := cloudInstances.foldl
    (fun acc i =>
      let acc2 := match assocFind snapshot.modsStateByInstance i.id with
        | some ms => { acc with modsStates := assocSet acc.modsStates i.id ms }
        | none => acc
      match assocFind snapshot.packsStateByInstance i.id with
      | some ps => { acc2 with packsStates := assocSet acc2.packsStates i.id ps }
      | none => acc2)
    w2
  (w3, sanitizeSettings snapshot.settings)

inductive ConflictChoice
  | lcl
  | rmt
  | conflict
deriving DecidableEq

/-- `chooseConflictPolicy`. -/
def chooseConflictPolicy (policy : ConflictPolicy) (l r : CloudSyncSnapshot) : ConflictChoice :=
  match policy with
  | .preferLocal => .lcl
  | .preferCloud => .rmt
  | .newerWins =>
    if max r.settingsUpdatedAt r.instancesUpdatedAt ≤ max l.settingsUpdatedAt l.instancesUpdatedAt
    then .lcl else .rmt
  | .ask => .conflict

/-- The sync transport and hash collaborators plus the clock. -/
structure SyncEnv where
  fetchRemote : Except String CloudSyncRemote
  pushRemote : CloudSyncSnapshot → Nat → Except String CloudSyncRemote
  hashSnapshot : CloudSyncSnapshot → String
  now : Nat

/-- Result of one `syncCloudNow` call: returned result, persisted meta, the
resulting local world, and (instrumentation) the snapshot pushed, if any. -/
structure SyncOutcome where
  result : SyncNowResult
  meta : CloudSyncState
  world : World
  pushedSnap : Option CloudSyncSnapshot
deriving DecidableEq

/-- Shared pull tail of `syncCloudNow`. -/
def pullOutcome (env : SyncEnv) (meta : CloudSyncState) (w : World)
    (remote : CloudSyncRemote) (remoteHash msg : String) : SyncOutcome :=
  let applied := applyRemoteSnapshot w remote.payload
  let next : CloudSyncState := { meta with
    lastSyncedAt := some env.now,
    lastStatus := .pulled,
    lastError := none,
    lastRemoteRevision := some remote.revision,
    lastSnapshotHash := some remoteHash }
  { result := { ok := true, status := .pulled, message := msg,
                lastSyncedAt := next.lastSyncedAt,
                lastRemoteRevision := next.lastRemoteRevision,
                settingsPatch := some applied.2 },
    meta := next, world := applied.1, pushedSnap := none }

/-- Shared push tail of `syncCloudNow`; a throwing `PUT` lands in the outer
`catch`, which records `status=error`. -/
def pushOutcome (env : SyncEnv) (meta : CloudSyncState) (w : World)
    (localSnapshot : CloudSyncSnapshot) (localHash : String) (remote : CloudSyncRemote)
    (msg : String) : SyncOutcome :=
  match env.pushRemote localSnapshot remote.revision with
  | .error m =>
    let next : CloudSyncState := { meta with lastStatus := .error, lastError := some m }
    { result := { ok := false, status := .error, message := m,
                  lastSyncedAt := next.lastSyncedAt,
                  lastRemoteRevision := next.lastRemoteRevision },
      meta := next, world := w, pushedSnap := some localSnapshot }
  | .ok pushed =>
    let next : CloudSyncState := { meta with
      lastSyncedAt := some env.now,
      lastStatus := .pushed,
      lastError := none,
      lastRemoteRevision := some pushed.revision,
      lastSnapshotHash := some localHash }
    { result := { ok := true, status := .pushed, message := msg,
                  lastSyncedAt := next.lastSyncedAt,
                  lastRemoteRevision := next.lastRemoteRevision },
      meta := next, world := w, pushedSnap := some localSnapshot }

/-- `syncCloudNow`. -/
def syncCloudNow (env : SyncEnv) (meta : CloudSyncState) (w : World)
    (input : SyncNowInput) : SyncOutcome :=
  let localSnapshot := collectLocalSnapshot w input.settings env.now
  let localHash := env.hashSnapshot localSnapshot
  match env.fetchRemote with
  | .error msg =>
    let next : CloudSyncState := { meta with lastStatus := .error, lastError := some msg }
    { result := { ok := false, status := .error, message := msg,
                  lastSyncedAt := next.lastSyncedAt,
                  lastRemoteRevision := next.lastRemoteRevision },
      meta := next, world := w, pushedSnap := none }
  | .ok remote =>
    let remoteHash := env.hashSnapshot remote.payload
    if remoteHash = localHash then
      let next : CloudSyncState := { meta with
        lastSyncedAt := some env.now,
        lastStatus := .upToDate,
        lastError := none,
        lastRemoteRevision := some remote.revision,
        lastSnapshotHash := some localHash }
      { result := { ok := true, status := .upToDate, message := "Cloud sync is up to date.",
                    lastSyncedAt := next.lastSyncedAt,
                    lastRemoteRevision := next.lastRemoteRevision },
        meta := next, world := w, pushedSnap := none }
    else
      let remoteChangedSinceLastSync :=
        match meta.lastRemoteRevision with
        | some r0 => decide (remote.revision ≠ r0)
        | none => false
      let localChangedSinceLastSync :=
        match meta.lastSnapshotHash with
        | some h0 => decide (h0 ≠ localHash)
        | none => true
      let resolvingConflict := input.resolveConflict = some true
      if resolvingConflict ∧ (input.policy = some .preferCloud ∨ input.policy = some .preferLocal) then
        if input.policy = some .preferCloud then
          pullOutcome env meta w remote remoteHash "Conflict resolved using cloud state."
        else
          pushOutcome env meta w localSnapshot localHash remote "Conflict resolved using local state."
      else if remoteChangedSinceLastSync && !localChangedSinceLastSync then
        pullOutcome env meta w remote remoteHash "Pulled latest cloud state."
      else if !remoteChangedSinceLastSync && localChangedSinceLastSync then
        pushOutcome env meta w localSnapshot localHash remote "Pushed local state to cloud."
      else
        match chooseConflictPolicy (input.policy.getD .ask) localSnapshot remote.payload with
        | .lcl => pushOutcome env meta w localSnapshot localHash remote "Conflict resolved using local state."
        | .rmt => pullOutcome env meta w remote remoteHash "Conflict resolved using cloud state."
        | .conflict =>
          let conflictNext : CloudSyncState := { meta with
            lastStatus := .conflict,
            lastError := some "Sync conflict detected. Choose local or cloud state.",
            lastRemoteRevision := some remote.revision }
          { result := { ok := false, status := .conflict, message := "Sync conflict detected.",
                        lastSyncedAt := meta.lastSyncedAt,
                        lastRemoteRevision := some remote.revision,
                        conflict := some { localSettingsUpdatedAt := localSnapshot.settingsUpdatedAt,
                                           localInstancesUpdatedAt := localSnapshot.instancesUpdatedAt,
                                           remoteSettingsUpdatedAt := remote.payload.settingsUpdatedAt,
                                           remoteInstancesUpdatedAt := remote.payload.instancesUpdatedAt } },
            meta := conflictNext, world := w, pushedSnap := none }

/-! ## Basic lemmas about the map operations -/

theorem assocFind_mem {α : Type} {l : List (String × α)} {k : String} {v : α}
    (h : assocFind l k = some v) : (k, v) ∈ l := by
  induction l with
  | nil => simp [assocFind] at h
  | cons e es ih =>
    rcases e with ⟨k0, v0⟩
    by_cases he : k0 = k
    · subst he
      simp [assocFind] at h
      subst h
      exact List.mem_cons_self _ _
    · simp [assocFind, he] at h
      exact List.mem_cons_of_mem _ (ih h)

theorem assocFind_assocSet_self {α : Type} (l : List (String × α)) (k : String) (v : α) :
    assocFind (assocSet l k v) k = some v := by
  induction l with
  | nil => simp [assocSet, assocFind]
  | cons e es ih =>
    by_cases he : e.1 = k
    · simp [assocSet, he, assocFind]
    · simp [assocSet, he, assocFind, ih]

theorem assocFind_assocSet_ne {α : Type} (l : List (String × α)) (k k2 : String) (v : α)
    (h : k2 ≠ k) : assocFind (assocSet l k v) k2 = assocFind l k2 := by
  have hk : ¬ k = k2 := fun hh => h hh.symm
  induction l with
  | nil => simp [assocSet, assocFind, hk]
  | cons e es ih =>
    by_cases he : e.1 = k
    · have he2 : ¬ e.1 = k2 := by rw [he]; exact hk
      simp [assocSet, he, assocFind, hk, he2]
    · simp [assocSet, he, assocFind, ih]

theorem dirGet_dirSet_self (d : Dir) (n : String) (b : Bytes) :
    dirGet (dirSet d n b) n = some b := by
  induction d with
  | nil => simp [dirSet, dirGet]
  | cons e es ih =>
    by_cases he : e.1 = n
    · simpa [dirSet, he] using ih
    · simpa [dirSet, dirGet, he] using ih

theorem dirGet_dirSet_ne (d : Dir) (n n2 : String) (b : Bytes) (h : n2 ≠ n) :
    dirGet (dirSet d n b) n2 = dirGet d n2 := by
  have hn : ¬ n = n2 := fun hh => h hh.symm
  induction d with
  | nil => simp [dirSet, dirGet, hn]
  | cons e es ih =>
    by_cases he : e.1 = n
    · have he2 : ¬ e.1 = n2 := by rw [he]; exact hn
      simp only [dirSet, List.filter_cons] at ih ⊢
      simp only [ne_eq, decide_not] at ih
      simp [he, he2, dirGet, hn, ih]
    · simp only [dirSet, List.filter_cons] at ih ⊢
      simp only [ne_eq, decide_not] at ih
      by_cases he2 : e.1 = n2
      · simp [he, he2, dirGet, h, hn]
      · simp [he, he2, dirGet, ih]

theorem dirGet_filterName (d : Dir) (p : String → Bool) (n : String) :
    dirGet (d.filter (fun e => p e.1)) n = if p n then dirGet d n else none := by
  induction d with
  | nil => simp [dirGet]
  | cons e es ih =>
    by_cases hp : p e.1
    · by_cases he : e.1 = n
      · subst he
        simp [List.filter_cons, hp, dirGet]
      · simp [List.filter_cons, hp, dirGet, he, ih]
    · by_cases he : e.1 = n
      · subst he
        simp only [List.filter_cons]
        simp [hp, dirGet, ih]
      · simp [List.filter_cons, hp, dirGet, he, ih]

theorem dirGet_cleanOld (d : Dir) (id n : String) :
    dirGet (cleanOldFilesForCatalogId d id) n =
      if strStarts n (id ++ "__") && isJarName n then none else dirGet d n := by
  have h := dirGet_filterName d (fun s => !(strStarts s (id ++ "__") && isJarName s)) n
  by_cases hc : strStarts n (id ++ "__") && isJarName n
  · simpa [cleanOldFilesForCatalogId, hc] using h
  · simpa [cleanOldFilesForCatalogId, hc] using h

theorem dirGet_cleanDeps (d : Dir) (n : String) :
    dirGet (cleanAutoDependencyFiles d) n =
      if strStarts n "dep__" && strEnds n ".jar" then none else dirGet d n := by
  have h := dirGet_filterName d (fun s => !(strStarts s "dep__" && strEnds s ".jar")) n
  by_cases hc : strStarts n "dep__" && strEnds n ".jar"
  · simpa [cleanAutoDependencyFiles, hc] using h
  · simpa [cleanAutoDependencyFiles, hc] using h

/-- Distinct catalog entries have distinct ids. -/
theorem catalogIdInj : ∀ a ∈ CATALOG, ∀ b ∈ CATALOG, a.id = b.id → a = b := by decide

/-! ## Claim C9: the settings allow-list -/

theorem sanitizeSettings_keys {s : Settings} {k : String} {v : Nat}
    (h : (k, v) ∈ sanitizeSettings s) : k ∈ SETTINGS_ALLOW_KEYS := by
  rw [sanitizeSettings, List.mem_filterMap] at h
  obtain ⟨x, hx, hmap⟩ := h
  cases hfind : assocFind s x with
  | none => rw [hfind] at hmap; simp at hmap
  | some w =>
    rw [hfind] at hmap
    simp at hmap
    exact hmap.1 ▸ hx

theorem sanitizeSettings_agree {s1 s2 : Settings}
    (h : ∀ k ∈ SETTINGS_ALLOW_KEYS, assocFind s1 k = assocFind s2 k) :
    sanitizeSettings s1 = sanitizeSettings s2 := by
  rw [sanitizeSettings, sanitizeSettings]
  exact List.filterMap_congr (fun x hx => by rw [h x hx])

theorem pullOutcome_pushedSnap (env : SyncEnv) (meta : CloudSyncState) (w : World)
    (remote : CloudSyncRemote) (rh msg : String) :
    (pullOutcome env meta w remote rh msg).pushedSnap = none := rfl

theorem pushOutcome_pushedSnap (env : SyncEnv) (meta : CloudSyncState) (w : World)
    (ls : CloudSyncSnapshot) (lh : String) (remote : CloudSyncRemote) (msg : String)
    {sn : CloudSyncSnapshot}
    (h : (pushOutcome env meta w ls lh remote msg).pushedSnap = some sn) : sn = ls := by
  unfold pushOutcome at h
  cases hp : env.pushRemote ls remote.revision with
  | error m => rw [hp] at h; simp at h; exact h.symm
  | ok pushed => rw [hp] at h; simp at h; exact h.symm

theorem syncCloudNow_pushedSnap (env : SyncEnv) (meta : CloudSyncState) (w : World)
    (input : SyncNowInput) {sn : CloudSyncSnapshot}
    (h : (syncCloudNow env meta w input).pushedSnap = some sn) :
    sn = collectLocalSnapshot w input.settings env.now := by
  unfold syncCloudNow at h
  cases hf : env.fetchRemote with
  | error m => rw [hf] at h; simp at h
  | ok remote =>
    rw [hf] at h
    simp only at h
    split at h
    · simp at h
    · split at h
      · split at h
        · rw [pullOutcome_pushedSnap] at h; simp at h
        · exact pushOutcome_pushedSnap _ _ _ _ _ _ _ h
      · split at h
        · rw [pullOutcome_pushedSnap] at h; simp at h
        · split at h
          · exact pushOutcome_pushedSnap _ _ _ _ _ _ _ h
          · split at h
            · exact pushOutcome_pushedSnap _ _ _ _ _ _ _ h
            · rw [pullOutcome_pushedSnap] at h; simp at h
            · simp at h

/-- Claim C9: settings are only ever captured into the local snapshot,
transmitted on push, or applied as the pull patch through the fixed
allow-list, and two settings objects agreeing on the allow-listed keys are
captured identically, so keys outside the allow-list never influence or
appear in the round-tripped settings. -/
theorem C9_settings_allow_list :
    (∀ (s : Settings) (k : String) (v : Nat), (k, v) ∈ sanitizeSettings s → k ∈ SETTINGS_ALLOW_KEYS)
    ∧ (∀ (s1 s2 : Settings), (∀ k ∈ SETTINGS_ALLOW_KEYS, assocFind s1 k = assocFind s2 k) →
        sanitizeSettings s1 = sanitizeSettings s2)
    ∧ (∀ (w : World) (s : Settings) (now : Nat),
        (collectLocalSnapshot w s now).settings = sanitizeSettings s)
    ∧ (∀ (w : World) (snap : CloudSyncSnapshot),
        (applyRemoteSnapshot w snap).2 = sanitizeSettings snap.settings)
    ∧ (∀ (env : SyncEnv) (meta : CloudSyncState) (w : World) (input : SyncNowInput)
        (sn : CloudSyncSnapshot),
        (syncCloudNow env meta w input).pushedSnap = some sn →
        sn.settings = sanitizeSettings input.settings) := by
  refine ⟨fun s k v h => sanitizeSettings_keys h, fun s1 s2 h => sanitizeSettings_agree h,
    fun w s now => rfl, fun w snap => rfl, fun env meta w input sn h => ?_⟩
  rw [syncCloudNow_pushedSnap env meta w input h]
  rfl

/-- Witness for C9 at concrete settings objects: a non-allow-listed key does
not influence the sanitized result. -/
theorem C9_witness :
    sanitizeSettings [("secretToken", 7), ("theme", 1)] =
    sanitizeSettings [("theme", 1), ("apiKey", 9)] :=
  C9_settings_allow_list.2.1 _ _ (by decide)

/-! ## Claim C2: required entries are always enabled -/

/-- The required-entry invariant on the persisted enabled map. -/
def requiredEnabledInv (st : ModsState) : Prop :=
  ∀ m ∈ CATALOG, m.required = true → lookupEnabled st m.id = true

instance (st : ModsState) : Decidable (requiredEnabledInv st) := by
  unfold requiredEnabledInv
  infer_instance

theorem setModEnabled_ok_parts {env : Env} {st : ModsState} {mods cache : Dir}
    {modId : String} {en : Bool} {st2 : ModsState} {m2 : Dir}
    (h : setModEnabled env st mods cache modId en = .ok (st2, m2)) :
    ∃ mod, CATALOG.find? (fun m => m.id == modId) = some mod ∧
      st2 = { st with enabled := assocSet st.enabled modId (if mod.required then true else en) } := by
  unfold setModEnabled at h
  cases hf : CATALOG.find? (fun m => m.id == modId) with
  | none => rw [hf] at h; simp at h
  | some mod =>
    rw [hf] at h
    simp only [Except.ok.injEq, Prod.mk.injEq] at h
    exact ⟨mod, rfl, h.1.symm⟩

theorem C2_lemma_set_preserves {env : Env} {st : ModsState} {mods cache : Dir}
    {modId : String} {en : Bool} {st2 : ModsState} {m2 : Dir}
    (hinv : requiredEnabledInv st)
    (h : setModEnabled env st mods cache modId en = .ok (st2, m2)) :
    requiredEnabledInv st2 := by
  obtain ⟨mod, hf, hst2⟩ := setModEnabled_ok_parts h
  have hmem : mod ∈ CATALOG := List.mem_of_find?_eq_some hf
  have hid : mod.id = modId := by
    have := List.find?_some hf
    simpa using this
  intro m hm hreq
  subst hst2
  by_cases he : m.id = modId
  · have hmmod : m = mod := catalogIdInj m hm mod hmem (he.trans hid.symm)
    subst hmmod
    simp [lookupEnabled, he, assocFind_assocSet_self, hreq]
  · simp only [lookupEnabled] at *
    rw [assocFind_assocSet_ne _ _ _ _ he]
    exact hinv m hm hreq

/-- Claim C2: `enabled[id] == true` for every required catalog entry holds in
the default state, is preserved and (for the entry being toggled) enforced by
every `setModEnabled` call regardless of the requested value, and is
preserved by every `refreshModsForInstance` call, which leaves the persisted
enabled map unchanged. -/
theorem C2_required_always_enabled :
    requiredEnabledInv defaultState
    ∧ (∀ (env : Env) (st : ModsState) (mods cache : Dir) (modId : String) (en : Bool)
        (st2 : ModsState) (m2 : Dir),
        requiredEnabledInv st →
        setModEnabled env st mods cache modId en = .ok (st2, m2) →
        requiredEnabledInv st2)
    ∧ (∀ (env : Env) (st : ModsState) (mods cache : Dir) (modId : String) (en : Bool)
        (st2 : ModsState) (m2 : Dir) (m : CatalogMod),
        setModEnabled env st mods cache modId en = .ok (st2, m2) →
        m ∈ CATALOG → m.id = modId → m.required = true →
        lookupEnabled st2 modId = true)
    ∧ (∀ (env : Env) (mc : String) (now : Nat) (targets : Option (List String)) (fuel : Nat)
        (st : ModsState) (mods cache : Dir),
        (refreshModsForInstance env mc now targets fuel st mods cache).state.enabled = st.enabled
        ∧ (requiredEnabledInv st →
           requiredEnabledInv (refreshModsForInstance env mc now targets fuel st mods cache).state)) := by
  refine ⟨by decide, fun env st mods cache modId en st2 m2 hinv h => C2_lemma_set_preserves hinv h,
    ?_, ?_⟩
  · intro env st mods cache modId en st2 m2 m h hm hid hreq
    obtain ⟨mod, hf, hst2⟩ := setModEnabled_ok_parts h
    have hmem : mod ∈ CATALOG := List.mem_of_find?_eq_some hf
    have hid2 : mod.id = modId := by
      have := List.find?_some hf
      simpa using this
    have hmmod : m = mod := catalogIdInj m hm mod hmem (hid.trans hid2.symm)
    subst hst2
    simp [lookupEnabled, assocFind_assocSet_self, ← hmmod, hreq]
  · intro env mc now targets fuel st mods cache
    refine ⟨rfl, fun hinv m hm hreq => ?_⟩
    have : lookupEnabled (refreshModsForInstance env mc now targets fuel st mods cache).state m.id
        = lookupEnabled st m.id := rfl
    rw [this]
    exact hinv m hm hreq

/-- Witness for C2: a `setModEnabled` call that requests disabling the
required entry `fabric-api` still persists it as enabled. -/
theorem C2_witness :
    lookupEnabled
      { enabled := assocSet defaultState.enabled "fabric-api" true,
        resolved := defaultState.resolved }
      "fabric-api" = true := by
  refine C2_required_always_enabled.2.2.1
    ⟨fun _ _ => .ok none, fun _ => .ok [], fun _ => "", fun _ => none⟩
    defaultState [] [] "fabric-api" false _ _
    { id := "fabric-api", name := "Fabric API", required := true, projectId := "P7dR8mSH" }
    rfl (by decide) rfl rfl

/-! ## Claim C10: unavailable/error records are disabled; the view's flag
comes from the enabled map alone -/

/-- Every persisted resolved record with status `unavailable` or `error` has
`enabled = false`. -/
def resolvedDisabledInv (st : ModsState) : Prop :=
  ∀ e ∈ st.resolved,
    (e.2.status = MStatus.unavailable ∨ e.2.status = MStatus.error) → e.2.enabled = false

instance (st : ModsState) : Decidable (resolvedDisabledInv st) := by
  unfold resolvedDisabledInv
  infer_instance

theorem processEntry_record_inv {env : Env} {mc : String} {now : Nat}
    {tset : Option (List String)} {st : ModsState} {mods cache : Dir} {mod : CatalogMod}
    {r : ResolvedMod} (hst : resolvedDisabledInv st)
    (h : (processEntry env mc now tset st mods cache mod).record = some r) :
    (r.status = MStatus.unavailable ∨ r.status = MStatus.error) → r.enabled = false := by
  intro hs
  unfold processEntry at h
  have hcore : ∀ (mods2 cache2 : Dir),
      (processEntryCore env mc now st mods2 cache2 mod).record = some r → r.enabled = false := by
    intro mods2 cache2 hc
    simp only [processEntryCore, installOk] at hc
    by_cases hen : (!(mod.required || lookupEnabled st mod.id)) = true
    · rw [if_pos hen] at hc
      simp only [EntryOut.record, Option.some.injEq] at hc
      rw [← hc]
      rfl
    · rw [if_neg hen] at hc
      cases hres : env.resolveLatest mod.projectId mc with
      | error e =>
        rw [hres] at hc
        simp only [EntryOut.record, Option.some.injEq] at hc
        rw [← hc]
        rfl
      | ok ro =>
        rw [hres] at hc
        cases ro with
        | none =>
          simp only [EntryOut.record, Option.some.injEq] at hc
          rw [← hc]
          rfl
        | some ri =>
          simp only at hc
          cases hcg : dirGet cache2 (mainCacheName mod.id ri) with
          | some b =>
            rw [hcg] at hc
            simp only [EntryOut.record, Option.some.injEq] at hc
            rw [← hc] at hs
            simp [okRec] at hs
          | none =>
            rw [hcg] at hc
            cases hdl : env.download ri.url with
            | error e =>
              rw [hdl] at hc
              dsimp only at hc
              simp only [EntryOut.record, Option.some.injEq] at hc
              rw [← hc]
              rfl
            | ok buf =>
              rw [hdl] at hc
              dsimp only at hc
              by_cases hsha : sha1Check env ri buf = true
              · rw [if_pos hsha] at hc
                simp only [EntryOut.record, Option.some.injEq] at hc
                rw [← hc] at hs
                simp [okRec] at hs
              · rw [if_neg hsha] at hc
                simp only [EntryOut.record, Option.some.injEq] at hc
                rw [← hc]
                rfl
  split at h
  · split at h
    · exact hcore _ _ h
    · exact hst (mod.id, r) (assocFind_mem h) hs
  · exact hcore _ _ h

theorem processList_resolved_inv {env : Env} {mc : String} {now : Nat}
    {tset : Option (List String)} {st : ModsState} (hst : resolvedDisabledInv st) :
    ∀ (ms : List CatalogMod) (mods cache : Dir),
      ∀ e ∈ (processList env mc now tset st ms mods cache).resolved,
        (e.2.status = MStatus.unavailable ∨ e.2.status = MStatus.error) → e.2.enabled = false := by
  intro ms
  induction ms with
  | nil => intro mods cache e he; simp [processList] at he
  | cons m tl ih =>
    intro mods cache e he hs
    simp only [processList, List.mem_append] at he
    cases he with
    | inr h => exact ih _ _ e h hs
    | inl h =>
      cases hr : (processEntry env mc now tset st mods cache m).record with
      | none => rw [hr] at h; simp at h
      | some r =>
        rw [hr] at h
        simp at h
        rw [h]
        exact processEntry_record_inv hst hr (by rw [h] at hs; exact hs)

/-- Claim C10: after `refreshModsForInstance` every resolved record with
status `unavailable` or `error` has `enabled = false` (fresh records
unconditionally, carried-over records assuming they satisfied it before), and
the `listMods` view derives its enabled flag from the enabled map with
required entries forced true, never from the record's own enabled field. -/
theorem C10_disabled_records_and_view :
    (∀ (env : Env) (mc : String) (now : Nat) (targets : Option (List String)) (fuel : Nat)
        (st : ModsState) (mods cache : Dir),
        resolvedDisabledInv st →
        resolvedDisabledInv (refreshModsForInstance env mc now targets fuel st mods cache).state)
    ∧ (∀ st : ModsState, (listMods st).map (fun v => (v.id, v.enabled)) =
        CATALOG.map (fun m => (m.id, m.required || lookupEnabled st m.id)))
    ∧ (∀ st1 st2 : ModsState, st1.enabled = st2.enabled →
        (listMods st1).map (fun v => v.enabled) = (listMods st2).map (fun v => v.enabled)) := by
  refine ⟨?_, ?_, ?_⟩
  · intro env mc now targets fuel st mods cache hst e he hs
    exact processList_resolved_inv hst CATALOG mods cache e he hs
  · intro st
    simp [listMods, List.map_map]
  · intro st1 st2 h
    simp [listMods, List.map_map, lookupEnabled, h]

/-- Witness for C10: a state whose resolved map marks `sodium` as an enabled
error record violates the invariant, while the refreshed state of an
invariant-satisfying input satisfies it. -/
theorem C10_witness :
    resolvedDisabledInv
      (refreshModsForInstance
        ⟨fun _ _ => .ok none, fun _ => .ok [], fun _ => "", fun _ => none⟩
        "1.20.1" 0 none 0 defaultState [] []).state :=
  C10_disabled_records_and_view.1 _ "1.20.1" 0 none 0 defaultState [] [] (by decide)

/-! ## Claim C3: second sync pulls after the remote revision advances -/

theorem syncCloudNow_upToDate (env : SyncEnv) (meta0 : CloudSyncState) (w : World)
    (input : SyncNowInput) (remote : CloudSyncRemote)
    (h : env.fetchRemote = .ok remote)
    (hfirst : env.hashSnapshot remote.payload
      = env.hashSnapshot (collectLocalSnapshot w input.settings env.now)) :
    syncCloudNow env meta0 w input =
      { result := { ok := true, status := .upToDate, message := "Cloud sync is up to date.",
                    lastSyncedAt := some env.now, lastRemoteRevision := some remote.revision },
        meta := { lastSyncedAt := some env.now, lastStatus := .upToDate, lastError := none,
                  lastRemoteRevision := some remote.revision,
                  lastSnapshotHash := some (env.hashSnapshot (collectLocalSnapshot w input.settings env.now)) },
        world := w, pushedSnap := none } := by
  unfold syncCloudNow
  rw [h]
  dsimp only
  rw [if_pos hfirst]

/-- Claim C3 (amended): if the first attempt ends up-to-date against remote
revision `r1`, the remote then advances to a different revision with changed
payload, and the second attempt observes the same local snapshot (same world,
settings, hash function and clock reading, so the capturedAt-sensitive local
hash is unchanged) and is not a conflict-resolution call, then the second
attempt returns `status=pulled` and records the new remote revision. -/
theorem C3_second_sync_pulls
    (env1 env2 : SyncEnv) (meta0 : CloudSyncState) (w : World)
    (input1 input2 : SyncNowInput) (remote1 remote2 : CloudSyncRemote)
    (h1 : env1.fetchRemote = .ok remote1)
    (h2 : env2.fetchRemote = .ok remote2)
    (hhash : env2.hashSnapshot = env1.hashSnapshot)
    (hnow : env2.now = env1.now)
    (hsettings : input2.settings = input1.settings)
    (hfirst : env1.hashSnapshot remote1.payload
      = env1.hashSnapshot (collectLocalSnapshot w input1.settings env1.now))
    (hrev : remote2.revision ≠ remote1.revision)
    (hdiff : env2.hashSnapshot remote2.payload
      ≠ env2.hashSnapshot (collectLocalSnapshot w input2.settings env2.now))
    (hres : input2.resolveConflict ≠ some true) :
    (syncCloudNow env1 meta0 w input1).world = w
    ∧ (syncCloudNow env2 (syncCloudNow env1 meta0 w input1).meta w input2).result.status =
        SyncResultStatus.pulled
    ∧ (syncCloudNow env2 (syncCloudNow env1 meta0 w input1).meta w input2).meta.lastRemoteRevision =
        some remote2.revision
    ∧ (syncCloudNow env2 (syncCloudNow env1 meta0 w input1).meta w input2).result.lastRemoteRevision =
        some remote2.revision := by
  rw [syncCloudNow_upToDate env1 meta0 w input1 remote1 h1 hfirst]
  refine ⟨rfl, ?_⟩
  have hlocal : env2.hashSnapshot (collectLocalSnapshot w input2.settings env2.now)
      = env1.hashSnapshot (collectLocalSnapshot w input1.settings env1.now) := by
    rw [hhash, hnow, hsettings]
  unfold syncCloudNow
  rw [h2]
  dsimp only
  rw [if_neg hdiff]
  have hrc : (decide (remote2.revision ≠ remote1.revision)) = true := by
    simp [hrev]
  have hlc : (decide (env1.hashSnapshot (collectLocalSnapshot w input1.settings env1.now)
      ≠ env2.hashSnapshot (collectLocalSnapshot w input2.settings env2.now))) = false := by
    simp [hlocal]
  rw [if_neg (fun hc => hres hc.1)]
  rw [hrc, hlc]
  exact ⟨rfl, rfl, rfl⟩

/-- Witness for C3 at concrete inputs: same clock reading on both attempts,
remote revision 1 then 2, second attempt pulls. -/
theorem C3_witness :
    (syncCloudNow
      ⟨Except.ok ⟨2, 0, ⟨[], none, [], [], [], 0, 0, 5⟩⟩, fun _ _ => .error "offline",
        fun s => Nat.repr s.capturedAt, 0⟩
      (syncCloudNow
        ⟨Except.ok ⟨1, 0, ⟨[], none, [], [], [], 0, 0, 0⟩⟩, fun _ _ => .error "offline",
          fun s => Nat.repr s.capturedAt, 0⟩
        ⟨none, .idle, none, none, none⟩ { instances := [] } { settings := [] }).meta
      { instances := [] } { settings := [] }).result.status = SyncResultStatus.pulled :=
  (C3_second_sync_pulls
    ⟨Except.ok ⟨1, 0, ⟨[], none, [], [], [], 0, 0, 0⟩⟩, fun _ _ => .error "offline",
      fun s => Nat.repr s.capturedAt, 0⟩
    ⟨Except.ok ⟨2, 0, ⟨[], none, [], [], [], 0, 0, 5⟩⟩, fun _ _ => .error "offline",
      fun s => Nat.repr s.capturedAt, 0⟩
    ⟨none, .idle, none, none, none⟩ { instances := [] } { settings := [] } { settings := [] }
    ⟨1, 0, ⟨[], none, [], [], [], 0, 0, 0⟩⟩ ⟨2, 0, ⟨[], none, [], [], [], 0, 0, 5⟩⟩
    rfl rfl rfl rfl rfl (by decide) (by decide) (by decide) (by decide)).2.1

def C3cex_hash : CloudSyncSnapshot → String := fun s => Nat.repr s.capturedAt

def C3cex_env1 : SyncEnv :=
  ⟨.ok ⟨1, 0, ⟨[], none, [], [], [], 0, 0, 0⟩⟩, fun _ _ => .error "offline", C3cex_hash, 0⟩

def C3cex_env2 : SyncEnv :=
  ⟨.ok ⟨2, 0, ⟨[], none, [], [], [], 0, 0, 5⟩⟩, fun _ _ => .error "offline", C3cex_hash, 1⟩

def C3cex_o1 : SyncOutcome :=
  syncCloudNow C3cex_env1 ⟨none, .idle, none, none, none⟩ { instances := [] } { settings := [] }

def C3cex_o2 : SyncOutcome :=
  syncCloudNow C3cex_env2 C3cex_o1.meta C3cex_o1.world { settings := [] }

/-- Claim C3 as stated is false on the code: between two attempts the remote
revision advances (1 to 2) and the local world and settings are unchanged,
but because the snapshot hash covers `capturedAt` (the clock reading, 0 then
1), the engine judges the local side changed and reports a conflict instead
of pulling. -/
theorem C3_counterexample :
    C3cex_o1.result.status = SyncResultStatus.upToDate
    ∧ C3cex_o1.world = { instances := [] }
    ∧ C3cex_o2.result.status = SyncResultStatus.conflict
    ∧ C3cex_o2.result.status ≠ SyncResultStatus.pulled := by decide

/-! ## Prefix toolkit for the naming conventions -/

theorem strStarts_append (p x : String) : strStarts (p ++ x) p = true := by
  rw [strStarts, List.isPrefixOf_iff_prefix, String.data_append]
  exact List.prefix_append _ _

theorem strStarts_append2 (p x y : String) : strStarts (p ++ x ++ y) p = true := by
  rw [String.append_assoc]
  exact strStarts_append p (x ++ y)

theorem strStarts_append3 (p x y z : String) : strStarts (p ++ x ++ y ++ z) p = true := by
  rw [String.append_assoc, String.append_assoc]
  exact strStarts_append p (x ++ (y ++ z))

theorem strStarts_comparable {n p q : String} (hp : strStarts n p = true)
    (hq : strStarts n q = true) :
    p.data.isPrefixOf q.data = true ∨ q.data.isPrefixOf p.data = true := by
  rw [strStarts, List.isPrefixOf_iff_prefix] at hp hq
  rw [List.isPrefixOf_iff_prefix, List.isPrefixOf_iff_prefix]
  exact List.prefix_or_prefix_of_prefix hp hq

/-- If two candidate prefixes are mutually incomparable, no string starts
with both. -/
theorem not_both_starts {n p q : String}
    (h1 : (p.data.isPrefixOf q.data) = false)
    (h2 : (q.data.isPrefixOf p.data) = false)
    (hp : strStarts n p = true) : strStarts n q = false := by
  by_cases hq : strStarts n q = true
  · rcases strStarts_comparable hp hq with h | h
    · rw [h1] at h
      exact absurd h (by simp)
    · rw [h2] at h
      exact absurd h (by simp)
  · simpa using hq

/-- Distinct catalog install prefixes `<id>__` are mutually incomparable. -/
theorem catalog_sep_incomp : ∀ a ∈ CATALOG, ∀ b ∈ CATALOG, a.id ≠ b.id →
    ((a.id ++ "__").data.isPrefixOf ((b.id ++ "__").data)) = false := by decide

/-- The dependency install prefix `dep__` is incomparable with every catalog
install prefix. -/
theorem catalog_dep_incomp : ∀ a ∈ CATALOG,
    (("dep__").data.isPrefixOf ((a.id ++ "__").data)) = false ∧
    (((a.id ++ "__").data).isPrefixOf (("dep__").data)) = false := by decide

/-- Distinct catalog cache-key prefixes `<id>-` are mutually incomparable. -/
theorem catalog_dash_incomp : ∀ a ∈ CATALOG, ∀ b ∈ CATALOG, a.id ≠ b.id →
    ((a.id ++ "-").data.isPrefixOf ((b.id ++ "-").data)) = false := by decide

/-- The dependency cache-key prefix `dep-` is incomparable with every catalog
cache-key prefix. -/
theorem catalog_depdash_incomp : ∀ a ∈ CATALOG,
    (("dep-").data.isPrefixOf ((a.id ++ "-").data)) = false ∧
    (((a.id ++ "-").data).isPrefixOf (("dep-").data)) = false := by decide

/-- Four-segment variant of `strStarts_append`. -/
theorem strStarts_append4 (p x y z w : String) : strStarts (p ++ x ++ y ++ z ++ w) p = true := by
  rw [String.append_assoc, String.append_assoc, String.append_assoc]
  exact strStarts_append p (x ++ (y ++ (z ++ w)))

/-- The installed file name for a catalog entry starts with its `<id>__`. -/
theorem targetFileName_starts (id fn : String) :
    strStarts (targetFileName id fn true) (id ++ "__") = true := by
  simp only [targetFileName, if_true]
  exact strStarts_append (id ++ "__") (sanitizeName fn)

/-- The main cache key for a catalog entry starts with its `<id>-`. -/
theorem mainCacheName_starts (id : String) (r : RInfo) :
    strStarts (mainCacheName id r) (id ++ "-") = true := by
  rw [mainCacheName]
  cases r.sha1 with
  | none =>
    dsimp only
    exact strStarts_append (id ++ "-") r.fileName
  | some h =>
    dsimp only
    by_cases hh : h = ""
    · rw [if_pos hh]
      exact strStarts_append (id ++ "-") r.fileName
    · rw [if_neg hh]
      exact strStarts_append2 (id ++ "-") h ".jar"

/-- The dependency cache key starts with `dep-`. -/
theorem depCacheName_starts (proj : String) (r : RInfo) :
    strStarts (depCacheName proj r) "dep-" = true := by
  rw [depCacheName]
  cases r.sha1 with
  | none =>
    dsimp only
    exact strStarts_append3 "dep-" proj "-" r.fileName
  | some h =>
    dsimp only
    by_cases hh : h = ""
    · rw [if_pos hh]
      exact strStarts_append3 "dep-" proj "-" r.fileName
    · rw [if_neg hh]
      exact strStarts_append4 "dep-" proj "-" h ".jar"

/-- A dependency install name starts with `dep__`. -/
theorem depInstallName_starts (modId fn : String) :
    strStarts ("dep__" ++ modId ++ "__" ++ sanitizeName fn) "dep__" = true :=
  strStarts_append3 "dep__" modId "__" (sanitizeName fn)

/-! ## Frame lemmas: which files each phase can touch -/

theorem processEntryCore_mods_frame {env : Env} {mc : String} {now : Nat} {st : ModsState}
    {mods cache : Dir} {mod : CatalogMod} {n : String}
    (hn : strStarts n (mod.id ++ "__") = false) :
    dirGet (processEntryCore env mc now st mods cache mod).mods n = dirGet mods n := by
  have hclean : ∀ d : Dir, dirGet (cleanOldFilesForCatalogId d mod.id) n = dirGet d n := by
    intro d
    rw [dirGet_cleanOld, hn]
    simp
  have htar : ∀ fn, n ≠ targetFileName mod.id fn true := by
    intro fn he
    have := targetFileName_starts mod.id fn
    rw [← he, hn] at this
    exact absurd this (by simp)
  simp only [processEntryCore, installOk]
  by_cases hen : (!(mod.required || lookupEnabled st mod.id)) = true
  · rw [if_pos hen]
    exact hclean mods
  · rw [if_neg hen]
    cases hres : env.resolveLatest mod.projectId mc with
    | error e => exact hclean mods
    | ok ro =>
      cases ro with
      | none => exact hclean mods
      | some ri =>
        dsimp only
        cases hcg : dirGet cache (mainCacheName mod.id ri) with
        | some b =>
          dsimp only
          rw [dirGet_dirSet_ne _ _ _ _ (htar ri.fileName)]
          exact hclean mods
        | none =>
          dsimp only
          cases hdl : env.download ri.url with
          | error e => exact hclean mods
          | ok buf =>
            dsimp only
            by_cases hsha : sha1Check env ri buf = true
            · rw [if_pos hsha]
              dsimp only
              rw [dirGet_dirSet_self]
              dsimp only
              rw [dirGet_dirSet_ne _ _ _ _ (htar ri.fileName)]
              exact hclean mods
            · rw [if_neg hsha]
              exact hclean mods

theorem processEntryCore_cache_frame {env : Env} {mc : String} {now : Nat} {st : ModsState}
    {mods cache : Dir} {mod : CatalogMod} {n : String}
    (hn : strStarts n (mod.id ++ "-") = false) :
    dirGet (processEntryCore env mc now st mods cache mod).cache n = dirGet cache n := by
  have hkey : ∀ r : RInfo, n ≠ mainCacheName mod.id r := by
    intro r he
    have := mainCacheName_starts mod.id r
    rw [← he, hn] at this
    exact absurd this (by simp)
  simp only [processEntryCore, installOk]
  by_cases hen : (!(mod.required || lookupEnabled st mod.id)) = true
  · rw [if_pos hen]
  · rw [if_neg hen]
    cases hres : env.resolveLatest mod.projectId mc with
    | error e => rfl
    | ok ro =>
      cases ro with
      | none => rfl
      | some ri =>
        dsimp only
        cases hcg : dirGet cache (mainCacheName mod.id ri) with
        | some b => rfl
        | none =>
          dsimp only
          cases hdl : env.download ri.url with
          | error e => rfl
          | ok buf =>
            dsimp only
            by_cases hsha : sha1Check env ri buf = true
            · rw [if_pos hsha]
              dsimp only
              exact dirGet_dirSet_ne _ _ _ _ (hkey ri)
            · rw [if_neg hsha]

theorem processEntry_mods_frame {env : Env} {mc : String} {now : Nat}
    {tset : Option (List String)} {st : ModsState} {mods cache : Dir} {mod : CatalogMod}
    {n : String}
    (h : strStarts n (mod.id ++ "__") = false ∨ (∃ ts, tset = some ts ∧ mod.id ∉ ts)) :
    dirGet (processEntry env mc now tset st mods cache mod).mods n = dirGet mods n := by
  unfold processEntry
  cases tset with
  | none =>
    dsimp only
    rcases h with h | ⟨ts, hts, _⟩
    · exact processEntryCore_mods_frame h
    · exact absurd hts (by simp)
  | some ts =>
    dsimp only
    by_cases hmem : mod.id ∈ ts
    · rw [if_pos hmem]
      rcases h with h | ⟨ts2, hts2, hnot⟩
      · exact processEntryCore_mods_frame h
      · cases hts2
        exact absurd hmem hnot
    · rw [if_neg hmem]

theorem processEntry_cache_frame {env : Env} {mc : String} {now : Nat}
    {tset : Option (List String)} {st : ModsState} {mods cache : Dir} {mod : CatalogMod}
    {n : String}
    (h : strStarts n (mod.id ++ "-") = false ∨ (∃ ts, tset = some ts ∧ mod.id ∉ ts)) :
    dirGet (processEntry env mc now tset st mods cache mod).cache n = dirGet cache n := by
  unfold processEntry
  cases tset with
  | none =>
    dsimp only
    rcases h with h | ⟨ts, hts, _⟩
    · exact processEntryCore_cache_frame h
    · exact absurd hts (by simp)
  | some ts =>
    dsimp only
    by_cases hmem : mod.id ∈ ts
    · rw [if_pos hmem]
      rcases h with h | ⟨ts2, hts2, hnot⟩
      · exact processEntryCore_cache_frame h
      · cases hts2
        exact absurd hmem hnot
    · rw [if_neg hmem]

theorem processList_mods_frame {env : Env} {mc : String} {now : Nat}
    {tset : Option (List String)} {st : ModsState} :
    ∀ (ms : List CatalogMod) (mods cache : Dir) (n : String),
      (∀ m ∈ ms, strStarts n (m.id ++ "__") = false ∨ (∃ ts, tset = some ts ∧ m.id ∉ ts)) →
      dirGet (processList env mc now tset st ms mods cache).mods n = dirGet mods n := by
  intro ms
  induction ms with
  | nil => intro mods cache n h; rfl
  | cons m tl ih =>
    intro mods cache n h
    simp only [processList]
    rw [ih _ _ n (fun x hx => h x (List.mem_cons_of_mem _ hx))]
    exact processEntry_mods_frame (h m (List.mem_cons_self _ _))

theorem processList_cache_frame {env : Env} {mc : String} {now : Nat}
    {tset : Option (List String)} {st : ModsState} :
    ∀ (ms : List CatalogMod) (mods cache : Dir) (n : String),
      (∀ m ∈ ms, strStarts n (m.id ++ "-") = false ∨ (∃ ts, tset = some ts ∧ m.id ∉ ts)) →
      dirGet (processList env mc now tset st ms mods cache).cache n = dirGet cache n := by
  intro ms
  induction ms with
  | nil => intro mods cache n h; rfl
  | cons m tl ih =>
    intro mods cache n h
    simp only [processList]
    rw [ih _ _ n (fun x hx => h x (List.mem_cons_of_mem _ hx))]
    exact processEntry_cache_frame (h m (List.mem_cons_self _ _))

theorem depStep_mods_frame {env : Env} {mc : String} {s : WalkState} {d : String} {n : String}
    (hn : strStarts n "dep__" = false) :
    dirGet (depStep env mc s d).mods n = dirGet s.mods n := by
  have hnm : ∀ modId fn, n ≠ "dep__" ++ modId ++ "__" ++ sanitizeName fn := by
    intro modId fn he
    have := depInstallName_starts modId fn
    rw [← he, hn] at this
    exact absurd this (by simp)
  unfold depStep
  cases hres : env.resolveLatest d mc with
  | error e => rfl
  | ok ro =>
    cases ro with
    | none => rfl
    | some ri =>
      dsimp only
      cases hcg : dirGet s.cache (depCacheName d ri) with
      | some b =>
        dsimp only
        cases hg2 : dirGet s.cache (depCacheName d ri) with
        | none => rfl
        | some bytes =>
          dsimp only
          by_cases hin : (env.fabricModId bytes).getD d ∈ s.installed
          · rw [if_pos hin]
          · rw [if_neg hin]
            dsimp only
            exact dirGet_dirSet_ne _ _ _ _ (hnm _ _)
      | none =>
        dsimp only
        cases hdl : env.download ri.url with
        | error e => rfl
        | ok buf =>
          dsimp only
          by_cases hsha : sha1Check env ri buf = true
          · rw [if_pos hsha]
            dsimp only
            cases hg2 : dirGet (dirSet s.cache (depCacheName d ri) buf) (depCacheName d ri) with
            | none => rfl
            | some bytes =>
              dsimp only
              by_cases hin : (env.fabricModId bytes).getD d ∈ s.installed
              · rw [if_pos hin]
              · rw [if_neg hin]
                dsimp only
                exact dirGet_dirSet_ne _ _ _ _ (hnm _ _)
          · rw [if_neg hsha]

theorem depStep_cache_frame {env : Env} {mc : String} {s : WalkState} {d : String} {n : String}
    (hn : strStarts n "dep-" = false) :
    dirGet (depStep env mc s d).cache n = dirGet s.cache n := by
  have hkey : ∀ r : RInfo, n ≠ depCacheName d r := by
    intro r he
    have := depCacheName_starts d r
    rw [← he, hn] at this
    exact absurd this (by simp)
  unfold depStep
  cases hres : env.resolveLatest d mc with
  | error e => rfl
  | ok ro =>
    cases ro with
    | none => rfl
    | some ri =>
      dsimp only
      cases hcg : dirGet s.cache (depCacheName d ri) with
      | some b =>
        dsimp only
        cases hg2 : dirGet s.cache (depCacheName d ri) with
        | none => rfl
        | some bytes =>
          dsimp only
          by_cases hin : (env.fabricModId bytes).getD d ∈ s.installed
          · rw [if_pos hin]
          · rw [if_neg hin]
      | none =>
        dsimp only
        cases hdl : env.download ri.url with
        | error e => rfl
        | ok buf =>
          dsimp only
          by_cases hsha : sha1Check env ri buf = true
          · rw [if_pos hsha]
            dsimp only
            cases hg2 : dirGet (dirSet s.cache (depCacheName d ri) buf) (depCacheName d ri) with
            | none =>
              dsimp only
              exact dirGet_dirSet_ne _ _ _ _ (hkey ri)
            | some bytes =>
              dsimp only
              by_cases hin : (env.fabricModId bytes).getD d ∈ s.installed
              · rw [if_pos hin]
                dsimp only
                exact dirGet_dirSet_ne _ _ _ _ (hkey ri)
              · rw [if_neg hin]
                dsimp only
                exact dirGet_dirSet_ne _ _ _ _ (hkey ri)
          · rw [if_neg hsha]

theorem depWalk_mods_frame {env : Env} {mc : String} :
    ∀ (fuel : Nat) (s : WalkState) (n : String), strStarts n "dep__" = false →
      dirGet (depWalk env mc fuel s).mods n = dirGet s.mods n := by
  intro fuel
  induction fuel with
  | zero => intro s n hn; rfl
  | succ f ih =>
    intro s n hn
    unfold depWalk
    cases hq : s.queue with
    | nil => rfl
    | cons q rest =>
      dsimp only
      by_cases hskip : strTrim q = "" ∨ strTrim q ∈ s.visited
      · rw [if_pos hskip]
        exact ih _ n hn
      · rw [if_neg hskip]
        rw [ih _ n hn]
        exact depStep_mods_frame hn

theorem depWalk_cache_frame {env : Env} {mc : String} :
    ∀ (fuel : Nat) (s : WalkState) (n : String), strStarts n "dep-" = false →
      dirGet (depWalk env mc fuel s).cache n = dirGet s.cache n := by
  intro fuel
  induction fuel with
  | zero => intro s n hn; rfl
  | succ f ih =>
    intro s n hn
    unfold depWalk
    cases hq : s.queue with
    | nil => rfl
    | cons q rest =>
      dsimp only
      by_cases hskip : strTrim q = "" ∨ strTrim q ∈ s.visited
      · rw [if_pos hskip]
        exact ih _ n hn
      · rw [if_neg hskip]
        rw [ih _ n hn]
        exact depStep_cache_frame hn

/-! ## Dependency-walk install log -/

/-- Bytes of the last install with a given file name in an install log. -/
def ilogLookup : List DepInstall → String → Option Bytes
  | [], _ => none
  | i :: is, n =>
    match ilogLookup is n with
    | some b => some b
    | none => if i.name = n then some i.bytes else none

/-- One dependency step either leaves the mods directory and install log
unchanged, or appends exactly one `dep__…` install and writes that file. -/
theorem depStep_cases (env : Env) (mc : String) (s : WalkState) (d : String) :
    ((depStep env mc s d).ilog = s.ilog ∧ (depStep env mc s d).mods = s.mods)
    ∨ ∃ i : DepInstall, strStarts i.name "dep__" = true ∧
        (depStep env mc s d).ilog = s.ilog ++ [i] ∧
        (depStep env mc s d).mods = dirSet s.mods i.name i.bytes := by
  unfold depStep
  cases hres : env.resolveLatest d mc with
  | error e => exact Or.inl ⟨rfl, rfl⟩
  | ok ro =>
    cases ro with
    | none => exact Or.inl ⟨rfl, rfl⟩
    | some ri =>
      dsimp only
      cases hcg : dirGet s.cache (depCacheName d ri) with
      | some b =>
        dsimp only
        cases hg2 : dirGet s.cache (depCacheName d ri) with
        | none => exact Or.inl ⟨rfl, rfl⟩
        | some bytes =>
          dsimp only
          by_cases hin : (env.fabricModId bytes).getD d ∈ s.installed
          · rw [if_pos hin]
            exact Or.inl ⟨rfl, rfl⟩
          · rw [if_neg hin]
            exact Or.inr ⟨⟨_, bytes, _⟩, depInstallName_starts _ _, rfl, rfl⟩
      | none =>
        dsimp only
        cases hdl : env.download ri.url with
        | error e => exact Or.inl ⟨rfl, rfl⟩
        | ok buf =>
          dsimp only
          by_cases hsha : sha1Check env ri buf = true
          · rw [if_pos hsha]
            dsimp only
            cases hg2 : dirGet (dirSet s.cache (depCacheName d ri) buf) (depCacheName d ri) with
            | none => exact Or.inl ⟨rfl, rfl⟩
            | some bytes =>
              dsimp only
              by_cases hin : (env.fabricModId bytes).getD d ∈ s.installed
              · rw [if_pos hin]
                exact Or.inl ⟨rfl, rfl⟩
              · rw [if_neg hin]
                exact Or.inr ⟨⟨_, bytes, _⟩, depInstallName_starts _ _, rfl, rfl⟩
          · rw [if_neg hsha]
            exact Or.inl ⟨rfl, rfl⟩

/-- The walk only appends to the install log. -/
theorem depWalk_ilog_mono (env : Env) (mc : String) :
    ∀ (fuel : Nat) (s : WalkState), ∃ t, (depWalk env mc fuel s).ilog = s.ilog ++ t := by
  intro fuel
  induction fuel with
  | zero => intro s; exact ⟨[], (List.append_nil _).symm⟩
  | succ f ih =>
    intro s
    unfold depWalk
    cases hq : s.queue with
    | nil => exact ⟨[], (List.append_nil _).symm⟩
    | cons q rest =>
      dsimp only
      by_cases hskip : strTrim q = "" ∨ strTrim q ∈ s.visited
      · rw [if_pos hskip]
        exact ih _
      · rw [if_neg hskip]
        set s1 : WalkState :=
          { s with queue := rest, visited := s.visited ++ [strTrim q], plog := s.plog ++ [strTrim q] }
        obtain ⟨t, ht⟩ := ih (depStep env mc s1 (strTrim q))
        rcases depStep_cases env mc s1 (strTrim q) with ⟨hi, _⟩ | ⟨i, _, hi, _⟩
        · exact ⟨t, by rw [ht, hi]⟩
        · exact ⟨[i] ++ t, by rw [ht, hi]; simp⟩

/-- Pointwise characterization of the walk's effect on the mods directory:
the value of a file after the walk is the last install the walk logged for
that name, defaulting to the pre-walk value. -/
theorem depWalk_mods_ilog (env : Env) (mc : String) :
    ∀ (fuel : Nat) (s : WalkState) (n : String),
      dirGet (depWalk env mc fuel s).mods n =
        match ilogLookup ((depWalk env mc fuel s).ilog.drop s.ilog.length) n with
        | some b => some b
        | none => dirGet s.mods n := by
  intro fuel
  induction fuel with
  | zero =>
    intro s n
    unfold depWalk
    rw [List.drop_length]
    rfl
  | succ f ih =>
    intro s n
    unfold depWalk
    cases hq : s.queue with
    | nil =>
      dsimp only
      rw [List.drop_length]
      rfl
    | cons q rest =>
      dsimp only
      by_cases hskip : strTrim q = "" ∨ strTrim q ∈ s.visited
      · rw [if_pos hskip]
        exact ih { s with queue := rest } n
      · rw [if_neg hskip]
        set s1 : WalkState :=
          { s with queue := rest, visited := s.visited ++ [strTrim q], plog := s.plog ++ [strTrim q] }
          with hs1
        have hih := ih (depStep env mc s1 (strTrim q)) n
        rcases depStep_cases env mc s1 (strTrim q) with ⟨hi, hm⟩ | ⟨i, hdep, hi, hm⟩
        · rw [hih, hi, hm]
        · obtain ⟨t, ht⟩ := depWalk_ilog_mono env mc f (depStep env mc s1 (strTrim q))
          rw [hih, hm, ht, hi]
          have hdrop1 : ((s.ilog ++ [i]) ++ t).drop s.ilog.length = i :: t := by
            rw [List.append_assoc, List.drop_left]
            rfl
          have hdrop2 : ((s.ilog ++ [i]) ++ t).drop (s1.ilog ++ [i]).length = t := by
            rw [List.drop_left]
          have hs1ilog : s1.ilog = s.ilog := rfl
          rw [hs1ilog] at hdrop2
          rw [hdrop1, hdrop2]
          have hc : ilogLookup (i :: t) n =
              match ilogLookup t n with
              | some b => some b
              | none => if i.name = n then some i.bytes else none := rfl
          cases hlt : ilogLookup t n with
          | some b => rw [hc, hlt]
          | none =>
            rw [hc, hlt]
            by_cases hni : i.name = n
            · subst hni
              rw [dirGet_dirSet_self, if_pos rfl]
            · rw [if_neg hni, dirGet_dirSet_ne _ _ _ _ (fun hh => hni hh.symm)]

/-! ## Claim C5: dependency cleanup is gated on full refresh, the walk is not -/

/-- Claim C5 (amended): only the removal of previously auto-installed
dependency files is restricted to a full (non-targeted) refresh; the
dependency-queue walk runs in both modes.  After any refresh a
`dep__….jar` file holds the bytes of this call's last dependency install
with that name if there is one; otherwise it is absent after a full refresh
(old auto-dependency files removed) but keeps its pre-refresh content after a
targeted refresh (removal skipped). -/
theorem C5_dep_cleanup_gating :
    ∀ (env : Env) (mc : String) (now : Nat) (fuel : Nat) (st : ModsState)
      (mods cache : Dir) (n : String),
      strStarts n "dep__" = true → strEnds n ".jar" = true →
      (dirGet (refreshModsForInstance env mc now none fuel st mods cache).mods n =
        match ilogLookup (refreshModsForInstance env mc now none fuel st mods cache).walk.ilog n with
        | some b => some b
        | none => none)
      ∧ (∀ ts : List String, ts ≠ [] →
          dirGet (refreshModsForInstance env mc now (some ts) fuel st mods cache).mods n =
          match ilogLookup (refreshModsForInstance env mc now (some ts) fuel st mods cache).walk.ilog n with
          | some b => some b
          | none => dirGet mods n) := by
  intro env mc now fuel st mods cache n hpre hjar
  have hframe : ∀ tse : Option (List String),
      ∀ m ∈ CATALOG, strStarts n (m.id ++ "__") = false ∨ (∃ ts, tse = some ts ∧ m.id ∉ ts) := by
    intro tse m hm
    exact Or.inl (not_both_starts (catalog_dep_incomp m hm).1 (catalog_dep_incomp m hm).2 hpre)
  constructor
  · unfold refreshModsForInstance
    dsimp only
    rw [depWalk_mods_ilog]
    rw [show ∀ l : List DepInstall, l.drop ([] : List DepInstall).length = l from fun l => rfl]
    cases hlt : ilogLookup (depWalk env mc fuel
        { queue := (processList env mc now none st CATALOG mods cache).queue, visited := [],
          installed := collectInstalledModIds env
            (cleanAutoDependencyFiles (processList env mc now none st CATALOG mods cache).mods),
          mods := cleanAutoDependencyFiles (processList env mc now none st CATALOG mods cache).mods,
          cache := (processList env mc now none st CATALOG mods cache).cache,
          plog := [], ilog := [] }).ilog n with
    | some b => rfl
    | none =>
      dsimp only
      rw [dirGet_cleanDeps, hpre, hjar]
      rfl
  · intro ts hts
    have htsne : ts.isEmpty = false := by
      cases ts with
      | nil => exact absurd rfl hts
      | cons a l => rfl
    have hcond : ¬ (ts.isEmpty = true) := by
      rw [htsne]
      exact Bool.false_ne_true
    unfold refreshModsForInstance
    dsimp only
    rw [if_neg hcond]
    dsimp only
    rw [depWalk_mods_ilog]
    rw [show ∀ l : List DepInstall, l.drop ([] : List DepInstall).length = l from fun l => rfl]
    cases hlt : ilogLookup (depWalk env mc fuel
        { queue := (processList env mc now (some ts) st CATALOG mods cache).queue, visited := [],
          installed := collectInstalledModIds env
            (processList env mc now (some ts) st CATALOG mods cache).mods,
          mods := (processList env mc now (some ts) st CATALOG mods cache).mods,
          cache := (processList env mc now (some ts) st CATALOG mods cache).cache,
          plog := [], ilog := [] }).ilog n with
    | some b => rfl
    | none =>
      dsimp only
      exact processList_mods_frame CATALOG mods cache n (hframe (some ts))

def C5cex_env : Env :=
  { resolveLatest := fun proj _ =>
      if proj = "AANobbMI" then .ok (some ⟨"1.0", "sodium.jar", "us", some "HS", none, ["DEPP"]⟩)
      else if proj = "DEPP" then .ok (some ⟨"1.0", "dep.jar", "ud", some "HD", none, []⟩)
      else .ok none,
    download := fun u => if u = "us" then .ok [1] else if u = "ud" then .ok [2] else .error "404",
    sha1Of := fun b => if b = [1] then "HS" else if b = [2] then "HD" else "??",
    fabricModId := fun _ => none }

def C5cex_out : RefreshOut :=
  refreshModsForInstance C5cex_env "1.20.1" 0 (some ["sodium"]) 4
    { enabled := [("sodium", true)], resolved := [] } [] []

/-- Claim C5 as stated is false on the code: a refresh targeted at `sodium`
alone still performs the breadth-first dependency walk — it processes the
dependency ref `DEPP` declared by the target and installs the `dep__`
prefixed file; only the auto-dependency cleanup step is gated on a full
refresh. -/
theorem C5_counterexample :
    C5cex_out.walk.plog = ["DEPP"]
    ∧ dirGet C5cex_out.mods "dep__DEPP__dep.jar" = some [2] := by decide

/-- Witness for C5 at a concrete input: after a full refresh with no
dependency installs, a pre-existing `dep__x__y.jar` file is removed. -/
theorem C5_witness :
    dirGet (refreshModsForInstance
      ⟨fun _ _ => .ok none, fun _ => .error "offline", fun _ => "", fun _ => none⟩
      "1.20.1" 0 none 1 defaultState [("dep__x__y.jar", [9])] []).mods "dep__x__y.jar" =
    match ilogLookup (refreshModsForInstance
      ⟨fun _ _ => .ok none, fun _ => .error "offline", fun _ => "", fun _ => none⟩
      "1.20.1" 0 none 1 defaultState [("dep__x__y.jar", [9])] []).walk.ilog "dep__x__y.jar" with
    | some b => some b
    | none => none :=
  (C5_dep_cleanup_gating _ "1.20.1" 0 1 defaultState [("dep__x__y.jar", [9])] [] "dep__x__y.jar"
    (by decide) (by decide)).1

/-! ## Claim C6: targeted refresh leaves out-of-target entries untouched -/

theorem assocFind_append {α : Type} (l1 l2 : List (String × α)) (k : String) :
    assocFind (l1 ++ l2) k =
      match assocFind l1 k with
      | some v => some v
      | none => assocFind l2 k := by
  induction l1 with
  | nil => rfl
  | cons e es ih =>
    by_cases he : e.1 = k
    · simp [assocFind, he]
    · simp [assocFind, he, ih]

theorem assocFind_eq_none {α : Type} {l : List (String × α)} {k : String}
    (h : ∀ e ∈ l, e.1 ≠ k) : assocFind l k = none := by
  induction l with
  | nil => rfl
  | cons e es ih =>
    simp [assocFind, h e (List.mem_cons_self _ _), ih (fun x hx => h x (List.mem_cons_of_mem _ hx))]

theorem processList_resolved_keys {env : Env} {mc : String} {now : Nat}
    {tset : Option (List String)} {st : ModsState} :
    ∀ (ms : List CatalogMod) (mods cache : Dir) (e : String × ResolvedMod),
      e ∈ (processList env mc now tset st ms mods cache).resolved →
      e.1 ∈ ms.map (fun m => m.id) := by
  intro ms
  induction ms with
  | nil => intro mods cache e he; simp [processList] at he
  | cons m tl ih =>
    intro mods cache e he
    simp only [processList, List.mem_append] at he
    rcases he with h | h
    · cases hr : (processEntry env mc now tset st mods cache m).record with
      | none => rw [hr] at h; simp at h
      | some r =>
        rw [hr] at h
        simp at h
        rw [h]
        simp
    · simp only [List.map_cons, List.mem_cons]
      exact Or.inr (ih _ _ e h)

theorem processList_resolved_skipped {env : Env} {mc : String} {now : Nat}
    {st : ModsState} (ts : List String) :
    ∀ (ms : List CatalogMod) (mods cache : Dir) (m : CatalogMod),
      m ∈ ms → (ms.map (fun x => x.id)).Nodup → m.id ∉ ts →
      assocFind (processList env mc now (some ts) st ms mods cache).resolved m.id
        = assocFind st.resolved m.id := by
  intro ms
  induction ms with
  | nil => intro mods cache m hm; simp at hm
  | cons a tl ih =>
    intro mods cache m hm hnd hnot
    rw [List.map_cons] at hnd
    obtain ⟨ha, hnd2⟩ := List.nodup_cons.mp hnd
    simp only [processList, assocFind_append]
    rcases List.mem_cons.mp hm with heq | hmem
    · subst heq
      have hskip : (processEntry env mc now (some ts) st mods cache m).record
          = assocFind st.resolved m.id := by
        unfold processEntry
        dsimp only
        rw [if_neg hnot]
      rw [hskip]
      cases hfind : assocFind st.resolved m.id with
      | some r => simp [assocFind]
      | none =>
        have hnone : assocFind (processList env mc now (some ts) st tl
            (processEntry env mc now (some ts) st mods cache m).mods
            (processEntry env mc now (some ts) st mods cache m).cache).resolved m.id = none := by
          apply assocFind_eq_none
          intro e he heq
          have hkey := processList_resolved_keys tl _ _ e he
          rw [heq] at hkey
          exact ha hkey
        simp [assocFind, hnone]
    · have hne : a.id ≠ m.id := by
        intro hh
        apply ha
        rw [hh]
        exact List.mem_map.mpr ⟨m, hmem, rfl⟩
      cases hr : (processEntry env mc now (some ts) st mods cache a).record with
      | none =>
        simp only [assocFind]
        exact ih _ _ m hmem hnd2 hnot
      | some r =>
        have hhead : assocFind [(a.id, r)] m.id = none := by
          simp [assocFind, hne]
        rw [hhead]
        exact ih _ _ m hmem hnd2 hnot

/-- Claim C6: a refresh targeted at `ts` keeps the previous resolved record
of every catalog entry outside `ts` unchanged in the persisted state, and
does not remove, rename or rewrite any file carrying that entry's
`<id>__` prefix. -/
theorem C6_targeted_frame :
    ∀ (env : Env) (mc : String) (now fuel : Nat) (st : ModsState) (mods cache : Dir)
      (ts : List String) (m : CatalogMod),
      ts ≠ [] → m ∈ CATALOG → m.id ∉ ts →
      (assocFind (refreshModsForInstance env mc now (some ts) fuel st mods cache).state.resolved m.id
        = assocFind st.resolved m.id)
      ∧ (∀ n, strStarts n (m.id ++ "__") = true →
          dirGet (refreshModsForInstance env mc now (some ts) fuel st mods cache).mods n
            = dirGet mods n) := by
  intro env mc now fuel st mods cache ts m hts hm hnot
  have hcond : ¬ (ts.isEmpty = true) := by
    cases ts with
    | nil => exact absurd rfl hts
    | cons a l => simp
  constructor
  · unfold refreshModsForInstance
    dsimp only
    rw [if_neg hcond]
    exact processList_resolved_skipped ts CATALOG mods cache m hm (by decide) hnot
  · intro n hn
    have hdep : strStarts n "dep__" = false :=
      not_both_starts (catalog_dep_incomp m hm).2 (catalog_dep_incomp m hm).1 hn
    unfold refreshModsForInstance
    dsimp only
    rw [if_neg hcond]
    dsimp only
    rw [depWalk_mods_frame _ _ n hdep]
    dsimp only
    apply processList_mods_frame
    intro m2 hm2
    by_cases hid : m2.id = m.id
    · refine Or.inr ⟨ts, rfl, ?_⟩
      rw [hid]
      exact hnot
    · exact Or.inl (not_both_starts
        (catalog_sep_incomp m hm m2 hm2 (fun hh => hid hh.symm))
        (catalog_sep_incomp m2 hm2 m hm hid) hn)

/-- Witness for C6 at concrete inputs: refreshing only `sodium` leaves the
previously persisted `lithium` record untouched. -/
theorem C6_witness :
    assocFind (refreshModsForInstance
      ⟨fun _ _ => .ok none, fun _ => .error "offline", fun _ => "", fun _ => none⟩
      "1.20.1" 0 (some ["sodium"]) 1
      { enabled := [("lithium", true)],
        resolved := [("lithium", unavailableRec ⟨"lithium", "Lithium", false, "gvQqBUqZ"⟩ "1.20.1" 7)] }
      [] []).state.resolved "lithium"
    = some (unavailableRec ⟨"lithium", "Lithium", false, "gvQqBUqZ"⟩ "1.20.1" 7) :=
  ((C6_targeted_frame _ "1.20.1" 0 1
      { enabled := [("lithium", true)],
        resolved := [("lithium", unavailableRec ⟨"lithium", "Lithium", false, "gvQqBUqZ"⟩ "1.20.1" 7)] }
      [] [] ["sodium"] ⟨"lithium", "Lithium", false, "gvQqBUqZ"⟩
      (by decide) (by decide) (by decide)).1).trans (by decide)

/-! ## Claim C7: at most one active file per catalog id -/

/-- At most one `.jar` / `.jar.disabled` file carrying the `<id>__` prefix. -/
def atMostOneJar (d : Dir) (id : String) : Prop :=
  ∀ n1 n2 : String, (dirGet d n1).isSome = true → (dirGet d n2).isSome = true →
    strStarts n1 (id ++ "__") = true → isJarName n1 = true →
    strStarts n2 (id ++ "__") = true → isJarName n2 = true → n1 = n2

/-- The at-most-one invariant for every catalog id. -/
def dirInvJar (d : Dir) : Prop := ∀ m ∈ CATALOG, atMostOneJar d m.id

theorem atMostOneJar_mono {d1 d2 : Dir} {id : String}
    (h : ∀ n, strStarts n (id ++ "__") = true → isJarName n = true →
        (dirGet d2 n).isSome = true → (dirGet d1 n).isSome = true)
    (hinv : atMostOneJar d1 id) : atMostOneJar d2 id :=
  fun n1 n2 h1 h2 hp1 hj1 hp2 hj2 =>
    hinv n1 n2 (h n1 hp1 hj1 h1) (h n2 hp2 hj2 h2) hp1 hj1 hp2 hj2

theorem atMostOneJar_single {d : Dir} {id : String} (t : String)
    (h : ∀ n, strStarts n (id ++ "__") = true → isJarName n = true →
        (dirGet d n).isSome = true → n = t) : atMostOneJar d id :=
  fun n1 n2 h1 h2 hp1 hj1 hp2 hj2 => (h n1 hp1 hj1 h1).trans (h n2 hp2 hj2 h2).symm

theorem dirInvJar_clean {mods : Dir} (id : String) (hinv : dirInvJar mods) :
    dirInvJar (cleanOldFilesForCatalogId mods id) := by
  intro m hm
  apply atMostOneJar_mono _ (hinv m hm)
  intro n hp hj hs
  rw [dirGet_cleanOld] at hs
  by_cases hc : strStarts n (id ++ "__") && isJarName n
  · rw [if_pos hc] at hs
    simp at hs
  · rw [if_neg hc] at hs
    exact hs

theorem dirInvJar_cleanDeps {mods : Dir} (hinv : dirInvJar mods) :
    dirInvJar (cleanAutoDependencyFiles mods) := by
  intro m hm
  apply atMostOneJar_mono _ (hinv m hm)
  intro n hp hj hs
  rw [dirGet_cleanDeps] at hs
  by_cases hc : strStarts n "dep__" && strEnds n ".jar"
  · rw [if_pos hc] at hs
    simp at hs
  · rw [if_neg hc] at hs
    exact hs

theorem dirInvJar_install {mods : Dir} {mod : CatalogMod} (hmod : mod ∈ CATALOG)
    (fn : String) (b : Bytes) (hinv : dirInvJar mods) :
    dirInvJar (dirSet (cleanOldFilesForCatalogId mods mod.id) (targetFileName mod.id fn true) b) := by
  intro m hm
  by_cases hid : m.id = mod.id
  · apply atMostOneJar_single (targetFileName mod.id fn true)
    intro n hp hj hs
    by_cases hn : n = targetFileName mod.id fn true
    · exact hn
    · exfalso
      rw [dirGet_dirSet_ne _ _ _ _ hn, dirGet_cleanOld] at hs
      have hp2 : strStarts n (mod.id ++ "__") = true := hid ▸ hp
      rw [if_pos (by rw [hp2, hj]; rfl)] at hs
      simp at hs
  · apply atMostOneJar_mono _ (hinv m hm)
    intro n hp hj hs
    by_cases hn : n = targetFileName mod.id fn true
    · exfalso
      have htar := targetFileName_starts mod.id fn
      rw [← hn] at htar
      have hfalse := not_both_starts
        (catalog_sep_incomp mod hmod m hm (fun hh => hid hh.symm))
        (catalog_sep_incomp m hm mod hmod hid) htar
      rw [hp] at hfalse
      exact absurd hfalse (by simp)
    · rw [dirGet_dirSet_ne _ _ _ _ hn, dirGet_cleanOld] at hs
      by_cases hc : strStarts n (mod.id ++ "__") && isJarName n
      · rw [if_pos hc] at hs
        simp at hs
      · rw [if_neg hc] at hs
        exact hs

theorem processEntryCore_mods_shape (env : Env) (mc : String) (now : Nat) (st : ModsState)
    (mods cache : Dir) (mod : CatalogMod) :
    (processEntryCore env mc now st mods cache mod).mods = cleanOldFilesForCatalogId mods mod.id
    ∨ ∃ fn b, (processEntryCore env mc now st mods cache mod).mods
        = dirSet (cleanOldFilesForCatalogId mods mod.id) (targetFileName mod.id fn true) b := by
  simp only [processEntryCore, installOk]
  by_cases hen : (!(mod.required || lookupEnabled st mod.id)) = true
  · rw [if_pos hen]
    exact Or.inl rfl
  · rw [if_neg hen]
    cases hres : env.resolveLatest mod.projectId mc with
    | error e => exact Or.inl rfl
    | ok ro =>
      cases ro with
      | none => exact Or.inl rfl
      | some ri =>
        dsimp only
        cases hcg : dirGet cache (mainCacheName mod.id ri) with
        | some b =>
          dsimp only
          exact Or.inr ⟨ri.fileName, b, rfl⟩
        | none =>
          dsimp only
          cases hdl : env.download ri.url with
          | error e => exact Or.inl rfl
          | ok buf =>
            dsimp only
            by_cases hsha : sha1Check env ri buf = true
            · rw [if_pos hsha]
              dsimp only
              rw [dirGet_dirSet_self]
              exact Or.inr ⟨ri.fileName, buf, rfl⟩
            · rw [if_neg hsha]
              exact Or.inl rfl

theorem processEntry_dirInvJar {env : Env} {mc : String} {now : Nat}
    {tset : Option (List String)} {st : ModsState} {mods cache : Dir} {mod : CatalogMod}
    (hmod : mod ∈ CATALOG) (hinv : dirInvJar mods) :
    dirInvJar (processEntry env mc now tset st mods cache mod).mods := by
  have hcore : dirInvJar (processEntryCore env mc now st mods cache mod).mods := by
    rcases processEntryCore_mods_shape env mc now st mods cache mod with h | ⟨fn, b, h⟩
    · rw [h]
      exact dirInvJar_clean mod.id hinv
    · rw [h]
      exact dirInvJar_install hmod fn b hinv
  unfold processEntry
  cases tset with
  | none => exact hcore
  | some ts =>
    dsimp only
    by_cases hmem : mod.id ∈ ts
    · rw [if_pos hmem]
      exact hcore
    · rw [if_neg hmem]
      exact hinv

theorem processList_dirInvJar {env : Env} {mc : String} {now : Nat}
    {tset : Option (List String)} {st : ModsState} :
    ∀ (ms : List CatalogMod) (mods cache : Dir),
      (∀ x ∈ ms, x ∈ CATALOG) → dirInvJar mods →
      dirInvJar (processList env mc now tset st ms mods cache).mods := by
  intro ms
  induction ms with
  | nil => intro mods cache hsub hinv; exact hinv
  | cons m tl ih =>
    intro mods cache hsub hinv
    simp only [processList]
    exact ih _ _ (fun x hx => hsub x (List.mem_cons_of_mem _ hx))
      (processEntry_dirInvJar (hsub m (List.mem_cons_self _ _)) hinv)

theorem depStep_dirInvJar {env : Env} {mc : String} {s : WalkState} {d : String}
    (hinv : dirInvJar s.mods) : dirInvJar (depStep env mc s d).mods := by
  rcases depStep_cases env mc s d with ⟨_, hm⟩ | ⟨i, hdep, _, hm⟩
  · rw [hm]
    exact hinv
  · rw [hm]
    intro m hmem
    apply atMostOneJar_mono _ (hinv m hmem)
    intro n hp hj hs
    by_cases hn : n = i.name
    · exfalso
      have hfalse := not_both_starts (catalog_dep_incomp m hmem).1 (catalog_dep_incomp m hmem).2
        (hn ▸ hdep)
      rw [hp] at hfalse
      exact absurd hfalse (by simp)
    · rw [dirGet_dirSet_ne _ _ _ _ hn] at hs
      exact hs

theorem depWalk_dirInvJar {env : Env} {mc : String} :
    ∀ (fuel : Nat) (s : WalkState), dirInvJar s.mods →
      dirInvJar (depWalk env mc fuel s).mods := by
  intro fuel
  induction fuel with
  | zero => intro s hinv; exact hinv
  | succ f ih =>
    intro s hinv
    unfold depWalk
    cases hq : s.queue with
    | nil => exact hinv
    | cons q rest =>
      dsimp only
      by_cases hskip : strTrim q = "" ∨ strTrim q ∈ s.visited
      · rw [if_pos hskip]
        exact ih _ hinv
      · rw [if_neg hskip]
        exact ih _ (depStep_dirInvJar hinv)

/-- Claim C7 (amended): after any `refreshModsForInstance`, the mods
directory holds at most one `.jar`/`.jar.disabled` file attributable to each
catalog id by the `<id>__` prefix, provided it satisfied that bound before
the call. -/
theorem C7_at_most_one_file :
    ∀ (env : Env) (mc : String) (now : Nat) (targets : Option (List String)) (fuel : Nat)
      (st : ModsState) (mods cache : Dir),
      dirInvJar mods →
      dirInvJar (refreshModsForInstance env mc now targets fuel st mods cache).mods := by
  intro env mc now targets fuel st mods cache hinv
  have hpass : ∀ tse : Option (List String),
      dirInvJar (processList env mc now tse st CATALOG mods cache).mods :=
    fun tse => processList_dirInvJar CATALOG mods cache (fun x hx => hx) hinv
  unfold refreshModsForInstance
  cases targets with
  | none =>
    dsimp only
    exact depWalk_dirInvJar fuel _ (dirInvJar_cleanDeps (hpass none))
  | some l =>
    dsimp only
    by_cases hl : l.isEmpty = true
    · rw [if_pos hl]
      dsimp only
      exact depWalk_dirInvJar fuel _ (dirInvJar_cleanDeps (hpass none))
    · rw [if_neg hl]
      dsimp only
      exact depWalk_dirInvJar fuel _ (hpass (some l))

def C7cex_env1 : Env :=
  { resolveLatest := fun proj _ =>
      if proj = "AANobbMI" then .ok (some ⟨"1.0", "a.zip", "u1", some "H1", none, []⟩)
      else .ok none,
    download := fun u => if u = "u1" then .ok [1] else .error "404",
    sha1Of := fun b => if b = [1] then "H1" else "?",
    fabricModId := fun _ => none }

def C7cex_env2 : Env :=
  { resolveLatest := fun proj _ =>
      if proj = "AANobbMI" then .ok (some ⟨"2.0", "b.jar", "u2", some "H2", none, []⟩)
      else .ok none,
    download := fun u => if u = "u2" then .ok [2] else .error "404",
    sha1Of := fun b => if b = [2] then "H2" else "?",
    fabricModId := fun _ => none }

def C7cex_out1 : RefreshOut :=
  refreshModsForInstance C7cex_env1 "1.20.1" 0 none 1
    { enabled := [("sodium", true)], resolved := [] } [] []

def C7cex_out2 : RefreshOut :=
  refreshModsForInstance C7cex_env2 "1.20.1" 1 none 1
    C7cex_out1.state C7cex_out1.mods C7cex_out1.cache

/-- Claim C7 as stated is false on the code: when the provider's file name
for `sodium` does not end in `.jar` (here `a.zip`), the installed file
`sodium__a.zip` escapes `cleanOldFilesForCatalogId`'s suffix filter, so a
later refresh that installs `sodium__b.jar` leaves two files attributable to
`sodium` by the `sodium__` naming prefix. -/
theorem C7_counterexample :
    dirGet C7cex_out2.mods "sodium__a.zip" = some [1]
    ∧ dirGet C7cex_out2.mods "sodium__b.jar" = some [2]
    ∧ strStarts "sodium__a.zip" ("sodium" ++ "__") = true
    ∧ strStarts "sodium__b.jar" ("sodium" ++ "__") = true
    ∧ "sodium__a.zip" ≠ "sodium__b.jar" := by decide

/-- Witness for C7 at a concrete input: a full refresh from an empty
directory keeps the invariant. -/
theorem C7_witness :
    dirInvJar (refreshModsForInstance C7cex_env1 "1.20.1" 0 none 1
      { enabled := [("sodium", true)], resolved := [] } [] []).mods :=
  C7_at_most_one_file C7cex_env1 "1.20.1" 0 none 1
    { enabled := [("sodium", true)], resolved := [] } [] []
    (by intro m hm n1 n2 h1 h2 hp1 hj1 hp2 hj2; simp [dirGet] at h1)

/-! ## Claim C1: hash-mismatched downloads are never installed -/

theorem processEntryCore_mismatch {env : Env} {mc : String} {now : Nat} {st : ModsState}
    {mods cache : Dir} {mod : CatalogMod} {r : RInfo} {h : String} {buf : Bytes}
    (henabled : (mod.required || lookupEnabled st mod.id) = true)
    (hres : env.resolveLatest mod.projectId mc = .ok (some r))
    (hsha : r.sha1 = some h) (hne : h ≠ "")
    (hmiss : dirGet cache (mainCacheName mod.id r) = none)
    (hdl : env.download r.url = .ok buf)
    (hmm : env.sha1Of buf ≠ h) :
    processEntryCore env mc now st mods cache mod =
      { record := some (errorRec mod mc now ("SHA1 mismatch for " ++ mod.id)),
        mods := cleanOldFilesForCatalogId mods mod.id, cache := cache, deps := [] } := by
  have hchk : sha1Check env r buf = false := by
    simp only [sha1Check]
    rw [hsha]
    dsimp only
    rw [if_neg hne]
    simp [hmm]
  simp only [processEntryCore]
  rw [if_neg (by rw [henabled]; simp)]
  rw [hres]
  dsimp only
  rw [hmiss]
  dsimp only
  rw [hdl]
  dsimp only
  rw [hchk]
  rfl

theorem processList_mismatch (env : Env) (mc : String) (now : Nat)
    (tset : Option (List String)) (st : ModsState) :
    ∀ (ms : List CatalogMod) (mods cache : Dir) (mod : CatalogMod) (r : RInfo) (h : String)
      (buf : Bytes),
      (∀ x ∈ ms, x ∈ CATALOG) → (ms.map (fun x => x.id)).Nodup →
      mod ∈ ms →
      (tset = none ∨ ∃ ts, tset = some ts ∧ mod.id ∈ ts) →
      (mod.required || lookupEnabled st mod.id) = true →
      env.resolveLatest mod.projectId mc = .ok (some r) →
      r.sha1 = some h → h ≠ "" →
      dirGet cache (mainCacheName mod.id r) = none →
      env.download r.url = .ok buf →
      env.sha1Of buf ≠ h →
      (assocFind (processList env mc now tset st ms mods cache).resolved mod.id
          = some (errorRec mod mc now ("SHA1 mismatch for " ++ mod.id)))
      ∧ (∀ n, strStarts n (mod.id ++ "__") = true →
          dirGet (processList env mc now tset st ms mods cache).mods n =
            if isJarName n then none else dirGet mods n)
      ∧ dirGet (processList env mc now tset st ms mods cache).cache (mainCacheName mod.id r)
          = none := by
  intro ms
  induction ms with
  | nil =>
    intro mods cache mod r h buf hsub hnd hm
    simp at hm
  | cons a tl ih =>
    intro mods cache mod r h buf hsub hnd hm htar henabled hres hsha hne hmiss hdl hmm
    rw [List.map_cons] at hnd
    obtain ⟨ha, hnd2⟩ := List.nodup_cons.mp hnd
    have hsub2 : ∀ x ∈ tl, x ∈ CATALOG := fun x hx => hsub x (List.mem_cons_of_mem _ hx)
    rcases List.mem_cons.mp hm with heq | hmem
    · subst heq
      have hproc : processEntry env mc now tset st mods cache mod =
          { record := some (errorRec mod mc now ("SHA1 mismatch for " ++ mod.id)),
            mods := cleanOldFilesForCatalogId mods mod.id, cache := cache, deps := [] } := by
        unfold processEntry
        rcases htar with hn | ⟨ts, hts, hmemts⟩
        · rw [hn]
          exact processEntryCore_mismatch henabled hres hsha hne hmiss hdl hmm
        · rw [hts]
          dsimp only
          rw [if_pos hmemts]
          exact processEntryCore_mismatch henabled hres hsha hne hmiss hdl hmm
      have hmodcat : mod ∈ CATALOG := hsub mod (List.mem_cons_self _ _)
      have htlframe : ∀ x ∈ tl, x.id ≠ mod.id := by
        intro x hx hh
        exact ha (hh ▸ List.mem_map.mpr ⟨x, hx, rfl⟩)
      refine ⟨?_, ?_, ?_⟩
      · simp only [processList, hproc, assocFind_append]
        have hrest : assocFind (processList env mc now tset st tl
            (cleanOldFilesForCatalogId mods mod.id) cache).resolved mod.id = none := by
          apply assocFind_eq_none
          intro e he heq2
          have hkey := processList_resolved_keys tl _ _ e he
          rw [heq2] at hkey
          obtain ⟨x, hx, hxid⟩ := List.mem_map.mp hkey
          exact htlframe x hx hxid
        simp [assocFind]
      · intro n hn
        simp only [processList, hproc]
        rw [processList_mods_frame tl _ _ n ?frame]
        case frame =>
          intro x hx
          exact Or.inl (not_both_starts
            (catalog_sep_incomp mod hmodcat x (hsub2 x hx) (fun hh => htlframe x hx hh.symm))
            (catalog_sep_incomp x (hsub2 x hx) mod hmodcat (htlframe x hx)) hn)
        rw [dirGet_cleanOld]
        by_cases hj : isJarName n
        · rw [if_pos (by rw [hn, hj]; rfl), if_pos hj]
        · rw [if_neg (by rw [hn]; simp [hj]), if_neg hj]
      · simp only [processList, hproc]
        rw [processList_cache_frame tl _ _ _ ?cframe]
        case cframe =>
          intro x hx
          refine Or.inl (not_both_starts
            (catalog_dash_incomp mod hmodcat x (hsub2 x hx) (fun hh => htlframe x hx hh.symm))
            (catalog_dash_incomp x (hsub2 x hx) mod hmodcat (htlframe x hx))
            (mainCacheName_starts mod.id r))
        exact hmiss
    · have hacat : a ∈ CATALOG := hsub a (List.mem_cons_self _ _)
      have hmodcat : mod ∈ CATALOG := hsub2 mod hmem
      have hne2 : a.id ≠ mod.id := by
        intro hh
        exact ha (hh ▸ List.mem_map.mpr ⟨mod, hmem, rfl⟩)
      have hkeyframe : strStarts (mainCacheName mod.id r) (a.id ++ "-") = false :=
        not_both_starts
          (catalog_dash_incomp mod hmodcat a hacat (fun hh => hne2 hh.symm))
          (catalog_dash_incomp a hacat mod hmodcat hne2)
          (mainCacheName_starts mod.id r)
      have hmiss2 : dirGet (processEntry env mc now tset st mods cache a).cache
          (mainCacheName mod.id r) = none := by
        rw [processEntry_cache_frame (Or.inl hkeyframe)]
        exact hmiss
      have hihall := ih (processEntry env mc now tset st mods cache a).mods
        (processEntry env mc now tset st mods cache a).cache mod r h buf hsub2 hnd2 hmem htar
        henabled hres hsha hne hmiss2 hdl hmm
      refine ⟨?_, ?_, ?_⟩
      · simp only [processList, assocFind_append]
        cases hr : (processEntry env mc now tset st mods cache a).record with
        | none =>
          simp only [assocFind]
          exact hihall.1
        | some rr =>
          have hhead : assocFind [(a.id, rr)] mod.id = none := by
            simp [assocFind, hne2]
          rw [hhead]
          exact hihall.1
      · intro n hn
        have hframe2 : strStarts n (a.id ++ "__") = false :=
          not_both_starts
            (catalog_sep_incomp mod hmodcat a hacat (fun hh => hne2 hh.symm))
            (catalog_sep_incomp a hacat mod hmodcat hne2) hn
        simp only [processList]
        rw [hihall.2.1 n hn]
        rw [processEntry_mods_frame (Or.inl hframe2)]
      · simp only [processList]
        exact hihall.2.2

/-- Claim C1 (amended): in `refreshModsForInstance`, when the provider
declares a sha1 and the downloaded bytes hash to something else, the artifact
is never installed: the entry's record becomes `status=error` with the
mismatch message, every previously installed `.jar`/`.jar.disabled` file with
the entry's prefix is removed (and nothing with that prefix is added), and
the bytes are not written to the cache either.  The removal clause is
restricted to jar-named files because `cleanOldFilesForCatalogId` only
matches the `.jar`/`.jar.disabled` suffixes: a previously installed file
under another extension survives the mismatch path. -/
theorem C1_hash_mismatch_blocks_install :
    ∀ (env : Env) (mc : String) (now : Nat) (targets : Option (List String)) (fuel : Nat)
      (st : ModsState) (mods cache : Dir) (mod : CatalogMod) (r : RInfo) (h : String)
      (buf : Bytes),
      mod ∈ CATALOG →
      (targets = none ∨ ∃ ts, targets = some ts ∧ mod.id ∈ ts) →
      (mod.required || lookupEnabled st mod.id) = true →
      env.resolveLatest mod.projectId mc = .ok (some r) →
      r.sha1 = some h → h ≠ "" →
      dirGet cache (mainCacheName mod.id r) = none →
      env.download r.url = .ok buf →
      env.sha1Of buf ≠ h →
      (assocFind (refreshModsForInstance env mc now targets fuel st mods cache).state.resolved mod.id
          = some (errorRec mod mc now ("SHA1 mismatch for " ++ mod.id)))
      ∧ (∀ n, strStarts n (mod.id ++ "__") = true →
          dirGet (refreshModsForInstance env mc now targets fuel st mods cache).mods n =
            if isJarName n then none else dirGet mods n)
      ∧ dirGet (refreshModsForInstance env mc now targets fuel st mods cache).cache
          (mainCacheName mod.id r) = none := by
  intro env mc now targets fuel st mods cache mod r h buf hmodcat htar henabled hres hsha hne
    hmiss hdl hmm
  have hnd : (CATALOG.map (fun x => x.id)).Nodup := by decide
  have hdepmods : ∀ n, strStarts n (mod.id ++ "__") = true → strStarts n "dep__" = false :=
    fun n hn => not_both_starts (catalog_dep_incomp mod hmodcat).2 (catalog_dep_incomp mod hmodcat).1 hn
  have hdepcache : strStarts (mainCacheName mod.id r) "dep-" = false :=
    not_both_starts (catalog_depdash_incomp mod hmodcat).2 (catalog_depdash_incomp mod hmodcat).1
      (mainCacheName_starts mod.id r)
  cases targets with
  | none =>
    have hlist := processList_mismatch env mc now none st CATALOG mods cache mod r h buf
      (fun x hx => hx) hnd hmodcat (Or.inl rfl) henabled hres hsha hne hmiss hdl hmm
    unfold refreshModsForInstance
    dsimp only
    refine ⟨hlist.1, ?_, ?_⟩
    · intro n hn
      rw [depWalk_mods_frame _ _ n (hdepmods n hn)]
      dsimp only
      rw [dirGet_cleanDeps]
      rw [if_neg (by rw [hdepmods n hn]; simp)]
      exact hlist.2.1 n hn
    · rw [depWalk_cache_frame _ _ _ hdepcache]
      exact hlist.2.2
  | some ts =>
    rcases htar with hnone | ⟨ts2, hts2, hmemts⟩
    · exact absurd hnone (by simp)
    · have hh : ts = ts2 := by injection hts2
      rw [← hh] at hmemts
      have htsne : ¬ (ts.isEmpty = true) := by
        cases ts with
        | nil => simp at hmemts
        | cons x l => simp
      have hlist := processList_mismatch env mc now (some ts) st CATALOG mods cache mod r h buf
        (fun x hx => hx) hnd hmodcat (Or.inr ⟨ts, rfl, hmemts⟩) henabled hres hsha hne hmiss
        hdl hmm
      unfold refreshModsForInstance
      dsimp only
      rw [if_neg htsne]
      refine ⟨hlist.1, ?_, ?_⟩
      · intro n hn
        rw [depWalk_mods_frame _ _ n (hdepmods n hn)]
        exact hlist.2.1 n hn
      · rw [depWalk_cache_frame _ _ _ hdepcache]
        exact hlist.2.2

def C1wit_env : Env :=
  { resolveLatest := fun proj _ =>
      if proj = "AANobbMI" then .ok (some ⟨"1.0", "sodium.jar", "u", some "HX", none, []⟩)
      else .ok none,
    download := fun _ => .ok [5],
    sha1Of := fun _ => "BAD",
    fabricModId := fun _ => none }

/-- Witness for C1 at a concrete input: a mismatching download marks the
entry `status=error` and removes the previously installed file. -/
theorem C1_witness :
    assocFind (refreshModsForInstance C1wit_env "1.20.1" 0 none 1
      { enabled := [("sodium", true)], resolved := [] }
      [("sodium__old.jar", [7])] []).state.resolved "sodium"
      = some (errorRec ⟨"sodium", "Sodium", false, "AANobbMI"⟩ "1.20.1" 0 "SHA1 mismatch for sodium")
    ∧ dirGet (refreshModsForInstance C1wit_env "1.20.1" 0 none 1
      { enabled := [("sodium", true)], resolved := [] }
      [("sodium__old.jar", [7])] []).mods "sodium__old.jar" = none :=
  ⟨(C1_hash_mismatch_blocks_install C1wit_env "1.20.1" 0 none 1
      { enabled := [("sodium", true)], resolved := [] } [("sodium__old.jar", [7])] []
      ⟨"sodium", "Sodium", false, "AANobbMI"⟩ ⟨"1.0", "sodium.jar", "u", some "HX", none, []⟩
      "HX" [5] (by decide) (Or.inl rfl) (by decide) rfl rfl (by decide) rfl rfl
      (by decide)).1,
   ((C1_hash_mismatch_blocks_install C1wit_env "1.20.1" 0 none 1
      { enabled := [("sodium", true)], resolved := [] } [("sodium__old.jar", [7])] []
      ⟨"sodium", "Sodium", false, "AANobbMI"⟩ ⟨"1.0", "sodium.jar", "u", some "HX", none, []⟩
      "HX" [5] (by decide) (Or.inl rfl) (by decide) rfl rfl (by decide) rfl rfl
      (by decide)).2.1 "sodium__old.jar" (by decide)).trans (by decide)⟩

/-! ## Claim C8: the dependency walk terminates and never revisits a ref -/

/-- `depStep` never touches the processed log and visited set. -/
theorem depStep_pv (env : Env) (mc : String) (s : WalkState) (d : String) :
    (depStep env mc s d).plog = s.plog ∧ (depStep env mc s d).visited = s.visited := by
  unfold depStep
  cases hres : env.resolveLatest d mc with
  | error e => exact ⟨rfl, rfl⟩
  | ok ro =>
    cases ro with
    | none => exact ⟨rfl, rfl⟩
    | some ri =>
      dsimp only
      cases hcg : dirGet s.cache (depCacheName d ri) with
      | some b =>
        dsimp only
        cases hg2 : dirGet s.cache (depCacheName d ri) with
        | none => exact ⟨rfl, rfl⟩
        | some bytes =>
          dsimp only
          by_cases hin : (env.fabricModId bytes).getD d ∈ s.installed
          · rw [if_pos hin]
            exact ⟨rfl, rfl⟩
          · rw [if_neg hin]
            exact ⟨rfl, rfl⟩
      | none =>
        dsimp only
        cases hdl : env.download ri.url with
        | error e => exact ⟨rfl, rfl⟩
        | ok buf =>
          dsimp only
          by_cases hsha : sha1Check env ri buf = true
          · rw [if_pos hsha]
            dsimp only
            cases hg2 : dirGet (dirSet s.cache (depCacheName d ri) buf) (depCacheName d ri) with
            | none => exact ⟨rfl, rfl⟩
            | some bytes =>
              dsimp only
              by_cases hin : (env.fabricModId bytes).getD d ∈ s.installed
              · rw [if_pos hin]
                exact ⟨rfl, rfl⟩
              · rw [if_neg hin]
                exact ⟨rfl, rfl⟩
          · rw [if_neg hsha]
            exact ⟨rfl, rfl⟩

/-- `depStep` either leaves the queue unchanged or appends the declared
dependencies of the ref it resolved (minus the already-visited ones). -/
theorem depStep_queue_cases (env : Env) (mc : String) (s : WalkState) (d : String) :
    (depStep env mc s d).queue = s.queue
    ∨ ∃ r, env.resolveLatest d mc = .ok (some r) ∧
        (depStep env mc s d).queue =
          s.queue ++ r.requiredProjectIds.filter (fun t => decide (t ∉ s.visited)) := by
  unfold depStep
  cases hres : env.resolveLatest d mc with
  | error e => exact Or.inl rfl
  | ok ro =>
    cases ro with
    | none => exact Or.inl rfl
    | some ri =>
      dsimp only
      cases hcg : dirGet s.cache (depCacheName d ri) with
      | some b =>
        dsimp only
        cases hg2 : dirGet s.cache (depCacheName d ri) with
        | none => exact Or.inl rfl
        | some bytes =>
          dsimp only
          by_cases hin : (env.fabricModId bytes).getD d ∈ s.installed
          · rw [if_pos hin]
            exact Or.inr ⟨ri, rfl, rfl⟩
          · rw [if_neg hin]
            exact Or.inr ⟨ri, rfl, rfl⟩
      | none =>
        dsimp only
        cases hdl : env.download ri.url with
        | error e => exact Or.inl rfl
        | ok buf =>
          dsimp only
          by_cases hsha : sha1Check env ri buf = true
          · rw [if_pos hsha]
            dsimp only
            cases hg2 : dirGet (dirSet s.cache (depCacheName d ri) buf) (depCacheName d ri) with
            | none => exact Or.inl rfl
            | some bytes =>
              dsimp only
              by_cases hin : (env.fabricModId bytes).getD d ∈ s.installed
              · rw [if_pos hin]
                exact Or.inr ⟨ri, rfl, rfl⟩
              · rw [if_neg hin]
                exact Or.inr ⟨ri, rfl, rfl⟩
          · rw [if_neg hsha]
            exact Or.inl rfl

/-- The processed log stays duplicate-free and inside the visited set. -/
theorem depWalk_plog_nodup (env : Env) (mc : String) :
    ∀ (fuel : Nat) (s : WalkState),
      s.plog.Nodup → (∀ x ∈ s.plog, x ∈ s.visited) →
      ((depWalk env mc fuel s).plog.Nodup
        ∧ ∀ x ∈ (depWalk env mc fuel s).plog, x ∈ (depWalk env mc fuel s).visited) := by
  intro fuel
  induction fuel with
  | zero => intro s h1 h2; exact ⟨h1, h2⟩
  | succ f ih =>
    intro s h1 h2
    unfold depWalk
    cases hq : s.queue with
    | nil => exact ⟨h1, h2⟩
    | cons q rest =>
      dsimp only
      by_cases hskip : strTrim q = "" ∨ strTrim q ∈ s.visited
      · rw [if_pos hskip]
        exact ih _ h1 h2
      · rw [if_neg hskip]
        push_neg at hskip
        set s1 : WalkState :=
          { s with queue := rest, visited := s.visited ++ [strTrim q], plog := s.plog ++ [strTrim q] }
          with hs1
        have hpv := depStep_pv env mc s1 (strTrim q)
        apply ih
        · rw [hpv.1]
          refine List.Nodup.append h1 (List.nodup_singleton _) ?_
          intro a hha hhb
          rw [List.mem_singleton] at hhb
          subst hhb
          exact hskip.2 (h2 _ hha)
        · intro x hx
          rw [hpv.1] at hx
          rw [hpv.2]
          rcases List.mem_append.mp hx with hl | hr
          · exact List.mem_append.mpr (Or.inl (h2 x hl))
          · exact List.mem_append.mpr (Or.inr hr)

/-- Termination of the dependency walk: with a finite universe `U` closed
under declared dependencies, a bound `B` on the number of dependencies any
ref declares, and fuel at least `|U| · (B+1) + |queue|`, the walk drains its
queue. -/
theorem depWalk_terminates (env : Env) (mc : String) (U : Finset String) (B : Nat)
    (hclosed : ∀ p ∈ U, ∀ r : RInfo, env.resolveLatest p mc = .ok (some r) →
      ∀ t ∈ r.requiredProjectIds, strTrim t = "" ∨ strTrim t ∈ U)
    (hbound : ∀ p ∈ U, ∀ r : RInfo, env.resolveLatest p mc = .ok (some r) →
      r.requiredProjectIds.length ≤ B) :
    ∀ (fuel : Nat) (s : WalkState),
      (∀ q ∈ s.queue, strTrim q = "" ∨ strTrim q ∈ U) →
      (U.filter (fun x => decide (x ∉ s.visited))).card * (B + 1) + s.queue.length ≤ fuel →
      (depWalk env mc fuel s).queue = [] := by
  intro fuel
  induction fuel with
  | zero =>
    intro s hq hf
    have : s.queue.length = 0 := by omega
    unfold depWalk
    exact List.length_eq_zero.mp this
  | succ f ih =>
    intro s hq hf
    unfold depWalk
    cases hqe : s.queue with
    | nil =>
      dsimp only
      exact hqe
    | cons q rest =>
      dsimp only
      rw [hqe] at hq hf
      simp only [List.length_cons] at hf
      by_cases hskip : strTrim q = "" ∨ strTrim q ∈ s.visited
      · rw [if_pos hskip]
        apply ih
        · intro x hx
          exact hq x (List.mem_cons_of_mem _ hx)
        · dsimp only
          omega
      · rw [if_neg hskip]
        push_neg at hskip
        set d := strTrim q with hd
        have hdU : d ∈ U := by
          rcases hq q (List.mem_cons_self _ _) with h0 | h0
          · exact absurd h0 hskip.1
          · exact h0
        have hcard : (U.filter (fun x => decide (x ∉ (s.visited ++ [d])))).card + 1
            = (U.filter (fun x => decide (x ∉ s.visited))).card := by
          have hset : U.filter (fun x => decide (x ∉ (s.visited ++ [d])))
              = (U.filter (fun x => decide (x ∉ s.visited))).erase d := by
            ext x
            simp only [Finset.mem_filter, Finset.mem_erase, decide_eq_true_eq,
              List.mem_append, List.mem_singleton]
            constructor
            · intro hx
              push_neg at hx
              exact ⟨hx.2.2, hx.1, hx.2.1⟩
            · intro hx
              refine ⟨hx.2.1, ?_⟩
              push_neg
              exact ⟨hx.2.2, hx.1⟩
          rw [hset]
          have hdmem : d ∈ U.filter (fun x => decide (x ∉ s.visited)) := by
            simp only [Finset.mem_filter, decide_eq_true_eq]
            exact ⟨hdU, hskip.2⟩
          rw [Finset.card_erase_of_mem hdmem]
          have hpos : 0 < (U.filter (fun x => decide (x ∉ s.visited))).card :=
            Finset.card_pos.mpr ⟨d, hdmem⟩
          omega
        have hpv := depStep_pv env mc
          { s with queue := rest, visited := s.visited ++ [d], plog := s.plog ++ [d] } d
        rcases depStep_queue_cases env mc
            { s with queue := rest, visited := s.visited ++ [d], plog := s.plog ++ [d] } d
          with hcase | ⟨r, hres, hcase⟩
        · apply ih
          · intro x hx
            rw [hcase] at hx
            exact hq x (List.mem_cons_of_mem _ hx)
          · rw [hcase, hpv.2]
            dsimp only
            have hmul := congrArg (fun k => k * (B + 1)) hcard
            simp only [add_mul, one_mul] at hmul
            omega
        · apply ih
          · intro x hx
            rw [hcase] at hx
            dsimp only at hx
            rcases List.mem_append.mp hx with hl | hr
            · exact hq x (List.mem_cons_of_mem _ hl)
            · exact hclosed d hdU r hres x (List.mem_of_mem_filter hr)
          · rw [hcase, hpv.2]
            dsimp only
            have hlen : (r.requiredProjectIds.filter
                (fun t => decide (t ∉ s.visited ++ [d]))).length ≤ B :=
              le_trans (List.length_filter_le _ _) (hbound d hdU r hres)
            have hmul := congrArg (fun k => k * (B + 1)) hcard
            simp only [add_mul, one_mul] at hmul
            simp only [List.length_append]
            omega

/-- The target-set normalization of `refreshModsForInstance`
(`opts.targetCatalogIds?.length ? new Set(...) : null`). -/
def refreshTset (targetCatalogIds : Option (List String)) : Option (List String) :=
  match targetCatalogIds with
  | some l => if l.isEmpty then none else some l
  | none => none

/-- The walk state produced by a refresh, in terms of `refreshTset`. -/
theorem refresh_walk_eq (env : Env) (mc : String) (now : Nat)
    (targets : Option (List String)) (fuel : Nat) (st : ModsState) (mods cache : Dir) :
    (refreshModsForInstance env mc now targets fuel st mods cache).walk =
      depWalk env mc fuel
        { queue := (processList env mc now (refreshTset targets) st CATALOG mods cache).queue,
          visited := [],
          installed := collectInstalledModIds env
            (match refreshTset targets with
              | some _ => (processList env mc now (refreshTset targets) st CATALOG mods cache).mods
              | none => cleanAutoDependencyFiles
                  (processList env mc now (refreshTset targets) st CATALOG mods cache).mods),
          mods :=
            (match refreshTset targets with
              | some _ => (processList env mc now (refreshTset targets) st CATALOG mods cache).mods
              | none => cleanAutoDependencyFiles
                  (processList env mc now (refreshTset targets) st CATALOG mods cache).mods),
          cache := (processList env mc now (refreshTset targets) st CATALOG mods cache).cache,
          plog := [], ilog := [] } := by
  rfl

theorem processEntry_deps_sub {env : Env} {mc : String} {now : Nat}
    {tset : Option (List String)} {st : ModsState} {mods cache : Dir} {mod : CatalogMod}
    {q : String} (h : q ∈ (processEntry env mc now tset st mods cache mod).deps) :
    ∃ p r, env.resolveLatest p mc = .ok (some r) ∧ q ∈ r.requiredProjectIds := by
  have hcore : q ∈ (processEntryCore env mc now st mods cache mod).deps →
      ∃ p r, env.resolveLatest p mc = .ok (some r) ∧ q ∈ r.requiredProjectIds := by
    intro hc
    simp only [processEntryCore, installOk] at hc
    by_cases hen : (!(mod.required || lookupEnabled st mod.id)) = true
    · rw [if_pos hen] at hc
      simp at hc
    · rw [if_neg hen] at hc
      cases hres : env.resolveLatest mod.projectId mc with
      | error e =>
        rw [hres] at hc
        simp at hc
      | ok ro =>
        rw [hres] at hc
        cases ro with
        | none => simp at hc
        | some ri =>
          dsimp only at hc
          cases hcg : dirGet cache (mainCacheName mod.id ri) with
          | some b =>
            rw [hcg] at hc
            exact ⟨mod.projectId, ri, hres, hc⟩
          | none =>
            rw [hcg] at hc
            cases hdl : env.download ri.url with
            | error e =>
              rw [hdl] at hc
              simp at hc
            | ok buf =>
              rw [hdl] at hc
              dsimp only at hc
              by_cases hsha : sha1Check env ri buf = true
              · rw [if_pos hsha] at hc
                exact ⟨mod.projectId, ri, hres, hc⟩
              · rw [if_neg hsha] at hc
                simp at hc
  unfold processEntry at h
  cases tset with
  | none => exact hcore h
  | some ts =>
    dsimp only at h
    by_cases hmem : mod.id ∈ ts
    · rw [if_pos hmem] at h
      exact hcore h
    · rw [if_neg hmem] at h
      simp at h

theorem processList_queue_sub {env : Env} {mc : String} {now : Nat}
    {tset : Option (List String)} {st : ModsState} :
    ∀ (ms : List CatalogMod) (mods cache : Dir) (q : String),
      q ∈ (processList env mc now tset st ms mods cache).queue →
      ∃ p r, env.resolveLatest p mc = .ok (some r) ∧ q ∈ r.requiredProjectIds := by
  intro ms
  induction ms with
  | nil => intro mods cache q hq; simp [processList] at hq
  | cons m tl ih =>
    intro mods cache q hq
    simp only [processList, List.mem_append] at hq
    rcases hq with h | h
    · exact processEntry_deps_sub h
    · exact ih _ _ q h

/-- Claim C8: within one `refreshModsForInstance` call the dependency walk
never processes the same dependency ref twice (the processed log is
duplicate-free, each processed ref being recorded in the visited set that is
checked before processing), and for every dependency graph — cycles included
— that lives in a finite ref universe `U` with per-ref dependency count at
most `B`, fuel `|U|·(B+1) + |initial queue|` suffices for the walk to drain
its queue, i.e. the loop terminates. -/
theorem C8_dep_walk_bounded :
    ∀ (env : Env) (mc : String) (now : Nat) (targets : Option (List String)) (fuel : Nat)
      (st : ModsState) (mods cache : Dir) (U : Finset String) (B : Nat),
      ((refreshModsForInstance env mc now targets fuel st mods cache).walk.plog.Nodup
        ∧ ∀ x ∈ (refreshModsForInstance env mc now targets fuel st mods cache).walk.plog,
            x ∈ (refreshModsForInstance env mc now targets fuel st mods cache).walk.visited)
      ∧ ((∀ (p : String) (r : RInfo), env.resolveLatest p mc = .ok (some r) →
            (∀ t ∈ r.requiredProjectIds, strTrim t = "" ∨ strTrim t ∈ U)
            ∧ r.requiredProjectIds.length ≤ B) →
          U.card * (B + 1)
            + (processList env mc now (refreshTset targets) st CATALOG mods cache).queue.length
            ≤ fuel →
          (refreshModsForInstance env mc now targets fuel st mods cache).walk.queue = []) := by
  intro env mc now targets fuel st mods cache U B
  rw [refresh_walk_eq]
  constructor
  · exact depWalk_plog_nodup env mc fuel _ List.nodup_nil (by intro x hx; simp at hx)
  · intro hglob hfuel
    apply depWalk_terminates env mc U B
    · intro p hp r hr t ht
      exact (hglob p r hr).1 t ht
    · intro p hp r hr
      exact (hglob p r hr).2
    · intro q hq
      obtain ⟨p, r, hres, hmem⟩ := processList_queue_sub CATALOG mods cache q hq
      exact (hglob p r hres).1 q hmem
    · have hfilter : U.filter (fun x => decide (x ∉ ([] : List String))) = U := by
        apply Finset.filter_true_of_mem
        intro x hx
        simp
      dsimp only
      rw [hfilter]
      exact hfuel

def C8wit_env : Env :=
  { resolveLatest := fun proj _ =>
      if proj = "AANobbMI" then .ok (some ⟨"1.0", "s.jar", "u0", some "H0", none, ["A"]⟩)
      else if proj = "A" then .ok (some ⟨"1.0", "a.jar", "uA", some "HA", none, ["B"]⟩)
      else if proj = "B" then .ok (some ⟨"1.0", "b.jar", "uB", none, none, ["A"]⟩)
      else .ok none,
    download := fun u =>
      if u = "u0" then .ok [1] else if u = "uA" then .ok [2]
      else if u = "uB" then .ok [3] else .error "404",
    sha1Of := fun b => if b = [1] then "H0" else if b = [2] then "HA" else "?",
    fabricModId := fun _ => none }

/-- Witness for C8 at a concrete cyclic dependency graph
(`A` requires `B`, `B` requires `A`): the walk drains its queue. -/
theorem C8_witness :
    (refreshModsForInstance C8wit_env "1.20.1" 0 none 9
      { enabled := [("sodium", true)], resolved := [] } [] []).walk.queue = [] := by
  apply (C8_dep_walk_bounded C8wit_env "1.20.1" 0 none 9
    { enabled := [("sodium", true)], resolved := [] } [] [] {"A", "B"} 1).2
  · intro p r hres
    by_cases h1 : p = "AANobbMI"
    · subst h1
      have hval : C8wit_env.resolveLatest "AANobbMI" "1.20.1" =
          .ok (some ⟨"1.0", "s.jar", "u0", some "H0", none, ["A"]⟩) := rfl
      rw [hval] at hres
      injection hres with hh
      injection hh with hh2
      rw [← hh2]
      exact ⟨by decide, by decide⟩
    · by_cases h2 : p = "A"
      · subst h2
        have hval : C8wit_env.resolveLatest "A" "1.20.1" =
            .ok (some ⟨"1.0", "a.jar", "uA", some "HA", none, ["B"]⟩) := rfl
        rw [hval] at hres
        injection hres with hh
        injection hh with hh2
        rw [← hh2]
        exact ⟨by decide, by decide⟩
      · by_cases h3 : p = "B"
        · subst h3
          have hval : C8wit_env.resolveLatest "B" "1.20.1" =
              .ok (some ⟨"1.0", "b.jar", "uB", none, none, ["A"]⟩) := rfl
          rw [hval] at hres
          injection hres with hh
          injection hh with hh2
          rw [← hh2]
          exact ⟨by decide, by decide⟩
        · simp only [C8wit_env] at hres
          rw [if_neg h1, if_neg h2, if_neg h3] at hres
          injection hres with hh
          exact Option.noConfusion hh
  · decide


/-! ## Directory name uniqueness and the installed-mod-id scan -/

/-- A directory has duplicate-free file names (true of any real directory;
the list embedding allows duplicates, so we track this as an invariant). -/
def dirNodup (d : Dir) : Prop := (d.map Prod.fst).Nodup

instance (d : Dir) : Decidable (dirNodup d) := by unfold dirNodup; infer_instance

theorem dirNodup_filter (d : Dir) (p : String × Bytes → Bool) (h : dirNodup d) :
    dirNodup (d.filter p) :=
  List.Nodup.sublist (List.Sublist.map Prod.fst (List.filter_sublist d)) h

theorem dirNodup_dirSet (d : Dir) (n : String) (b : Bytes) (h : dirNodup d) :
    dirNodup (dirSet d n b) := by
  unfold dirNodup dirSet
  rw [List.map_append]
  apply List.Nodup.append
  · exact dirNodup_filter d _ h
  · simp
  · intro x hx hx2
    rw [List.map_singleton, List.mem_singleton] at hx2
    subst hx2
    obtain ⟨e, he, hfst⟩ := List.mem_map.mp hx
    have hkeep := List.of_mem_filter he
    rw [hfst] at hkeep
    simp at hkeep

theorem processEntryCore_mods_nodup (env : Env) (mc : String) (now : Nat) (st : ModsState)
    (mods cache : Dir) (mod : CatalogMod) (h : dirNodup mods) :
    dirNodup (processEntryCore env mc now st mods cache mod).mods := by
  rcases processEntryCore_mods_shape env mc now st mods cache mod with hs | ⟨fn, b, hs⟩
  · rw [hs]
    exact dirNodup_filter mods _ h
  · rw [hs]
    exact dirNodup_dirSet _ _ _ (dirNodup_filter mods _ h)

theorem processEntry_mods_nodup (env : Env) (mc : String) (now : Nat)
    (tset : Option (List String)) (st : ModsState) (mods cache : Dir) (mod : CatalogMod)
    (h : dirNodup mods) :
    dirNodup (processEntry env mc now tset st mods cache mod).mods := by
  unfold processEntry
  cases tset with
  | none => exact processEntryCore_mods_nodup env mc now st mods cache mod h
  | some ts =>
    dsimp only
    by_cases hm : mod.id ∈ ts
    · rw [if_pos hm]
      exact processEntryCore_mods_nodup env mc now st mods cache mod h
    · rw [if_neg hm]
      exact h

theorem processList_mods_nodup (env : Env) (mc : String) (now : Nat)
    (tset : Option (List String)) (st : ModsState) :
    ∀ (ms : List CatalogMod) (mods cache : Dir), dirNodup mods →
      dirNodup (processList env mc now tset st ms mods cache).mods := by
  intro ms
  induction ms with
  | nil => intro mods cache h; exact h
  | cons m tl ih =>
    intro mods cache h
    simp only [processList]
    exact ih _ _ (processEntry_mods_nodup env mc now tset st mods cache m h)

theorem depStep_mods_nodup (env : Env) (mc : String) (s : WalkState) (d : String)
    (h : dirNodup s.mods) : dirNodup (depStep env mc s d).mods := by
  rcases depStep_cases env mc s d with ⟨_, hm⟩ | ⟨i, _, _, hm⟩
  · rw [hm]
    exact h
  · rw [hm]
    exact dirNodup_dirSet _ _ _ h

theorem depWalk_mods_nodup (env : Env) (mc : String) :
    ∀ (fuel : Nat) (s : WalkState), dirNodup s.mods →
      dirNodup (depWalk env mc fuel s).mods := by
  intro fuel
  induction fuel with
  | zero => intro s h; exact h
  | succ f ih =>
    intro s h
    unfold depWalk
    cases hq : s.queue with
    | nil => exact h
    | cons q rest =>
      dsimp only
      by_cases hskip : strTrim q = "" ∨ strTrim q ∈ s.visited
      · rw [if_pos hskip]
        exact ih _ h
      · rw [if_neg hskip]
        exact ih _ (depStep_mods_nodup env mc _ (strTrim q) h)

theorem dirGet_some_iff_mem :
    ∀ {d : Dir}, dirNodup d → ∀ {n : String} {b : Bytes},
      (dirGet d n = some b ↔ (n, b) ∈ d) := by
  intro d
  induction d with
  | nil => intro _ n b; simp [dirGet]
  | cons e es ih =>
    intro hN n b
    rw [dirNodup, List.map_cons, List.nodup_cons] at hN
    obtain ⟨hni, hN2⟩ := hN
    unfold dirGet
    by_cases he : e.1 = n
    · rw [if_pos he]
      constructor
      · intro hsome
        injection hsome with hh
        exact List.mem_cons.mpr (Or.inl (Prod.ext he hh).symm)
      · intro hmem
        rcases List.mem_cons.mp hmem with hEq | hmemes
        · rw [← hEq]
        · exfalso
          apply hni
          rw [he]
          exact List.mem_map.mpr ⟨(n, b), hmemes, rfl⟩
    · rw [if_neg he]
      rw [ih hN2]
      constructor
      · exact fun hh => List.mem_cons_of_mem _ hh
      · intro hh
        rcases List.mem_cons.mp hh with hEq | h2
        · exact absurd (congrArg Prod.fst hEq).symm he
        · exact h2

theorem collect_mem_iff {env : Env} {d : Dir} (hN : dirNodup d) (x : String) :
    x ∈ collectInstalledModIds env d
      ↔ ∃ n b, dirGet d n = some b ∧ strEnds n ".jar" = true
          ∧ env.fabricModId b = some x := by
  unfold collectInstalledModIds
  rw [List.mem_filterMap]
  constructor
  · rintro ⟨e, he, hfe⟩
    by_cases hj : strEnds e.1 ".jar" = true
    · rw [if_pos hj] at hfe
      exact ⟨e.1, e.2, (dirGet_some_iff_mem hN).mpr he, hj, hfe⟩
    · rw [if_neg hj] at hfe
      exact absurd hfe (by simp)
  · rintro ⟨n, b, hg, hj, hf⟩
    refine ⟨(n, b), (dirGet_some_iff_mem hN).mp hg, ?_⟩
    rw [if_pos hj]
    exact hf

theorem collect_mem_congr {env : Env} {d1 d2 : Dir} (h1 : dirNodup d1) (h2 : dirNodup d2)
    (hpw : ∀ n, strEnds n ".jar" = true → dirGet d1 n = dirGet d2 n) (x : String) :
    (x ∈ collectInstalledModIds env d1 ↔ x ∈ collectInstalledModIds env d2) := by
  rw [collect_mem_iff h1, collect_mem_iff h2]
  constructor
  · rintro ⟨n, b, hg, hj, hf⟩
    exact ⟨n, b, by rw [← hpw n hj]; exact hg, hj, hf⟩
  · rintro ⟨n, b, hg, hj, hf⟩
    exact ⟨n, b, by rw [hpw n hj]; exact hg, hj, hf⟩

/-! ## Cache growth of the dependency walk -/

theorem depStep_cache_mono {env : Env} {mc : String} {s : WalkState} {d : String}
    {k : String} {b : Bytes} (hk : dirGet s.cache k = some b) :
    dirGet (depStep env mc s d).cache k = some b := by
  unfold depStep
  cases hres : env.resolveLatest d mc with
  | error e => exact hk
  | ok ro =>
    cases ro with
    | none => exact hk
    | some ri =>
      dsimp only
      cases hcg : dirGet s.cache (depCacheName d ri) with
      | some b2 =>
        dsimp only
        cases hg2 : dirGet s.cache (depCacheName d ri) with
        | none => exact hk
        | some bytes =>
          dsimp only
          by_cases hin : (env.fabricModId bytes).getD d ∈ s.installed
          · rw [if_pos hin]
            exact hk
          · rw [if_neg hin]
            exact hk
      | none =>
        dsimp only
        cases hdl : env.download ri.url with
        | error e => exact hk
        | ok buf =>
          dsimp only
          by_cases hsha : sha1Check env ri buf = true
          · rw [if_pos hsha]
            dsimp only
            have hne : k ≠ depCacheName d ri := by
              intro hh
              rw [hh, hcg] at hk
              exact absurd hk (by simp)
            cases hg2 : dirGet (dirSet s.cache (depCacheName d ri) buf) (depCacheName d ri) with
            | none =>
              dsimp only
              rw [dirGet_dirSet_ne _ _ _ _ hne]
              exact hk
            | some bytes =>
              dsimp only
              by_cases hin : (env.fabricModId bytes).getD d ∈ s.installed
              · rw [if_pos hin]
                dsimp only
                rw [dirGet_dirSet_ne _ _ _ _ hne]
                exact hk
              · rw [if_neg hin]
                dsimp only
                rw [dirGet_dirSet_ne _ _ _ _ hne]
                exact hk
          · rw [if_neg hsha]
            exact hk

theorem depWalk_cache_mono (env : Env) (mc : String) :
    ∀ (fuel : Nat) (s : WalkState) (k : String) (b : Bytes),
      dirGet s.cache k = some b → dirGet (depWalk env mc fuel s).cache k = some b := by
  intro fuel
  induction fuel with
  | zero => intro s k b hk; exact hk
  | succ f ih =>
    intro s k b hk
    unfold depWalk
    cases hq : s.queue with
    | nil => exact hk
    | cons q rest =>
      dsimp only
      by_cases hskip : strTrim q = "" ∨ strTrim q ∈ s.visited
      · rw [if_pos hskip]
        exact ih _ k b hk
      · rw [if_neg hskip]
        exact ih _ k b (depStep_cache_mono hk)

theorem depStep_cache_avoid {env : Env} {mc : String} {s : WalkState} {d : String}
    {k : String}
    (h : ∀ r : RInfo, env.resolveLatest d mc = .ok (some r) → depCacheName d r ≠ k) :
    dirGet (depStep env mc s d).cache k = dirGet s.cache k := by
  unfold depStep
  cases hres : env.resolveLatest d mc with
  | error e => rfl
  | ok ro =>
    cases ro with
    | none => rfl
    | some ri =>
      dsimp only
      cases hcg : dirGet s.cache (depCacheName d ri) with
      | some b2 =>
        dsimp only
        cases hg2 : dirGet s.cache (depCacheName d ri) with
        | none => rfl
        | some bytes =>
          dsimp only
          by_cases hin : (env.fabricModId bytes).getD d ∈ s.installed
          · rw [if_pos hin]
          · rw [if_neg hin]
      | none =>
        dsimp only
        cases hdl : env.download ri.url with
        | error e => rfl
        | ok buf =>
          dsimp only
          by_cases hsha : sha1Check env ri buf = true
          · rw [if_pos hsha]
            dsimp only
            cases hg2 : dirGet (dirSet s.cache (depCacheName d ri) buf) (depCacheName d ri) with
            | none =>
              dsimp only
              exact dirGet_dirSet_ne _ _ _ _ (fun hh => h ri hres hh.symm)
            | some bytes =>
              dsimp only
              by_cases hin : (env.fabricModId bytes).getD d ∈ s.installed
              · rw [if_pos hin]
                dsimp only
                exact dirGet_dirSet_ne _ _ _ _ (fun hh => h ri hres hh.symm)
              · rw [if_neg hin]
                dsimp only
                exact dirGet_dirSet_ne _ _ _ _ (fun hh => h ri hres hh.symm)
          · rw [if_neg hsha]

theorem depWalk_cache_none (env : Env) (mc : String) :
    ∀ (fuel : Nat) (s : WalkState) (k : String),
      dirGet s.cache k = none →
      (∀ (d2 : String) (r2 : RInfo), d2 ∉ s.visited →
          env.resolveLatest d2 mc = .ok (some r2) → depCacheName d2 r2 ≠ k) →
      dirGet (depWalk env mc fuel s).cache k = none := by
  intro fuel
  induction fuel with
  | zero => intro s k hk hav; exact hk
  | succ f ih =>
    intro s k hk hav
    unfold depWalk
    cases hq : s.queue with
    | nil => exact hk
    | cons q rest =>
      dsimp only
      by_cases hskip : strTrim q = "" ∨ strTrim q ∈ s.visited
      · rw [if_pos hskip]
        exact ih _ k hk hav
      · rw [if_neg hskip]
        push_neg at hskip
        apply ih
        · rw [depStep_cache_avoid (fun r hr => hav (strTrim q) r hskip.2 hr)]
          exact hk
        · intro d2 r2 hd2 hr2
          rw [(depStep_pv env mc _ (strTrim q)).2] at hd2
          apply hav d2 r2
          · intro hmem
            exact hd2 (List.mem_append.mpr (Or.inl hmem))
          · exact hr2


/-! ## Two-run simulation of the dependency walk -/

theorem depStep_sim (env : Env) (mc : String) (d : String) (s1 s2 : WalkState) (FC : Dir)
    (hv : s2.visited = s1.visited)
    (hc2 : s2.cache = FC)
    (hmono : ∀ (k : String) (b : Bytes),
        dirGet (depStep env mc s1 d).cache k = some b → dirGet FC k = some b)
    (hfail : ∀ r : RInfo, env.resolveLatest d mc = .ok (some r) →
        dirGet (depStep env mc s1 d).cache (depCacheName d r) = none →
        dirGet FC (depCacheName d r) = none) :
    (∃ t, (depStep env mc s2 d).queue = s2.queue ++ t
        ∧ (depStep env mc s1 d).queue = s1.queue ++ t)
    ∧ (depStep env mc s2 d).cache = s2.cache
    ∧ ((∀ x : String, x ∈ s2.installed ↔ x ∈ s1.installed) →
        (∀ x : String, x ∈ (depStep env mc s2 d).installed
            ↔ x ∈ (depStep env mc s1 d).installed)
        ∧ ∀ n : String,
            dirGet (depStep env mc s2 d).mods n = dirGet (depStep env mc s1 d).mods n
            ∨ (dirGet (depStep env mc s2 d).mods n = dirGet s2.mods n
              ∧ dirGet (depStep env mc s1 d).mods n = dirGet s1.mods n)) := by
  cases hres : env.resolveLatest d mc with
  | error e =>
    have e1 : depStep env mc s1 d = s1 := by
      unfold depStep
      rw [hres]
    have e2 : depStep env mc s2 d = s2 := by
      unfold depStep
      rw [hres]
    rw [e1, e2]
    exact ⟨⟨[], by simp, by simp⟩, rfl, fun hins => ⟨hins, fun n => Or.inr ⟨rfl, rfl⟩⟩⟩
  | ok ro =>
    cases ro with
    | none =>
      have e1 : depStep env mc s1 d = s1 := by
        unfold depStep
        rw [hres]
      have e2 : depStep env mc s2 d = s2 := by
        unfold depStep
        rw [hres]
      rw [e1, e2]
      exact ⟨⟨[], by simp, by simp⟩, rfl, fun hins => ⟨hins, fun n => Or.inr ⟨rfl, rfl⟩⟩⟩
    | some r =>
      cases hcg : dirGet s1.cache (depCacheName d r) with
      | some b =>
        have e1c : (depStep env mc s1 d).cache = s1.cache := by
          unfold depStep
          rw [hres]
          dsimp only
          rw [hcg]
          dsimp only
          rw [hcg]
          dsimp only
          by_cases hin1 : (env.fabricModId b).getD d ∈ s1.installed
          · rw [if_pos hin1]
          · rw [if_neg hin1]
        have hcg2 : dirGet s2.cache (depCacheName d r) = some b := by
          rw [hc2]
          exact hmono _ b (by rw [e1c]; exact hcg)
        by_cases hin1 : (env.fabricModId b).getD d ∈ s1.installed
        · have e1 : depStep env mc s1 d = { s1 with
              queue := s1.queue
                ++ r.requiredProjectIds.filter (fun t => decide (t ∉ s1.visited)) } := by
            unfold depStep
            rw [hres]
            dsimp only
            rw [hcg]
            dsimp only
            rw [hcg]
            dsimp only
            rw [if_pos hin1]
          by_cases hin2 : (env.fabricModId b).getD d ∈ s2.installed
          · have e2 : depStep env mc s2 d = { s2 with
                queue := s2.queue
                  ++ r.requiredProjectIds.filter (fun t => decide (t ∉ s2.visited)) } := by
              unfold depStep
              rw [hres]
              dsimp only
              rw [hcg2]
              dsimp only
              rw [hcg2]
              dsimp only
              rw [if_pos hin2]
            rw [e1, e2]
            refine ⟨⟨r.requiredProjectIds.filter (fun t => decide (t ∉ s1.visited)),
              by dsimp only; rw [hv], by dsimp only⟩, rfl, ?_⟩
            intro hins
            exact ⟨hins, fun n => Or.inr ⟨rfl, rfl⟩⟩
          · have e2 : depStep env mc s2 d = { s2 with
                mods := dirSet s2.mods
                  ("dep__" ++ (env.fabricModId b).getD d ++ "__" ++ sanitizeName r.fileName) b,
                installed := s2.installed ++ [(env.fabricModId b).getD d],
                ilog := s2.ilog ++ [⟨"dep__" ++ (env.fabricModId b).getD d ++ "__"
                  ++ sanitizeName r.fileName, b, (env.fabricModId b).getD d⟩],
                queue := s2.queue
                  ++ r.requiredProjectIds.filter (fun t => decide (t ∉ s2.visited)) } := by
              unfold depStep
              rw [hres]
              dsimp only
              rw [hcg2]
              dsimp only
              rw [hcg2]
              dsimp only
              rw [if_neg hin2]
            rw [e1, e2]
            refine ⟨⟨r.requiredProjectIds.filter (fun t => decide (t ∉ s1.visited)),
              by dsimp only; rw [hv], by dsimp only⟩, rfl, ?_⟩
            intro hins
            exact absurd ((hins _).mpr hin1) hin2
        · have e1 : depStep env mc s1 d = { s1 with
              mods := dirSet s1.mods
                ("dep__" ++ (env.fabricModId b).getD d ++ "__" ++ sanitizeName r.fileName) b,
              installed := s1.installed ++ [(env.fabricModId b).getD d],
              ilog := s1.ilog ++ [⟨"dep__" ++ (env.fabricModId b).getD d ++ "__"
                ++ sanitizeName r.fileName, b, (env.fabricModId b).getD d⟩],
              queue := s1.queue
                ++ r.requiredProjectIds.filter (fun t => decide (t ∉ s1.visited)) } := by
            unfold depStep
            rw [hres]
            dsimp only
            rw [hcg]
            dsimp only
            rw [hcg]
            dsimp only
            rw [if_neg hin1]
          by_cases hin2 : (env.fabricModId b).getD d ∈ s2.installed
          · have e2 : depStep env mc s2 d = { s2 with
                queue := s2.queue
                  ++ r.requiredProjectIds.filter (fun t => decide (t ∉ s2.visited)) } := by
              unfold depStep
              rw [hres]
              dsimp only
              rw [hcg2]
              dsimp only
              rw [hcg2]
              dsimp only
              rw [if_pos hin2]
            rw [e1, e2]
            refine ⟨⟨r.requiredProjectIds.filter (fun t => decide (t ∉ s1.visited)),
              by dsimp only; rw [hv], by dsimp only⟩, rfl, ?_⟩
            intro hins
            exact absurd ((hins _).mp hin2) hin1
          · have e2 : depStep env mc s2 d = { s2 with
                mods := dirSet s2.mods
                  ("dep__" ++ (env.fabricModId b).getD d ++ "__" ++ sanitizeName r.fileName) b,
                installed := s2.installed ++ [(env.fabricModId b).getD d],
                ilog := s2.ilog ++ [⟨"dep__" ++ (env.fabricModId b).getD d ++ "__"
                  ++ sanitizeName r.fileName, b, (env.fabricModId b).getD d⟩],
                queue := s2.queue
                  ++ r.requiredProjectIds.filter (fun t => decide (t ∉ s2.visited)) } := by
              unfold depStep
              rw [hres]
              dsimp only
              rw [hcg2]
              dsimp only
              rw [hcg2]
              dsimp only
              rw [if_neg hin2]
            rw [e1, e2]
            refine ⟨⟨r.requiredProjectIds.filter (fun t => decide (t ∉ s1.visited)),
              by dsimp only; rw [hv], by dsimp only⟩, rfl, ?_⟩
            intro hins
            constructor
            · intro x
              dsimp only
              simp only [List.mem_append, List.mem_singleton]
              rw [hins x]
            · intro n
              dsimp only
              by_cases hn : n = "dep__" ++ (env.fabricModId b).getD d ++ "__"
                  ++ sanitizeName r.fileName
              · subst hn
                rw [dirGet_dirSet_self, dirGet_dirSet_self]
                exact Or.inl rfl
              · rw [dirGet_dirSet_ne _ _ _ _ hn, dirGet_dirSet_ne _ _ _ _ hn]
                exact Or.inr ⟨rfl, rfl⟩
      | none =>
        cases hdl : env.download r.url with
        | error e =>
          have e1 : depStep env mc s1 d = s1 := by
            unfold depStep
            rw [hres]
            dsimp only
            rw [hcg]
            dsimp only
            rw [hdl]
          have hcg2 : dirGet s2.cache (depCacheName d r) = none := by
            rw [hc2]
            exact hfail r hres (by rw [e1]; exact hcg)
          have e2 : depStep env mc s2 d = s2 := by
            unfold depStep
            rw [hres]
            dsimp only
            rw [hcg2]
            dsimp only
            rw [hdl]
          rw [e1, e2]
          exact ⟨⟨[], by simp, by simp⟩, rfl, fun hins => ⟨hins, fun n => Or.inr ⟨rfl, rfl⟩⟩⟩
        | ok buf =>
          by_cases hsha : sha1Check env r buf = true
          · have e1c : (depStep env mc s1 d).cache
                = dirSet s1.cache (depCacheName d r) buf := by
              unfold depStep
              rw [hres]
              dsimp only
              rw [hcg]
              dsimp only
              rw [hdl]
              dsimp only
              rw [if_pos hsha]
              dsimp only
              rw [dirGet_dirSet_self]
              dsimp only
              by_cases hin1 : (env.fabricModId buf).getD d ∈ s1.installed
              · rw [if_pos hin1]
              · rw [if_neg hin1]
            have hcg2 : dirGet s2.cache (depCacheName d r) = some buf := by
              rw [hc2]
              exact hmono _ buf (by rw [e1c, dirGet_dirSet_self])
            by_cases hin1 : (env.fabricModId buf).getD d ∈ s1.installed
            · have e1 : depStep env mc s1 d = { s1 with
                  cache := dirSet s1.cache (depCacheName d r) buf,
                  queue := s1.queue
                    ++ r.requiredProjectIds.filter (fun t => decide (t ∉ s1.visited)) } := by
                unfold depStep
                rw [hres]
                dsimp only
                rw [hcg]
                dsimp only
                rw [hdl]
                dsimp only
                rw [if_pos hsha]
                dsimp only
                rw [dirGet_dirSet_self]
                dsimp only
                rw [if_pos hin1]
              by_cases hin2 : (env.fabricModId buf).getD d ∈ s2.installed
              · have e2 : depStep env mc s2 d = { s2 with
                    queue := s2.queue
                      ++ r.requiredProjectIds.filter (fun t => decide (t ∉ s2.visited)) } := by
                  unfold depStep
                  rw [hres]
                  dsimp only
                  rw [hcg2]
                  dsimp only
                  rw [hcg2]
                  dsimp only
                  rw [if_pos hin2]
                rw [e1, e2]
                refine ⟨⟨r.requiredProjectIds.filter (fun t => decide (t ∉ s1.visited)),
                  by dsimp only; rw [hv], by dsimp only⟩, rfl, ?_⟩
                intro hins
                exact ⟨hins, fun n => Or.inr ⟨rfl, rfl⟩⟩
              · have e2 : depStep env mc s2 d = { s2 with
                    mods := dirSet s2.mods
                      ("dep__" ++ (env.fabricModId buf).getD d ++ "__"
                        ++ sanitizeName r.fileName) buf,
                    installed := s2.installed ++ [(env.fabricModId buf).getD d],
                    ilog := s2.ilog ++ [⟨"dep__" ++ (env.fabricModId buf).getD d ++ "__"
                      ++ sanitizeName r.fileName, buf, (env.fabricModId buf).getD d⟩],
                    queue := s2.queue
                      ++ r.requiredProjectIds.filter (fun t => decide (t ∉ s2.visited)) } := by
                  unfold depStep
                  rw [hres]
                  dsimp only
                  rw [hcg2]
                  dsimp only
                  rw [hcg2]
                  dsimp only
                  rw [if_neg hin2]
                rw [e1, e2]
                refine ⟨⟨r.requiredProjectIds.filter (fun t => decide (t ∉ s1.visited)),
                  by dsimp only; rw [hv], by dsimp only⟩, rfl, ?_⟩
                intro hins
                exact absurd ((hins _).mpr hin1) hin2
            · have e1 : depStep env mc s1 d = { s1 with
                  cache := dirSet s1.cache (depCacheName d r) buf,
                  mods := dirSet s1.mods
                    ("dep__" ++ (env.fabricModId buf).getD d ++ "__"
                      ++ sanitizeName r.fileName) buf,
                  installed := s1.installed ++ [(env.fabricModId buf).getD d],
                  ilog := s1.ilog ++ [⟨"dep__" ++ (env.fabricModId buf).getD d ++ "__"
                    ++ sanitizeName r.fileName, buf, (env.fabricModId buf).getD d⟩],
                  queue := s1.queue
                    ++ r.requiredProjectIds.filter (fun t => decide (t ∉ s1.visited)) } := by
                unfold depStep
                rw [hres]
                dsimp only
                rw [hcg]
                dsimp only
                rw [hdl]
                dsimp only
                rw [if_pos hsha]
                dsimp only
                rw [dirGet_dirSet_self]
                dsimp only
                rw [if_neg hin1]
              by_cases hin2 : (env.fabricModId buf).getD d ∈ s2.installed
              · have e2 : depStep env mc s2 d = { s2 with
                    queue := s2.queue
                      ++ r.requiredProjectIds.filter (fun t => decide (t ∉ s2.visited)) } := by
                  unfold depStep
                  rw [hres]
                  dsimp only
                  rw [hcg2]
                  dsimp only
                  rw [hcg2]
                  dsimp only
                  rw [if_pos hin2]
                rw [e1, e2]
                refine ⟨⟨r.requiredProjectIds.filter (fun t => decide (t ∉ s1.visited)),
                  by dsimp only; rw [hv], by dsimp only⟩, rfl, ?_⟩
                intro hins
                exact absurd ((hins _).mp hin2) hin1
              · have e2 : depStep env mc s2 d = { s2 with
                    mods := dirSet s2.mods
                      ("dep__" ++ (env.fabricModId buf).getD d ++ "__"
                        ++ sanitizeName r.fileName) buf,
                    installed := s2.installed ++ [(env.fabricModId buf).getD d],
                    ilog := s2.ilog ++ [⟨"dep__" ++ (env.fabricModId buf).getD d ++ "__"
                      ++ sanitizeName r.fileName, buf, (env.fabricModId buf).getD d⟩],
                    queue := s2.queue
                      ++ r.requiredProjectIds.filter (fun t => decide (t ∉ s2.visited)) } := by
                  unfold depStep
                  rw [hres]
                  dsimp only
                  rw [hcg2]
                  dsimp only
                  rw [hcg2]
                  dsimp only
                  rw [if_neg hin2]
                rw [e1, e2]
                refine ⟨⟨r.requiredProjectIds.filter (fun t => decide (t ∉ s1.visited)),
                  by dsimp only; rw [hv], by dsimp only⟩, rfl, ?_⟩
                intro hins
                constructor
                · intro x
                  dsimp only
                  simp only [List.mem_append, List.mem_singleton]
                  rw [hins x]
                · intro n
                  dsimp only
                  by_cases hn : n = "dep__" ++ (env.fabricModId buf).getD d ++ "__"
                      ++ sanitizeName r.fileName
                  · subst hn
                    rw [dirGet_dirSet_self, dirGet_dirSet_self]
                    exact Or.inl rfl
                  · rw [dirGet_dirSet_ne _ _ _ _ hn, dirGet_dirSet_ne _ _ _ _ hn]
                    exact Or.inr ⟨rfl, rfl⟩
          · have e1 : depStep env mc s1 d = s1 := by
              unfold depStep
              rw [hres]
              dsimp only
              rw [hcg]
              dsimp only
              rw [hdl]
              dsimp only
              rw [if_neg hsha]
            have hcg2 : dirGet s2.cache (depCacheName d r) = none := by
              rw [hc2]
              exact hfail r hres (by rw [e1]; exact hcg)
            have e2 : depStep env mc s2 d = s2 := by
              unfold depStep
              rw [hres]
              dsimp only
              rw [hcg2]
              dsimp only
              rw [hdl]
              dsimp only
              rw [if_neg hsha]
            rw [e1, e2]
            exact ⟨⟨[], by simp, by simp⟩, rfl, fun hins => ⟨hins, fun n => Or.inr ⟨rfl, rfl⟩⟩⟩


theorem depWalk_sim (env : Env) (mc : String)
    (Hinj : ∀ (d d2 : String) (r r2 : RInfo), d ≠ d2 →
        env.resolveLatest d mc = .ok (some r) → env.resolveLatest d2 mc = .ok (some r2) →
        depCacheName d r ≠ depCacheName d2 r2) :
    ∀ (f : Nat) (s1 s2 : WalkState),
      s2.queue = s1.queue →
      s2.visited = s1.visited →
      s2.cache = (depWalk env mc f s1).cache →
      ((depWalk env mc f s2).cache = s2.cache
        ∧ ((∀ x : String, x ∈ s2.installed ↔ x ∈ s1.installed) →
            (∀ n, dirGet s2.mods n = dirGet s1.mods n
              ∨ dirGet s2.mods n = dirGet (depWalk env mc f s1).mods n) →
            ∀ n, dirGet (depWalk env mc f s2).mods n
              = dirGet (depWalk env mc f s1).mods n)) := by
  intro f
  induction f with
  | zero =>
    intro s1 s2 hq hv hc
    refine ⟨rfl, ?_⟩
    intro hins hm n
    rcases hm n with h | h
    · exact h
    · exact h
  | succ f ih =>
    intro s1 s2 hq hv hc
    cases hq1 : s1.queue with
    | nil =>
      have hq2 : s2.queue = [] := by rw [hq, hq1]
      have hW1 : depWalk env mc (f + 1) s1 = s1 := by
        conv_lhs => unfold depWalk
        rw [hq1]
      have hW2 : depWalk env mc (f + 1) s2 = s2 := by
        conv_lhs => unfold depWalk
        rw [hq2]
      rw [hW1, hW2]
      refine ⟨rfl, ?_⟩
      intro hins hm n
      rcases hm n with h | h
      · exact h
      · exact h
    | cons q rest =>
      have hq2 : s2.queue = q :: rest := by rw [hq, hq1]
      by_cases hskip : strTrim q = "" ∨ strTrim q ∈ s1.visited
      · have hW1 : depWalk env mc (f + 1) s1
            = depWalk env mc f { s1 with queue := rest } := by
          conv_lhs => unfold depWalk
          rw [hq1]
          dsimp only
          rw [if_pos hskip]
        have hW2 : depWalk env mc (f + 1) s2
            = depWalk env mc f { s2 with queue := rest, visited := s1.visited } := by
          conv_lhs => unfold depWalk
          rw [hq2]
          dsimp only
          rw [hv]
          rw [if_pos hskip]
        obtain ⟨ih1, ih2⟩ := ih { s1 with queue := rest }
          { s2 with queue := rest, visited := s1.visited }
          rfl rfl (by dsimp only; rw [hc, hW1])
        rw [hW1, hW2]
        exact ⟨ih1, fun hins hm n => ih2 hins hm n⟩
      · have hW1 : depWalk env mc (f + 1) s1
            = depWalk env mc f (depStep env mc { s1 with
                queue := rest, visited := s1.visited ++ [strTrim q],
                plog := s1.plog ++ [strTrim q] } (strTrim q)) := by
          conv_lhs => unfold depWalk
          rw [hq1]
          dsimp only
          rw [if_neg hskip]
        have hW2 : depWalk env mc (f + 1) s2
            = depWalk env mc f (depStep env mc { s2 with
                queue := rest, visited := s1.visited ++ [strTrim q],
                plog := s2.plog ++ [strTrim q] } (strTrim q)) := by
          conv_lhs => unfold depWalk
          rw [hq2]
          dsimp only
          rw [hv]
          rw [if_neg hskip]
        have hstepsim := depStep_sim env mc (strTrim q)
          { s1 with
            queue := rest, visited := s1.visited ++ [strTrim q],
            plog := s1.plog ++ [strTrim q] }
          { s2 with
            queue := rest, visited := s1.visited ++ [strTrim q],
            plog := s2.plog ++ [strTrim q] }
          ((depWalk env mc f (depStep env mc { s1 with
              queue := rest, visited := s1.visited ++ [strTrim q],
              plog := s1.plog ++ [strTrim q] } (strTrim q))).cache)
          rfl
          (by dsimp only; rw [hc, hW1])
          (fun k b hb => depWalk_cache_mono env mc f _ k b hb)
          (by
            intro r hr hnone
            apply depWalk_cache_none env mc f _ (depCacheName (strTrim q) r) hnone
            intro d2 r2 hd2 hr2
            rw [(depStep_pv env mc _ (strTrim q)).2] at hd2
            have hne : d2 ≠ strTrim q := by
              intro hh
              apply hd2
              rw [hh]
              exact List.mem_append.mpr (Or.inr (List.mem_singleton.mpr rfl))
            exact Hinj d2 (strTrim q) r2 r hne hr2 hr)
        obtain ⟨⟨t, hq2t, hq1t⟩, hCstep, hMstep⟩ := hstepsim
        obtain ⟨ih1, ih2⟩ := ih
          (depStep env mc { s1 with
            queue := rest, visited := s1.visited ++ [strTrim q],
            plog := s1.plog ++ [strTrim q] } (strTrim q))
          (depStep env mc { s2 with
            queue := rest, visited := s1.visited ++ [strTrim q],
            plog := s2.plog ++ [strTrim q] } (strTrim q))
          (by rw [hq2t, hq1t])
          (by
            rw [(depStep_pv env mc _ (strTrim q)).2, (depStep_pv env mc _ (strTrim q)).2])
          (by rw [hCstep]; dsimp only; rw [hc, hW1])
        rw [hW1, hW2]
        refine ⟨?_, ?_⟩
        · rw [ih1, hCstep]
        · intro hins hm n
          obtain ⟨hsi, hsm⟩ := hMstep hins
          apply ih2 hsi
          intro n2
          rcases hsm n2 with h | ⟨h2u, h1u⟩
          · exact Or.inl h
          · rcases hm n2 with hh | hh
            · exact Or.inl (by rw [h2u, h1u]; exact hh)
            · exact Or.inr (by rw [h2u]; exact hh)


/-! ## C4: idempotence of refresh under a stable clock -/

theorem pw_clean (mods2 OUT1 mods1c : Dir) (id : String)
    (hcur : ∀ n, dirGet mods2 n = dirGet OUT1 n)
    (hO : ∀ n, strStarts n (id ++ "__") = true →
        dirGet OUT1 n = dirGet (cleanOldFilesForCatalogId mods1c id) n) :
    ∀ n, dirGet (cleanOldFilesForCatalogId mods2 id) n = dirGet OUT1 n := by
  intro n
  rw [dirGet_cleanOld]
  by_cases hp : (strStarts n (id ++ "__") && isJarName n) = true
  · rw [if_pos hp]
    have hps : strStarts n (id ++ "__") = true := ((Bool.and_eq_true _ _).mp hp).1
    rw [hO n hps, dirGet_cleanOld, if_pos hp]
  · rw [if_neg hp]
    exact hcur n

theorem pw_install (mods2 OUT1 mods1c : Dir) (id target : String) (b : Bytes)
    (htp : strStarts target (id ++ "__") = true)
    (hcur : ∀ n, dirGet mods2 n = dirGet OUT1 n)
    (hO : ∀ n, strStarts n (id ++ "__") = true →
        dirGet OUT1 n = dirGet (dirSet (cleanOldFilesForCatalogId mods1c id) target b) n) :
    ∀ n, dirGet (dirSet (cleanOldFilesForCatalogId mods2 id) target b) n = dirGet OUT1 n := by
  intro n
  by_cases hn : n = target
  · subst hn
    rw [dirGet_dirSet_self, hO n htp, dirGet_dirSet_self]
  · rw [dirGet_dirSet_ne _ _ _ _ hn]
    rw [dirGet_cleanOld]
    by_cases hp : (strStarts n (id ++ "__") && isJarName n) = true
    · rw [if_pos hp]
      have hps : strStarts n (id ++ "__") = true := ((Bool.and_eq_true _ _).mp hp).1
      rw [hO n hps, dirGet_dirSet_ne _ _ _ _ hn, dirGet_cleanOld, if_pos hp]
    · rw [if_neg hp]
      exact hcur n

theorem processEntryCore_congr (env : Env) (mc : String) (now : Nat) (st : ModsState)
    (R1 : List (String × ResolvedMod)) (mods1 cache1 mods2 F OUT1 : Dir) (m : CatalogMod)
    (hFK : ∀ k, strStarts k (m.id ++ "-") = true →
        dirGet F k = dirGet (processEntryCore env mc now st mods1 cache1 m).cache k)
    (hcur : ∀ n, dirGet mods2 n = dirGet OUT1 n)
    (hO : ∀ n, strStarts n (m.id ++ "__") = true →
        dirGet OUT1 n = dirGet (processEntryCore env mc now st mods1 cache1 m).mods n) :
    (processEntryCore env mc now ⟨st.enabled, R1⟩ mods2 F m).record
        = (processEntryCore env mc now st mods1 cache1 m).record
      ∧ (processEntryCore env mc now ⟨st.enabled, R1⟩ mods2 F m).cache = F
      ∧ (processEntryCore env mc now ⟨st.enabled, R1⟩ mods2 F m).deps
        = (processEntryCore env mc now st mods1 cache1 m).deps
      ∧ ∀ n, dirGet (processEntryCore env mc now ⟨st.enabled, R1⟩ mods2 F m).mods n
        = dirGet OUT1 n := by
  have hen : lookupEnabled (⟨st.enabled, R1⟩ : ModsState) m.id = lookupEnabled st m.id := rfl
  simp only [processEntryCore, installOk]
  rw [hen]
  by_cases hsE : (!(m.required || lookupEnabled st m.id)) = true
  · rw [if_pos hsE, if_pos hsE]
    have he1m : (processEntryCore env mc now st mods1 cache1 m).mods
        = cleanOldFilesForCatalogId mods1 m.id := by
      simp only [processEntryCore, installOk]
      rw [if_pos hsE]
    refine ⟨rfl, rfl, rfl, ?_⟩
    exact pw_clean mods2 OUT1 mods1 m.id hcur (fun n hn => by rw [hO n hn, he1m])
  · rw [if_neg hsE, if_neg hsE]
    cases hres : env.resolveLatest m.projectId mc with
    | error e =>
      have he1m : (processEntryCore env mc now st mods1 cache1 m).mods
          = cleanOldFilesForCatalogId mods1 m.id := by
        simp only [processEntryCore, installOk]
        rw [if_neg hsE]
        rw [hres]
      refine ⟨rfl, rfl, rfl, ?_⟩
      exact pw_clean mods2 OUT1 mods1 m.id hcur (fun n hn => by rw [hO n hn, he1m])
    | ok ro =>
      cases ro with
      | none =>
        have he1m : (processEntryCore env mc now st mods1 cache1 m).mods
            = cleanOldFilesForCatalogId mods1 m.id := by
          simp only [processEntryCore, installOk]
          rw [if_neg hsE]
          rw [hres]
        refine ⟨rfl, rfl, rfl, ?_⟩
        exact pw_clean mods2 OUT1 mods1 m.id hcur (fun n hn => by rw [hO n hn, he1m])
      | some r =>
        dsimp only
        have hK := hFK (mainCacheName m.id r) (mainCacheName_starts m.id r)
        cases hc1 : dirGet cache1 (mainCacheName m.id r) with
        | some b =>
          have he1 : (processEntryCore env mc now st mods1 cache1 m).cache = cache1 := by
            simp only [processEntryCore, installOk]
            rw [if_neg hsE]
            rw [hres]
            dsimp only
            rw [hc1]
          have he1m : (processEntryCore env mc now st mods1 cache1 m).mods
              = dirSet (cleanOldFilesForCatalogId mods1 m.id)
                  (targetFileName m.id r.fileName true) b := by
            simp only [processEntryCore, installOk]
            rw [if_neg hsE]
            rw [hres]
            dsimp only
            rw [hc1]
          rw [he1, hc1] at hK
          rw [hK]
          refine ⟨rfl, rfl, rfl, ?_⟩
          exact pw_install mods2 OUT1 mods1 m.id (targetFileName m.id r.fileName true) b
            (targetFileName_starts m.id r.fileName) hcur
            (fun n hn => by rw [hO n hn, he1m])
        | none =>
          cases hdl : env.download r.url with
          | error e2 =>
            have he1 : (processEntryCore env mc now st mods1 cache1 m).cache = cache1 := by
              simp only [processEntryCore, installOk]
              rw [if_neg hsE]
              rw [hres]
              dsimp only
              rw [hc1]
              dsimp only
              rw [hdl]
            have he1m : (processEntryCore env mc now st mods1 cache1 m).mods
                = cleanOldFilesForCatalogId mods1 m.id := by
              simp only [processEntryCore, installOk]
              rw [if_neg hsE]
              rw [hres]
              dsimp only
              rw [hc1]
              dsimp only
              rw [hdl]
            rw [he1, hc1] at hK
            rw [hK]
            refine ⟨rfl, rfl, rfl, ?_⟩
            exact pw_clean mods2 OUT1 mods1 m.id hcur (fun n hn => by rw [hO n hn, he1m])
          | ok buf =>
            by_cases hsha : sha1Check env r buf = true
            · have he1 : (processEntryCore env mc now st mods1 cache1 m).cache
                  = dirSet cache1 (mainCacheName m.id r) buf := by
                simp only [processEntryCore, installOk]
                rw [if_neg hsE]
                rw [hres]
                dsimp only
                rw [hc1]
                dsimp only
                rw [hdl]
                dsimp only
                rw [if_pos hsha]
              have he1m : (processEntryCore env mc now st mods1 cache1 m).mods
                  = dirSet (cleanOldFilesForCatalogId mods1 m.id)
                      (targetFileName m.id r.fileName true) buf := by
                simp only [processEntryCore, installOk]
                rw [if_neg hsE]
                rw [hres]
                dsimp only
                rw [hc1]
                dsimp only
                rw [hdl]
                dsimp only
                rw [if_pos hsha]
                dsimp only
                rw [dirGet_dirSet_self]
              rw [he1, dirGet_dirSet_self] at hK
              rw [hK]
              dsimp only
              rw [if_pos hsha]
              refine ⟨rfl, rfl, rfl, ?_⟩
              exact pw_install mods2 OUT1 mods1 m.id (targetFileName m.id r.fileName true) buf
                (targetFileName_starts m.id r.fileName) hcur
                (fun n hn => by rw [hO n hn, he1m])
            · have he1 : (processEntryCore env mc now st mods1 cache1 m).cache = cache1 := by
                simp only [processEntryCore, installOk]
                rw [if_neg hsE]
                rw [hres]
                dsimp only
                rw [hc1]
                dsimp only
                rw [hdl]
                dsimp only
                rw [if_neg hsha]
              have he1m : (processEntryCore env mc now st mods1 cache1 m).mods
                  = cleanOldFilesForCatalogId mods1 m.id := by
                simp only [processEntryCore, installOk]
                rw [if_neg hsE]
                rw [hres]
                dsimp only
                rw [hc1]
                dsimp only
                rw [hdl]
                dsimp only
                rw [if_neg hsha]
              rw [he1, hc1] at hK
              rw [hK]
              dsimp only
              rw [if_neg hsha, if_neg hsha]
              refine ⟨rfl, rfl, rfl, ?_⟩
              exact pw_clean mods2 OUT1 mods1 m.id hcur (fun n hn => by rw [hO n hn, he1m])

theorem processEntry_congr (env : Env) (mc : String) (now : Nat)
    (tset : Option (List String)) (st : ModsState) (R1 : List (String × ResolvedMod))
    (mods1 cache1 mods2 F OUT1 : Dir) (m : CatalogMod)
    (hskipm : ∀ ts, tset = some ts → m.id ∉ ts →
        assocFind R1 m.id = assocFind st.resolved m.id)
    (hFK : ∀ k, strStarts k (m.id ++ "-") = true →
        dirGet F k = dirGet (processEntry env mc now tset st mods1 cache1 m).cache k)
    (hcur : ∀ n, dirGet mods2 n = dirGet OUT1 n)
    (hO : ∀ n, strStarts n (m.id ++ "__") = true →
        dirGet OUT1 n = dirGet (processEntry env mc now tset st mods1 cache1 m).mods n) :
    (processEntry env mc now tset ⟨st.enabled, R1⟩ mods2 F m).record
        = (processEntry env mc now tset st mods1 cache1 m).record
      ∧ (processEntry env mc now tset ⟨st.enabled, R1⟩ mods2 F m).cache = F
      ∧ (processEntry env mc now tset ⟨st.enabled, R1⟩ mods2 F m).deps
        = (processEntry env mc now tset st mods1 cache1 m).deps
      ∧ ∀ n, dirGet (processEntry env mc now tset ⟨st.enabled, R1⟩ mods2 F m).mods n
        = dirGet OUT1 n := by
  cases tset with
  | none =>
    exact processEntryCore_congr env mc now st R1 mods1 cache1 mods2 F OUT1 m hFK hcur hO
  | some ts =>
    by_cases hm : m.id ∈ ts
    · have h1 : processEntry env mc now (some ts) st mods1 cache1 m
          = processEntryCore env mc now st mods1 cache1 m := by
        unfold processEntry
        dsimp only
        rw [if_pos hm]
      have h2 : processEntry env mc now (some ts) (⟨st.enabled, R1⟩ : ModsState) mods2 F m
          = processEntryCore env mc now (⟨st.enabled, R1⟩ : ModsState) mods2 F m := by
        unfold processEntry
        dsimp only
        rw [if_pos hm]
      rw [h1, h2]
      refine processEntryCore_congr env mc now st R1 mods1 cache1 mods2 F OUT1 m ?_ hcur ?_
      · intro k hk
        rw [← h1]
        exact hFK k hk
      · intro n hn
        rw [← h1]
        exact hO n hn
    · have h1 : processEntry env mc now (some ts) st mods1 cache1 m
          = { record := assocFind st.resolved m.id, mods := mods1, cache := cache1,
              deps := [] } := by
        unfold processEntry
        dsimp only
        rw [if_neg hm]
      have h2 : processEntry env mc now (some ts) (⟨st.enabled, R1⟩ : ModsState) mods2 F m
          = { record := assocFind R1 m.id, mods := mods2, cache := F, deps := [] } := by
        unfold processEntry
        dsimp only
        rw [if_neg hm]
      rw [h1, h2]
      exact ⟨hskipm ts rfl hm, rfl, rfl, hcur⟩

theorem processList_congr (env : Env) (mc : String) (now : Nat)
    (tset : Option (List String)) (st : ModsState) (R1 : List (String × ResolvedMod))
    (F OUT1 : Dir) :
    ∀ (ms : List CatalogMod) (mods1 cache1 mods2 : Dir),
      (ms.map (fun m => m.id)).Nodup →
      (∀ m ∈ ms, m ∈ CATALOG) →
      (∀ m ∈ ms, ∀ ts, tset = some ts → m.id ∉ ts →
          assocFind R1 m.id = assocFind st.resolved m.id) →
      (∀ m ∈ ms, ∀ k, strStarts k (m.id ++ "-") = true →
          dirGet F k = dirGet (processList env mc now tset st ms mods1 cache1).cache k) →
      (∀ n, dirGet mods2 n = dirGet OUT1 n) →
      (∀ m ∈ ms, ∀ n, strStarts n (m.id ++ "__") = true →
          dirGet OUT1 n = dirGet (processList env mc now tset st ms mods1 cache1).mods n) →
      (processList env mc now tset ⟨st.enabled, R1⟩ ms mods2 F).resolved
          = (processList env mc now tset st ms mods1 cache1).resolved
        ∧ (processList env mc now tset ⟨st.enabled, R1⟩ ms mods2 F).cache = F
        ∧ (processList env mc now tset ⟨st.enabled, R1⟩ ms mods2 F).queue
          = (processList env mc now tset st ms mods1 cache1).queue
        ∧ ∀ n, dirGet (processList env mc now tset ⟨st.enabled, R1⟩ ms mods2 F).mods n
          = dirGet OUT1 n := by
  intro ms
  induction ms with
  | nil =>
    intro mods1 cache1 mods2 hnd hmem hskip hF hcur hOs
    exact ⟨rfl, rfl, rfl, hcur⟩
  | cons m tl ih =>
    intro mods1 cache1 mods2 hnd hmem hskip hF hcur hOs
    rw [List.map_cons] at hnd
    obtain ⟨hm_nin, hnd2⟩ := List.nodup_cons.mp hnd
    have hmC : m ∈ CATALOG := hmem m (List.mem_cons_self _ _)
    have hFm : ∀ k, strStarts k (m.id ++ "-") = true →
        dirGet F k = dirGet (processEntry env mc now tset st mods1 cache1 m).cache k := by
      intro k hk
      have h0 := hF m (List.mem_cons_self _ _) k hk
      have hframe : dirGet (processList env mc now tset st tl
          (processEntry env mc now tset st mods1 cache1 m).mods
          (processEntry env mc now tset st mods1 cache1 m).cache).cache k
          = dirGet (processEntry env mc now tset st mods1 cache1 m).cache k := by
        apply processList_cache_frame
        intro m2 hm2
        left
        have hm2C : m2 ∈ CATALOG := hmem m2 (List.mem_cons_of_mem _ hm2)
        have hne : m2.id ≠ m.id := by
          intro hh
          apply hm_nin
          rw [← hh]
          exact List.mem_map.mpr ⟨m2, hm2, rfl⟩
        exact not_both_starts (catalog_dash_incomp m hmC m2 hm2C hne.symm)
          (catalog_dash_incomp m2 hm2C m hmC hne) hk
      exact h0.trans hframe
    have hOm : ∀ n, strStarts n (m.id ++ "__") = true →
        dirGet OUT1 n = dirGet (processEntry env mc now tset st mods1 cache1 m).mods n := by
      intro n hn
      have h0 := hOs m (List.mem_cons_self _ _) n hn
      have hframe : dirGet (processList env mc now tset st tl
          (processEntry env mc now tset st mods1 cache1 m).mods
          (processEntry env mc now tset st mods1 cache1 m).cache).mods n
          = dirGet (processEntry env mc now tset st mods1 cache1 m).mods n := by
        apply processList_mods_frame
        intro m2 hm2
        left
        have hm2C : m2 ∈ CATALOG := hmem m2 (List.mem_cons_of_mem _ hm2)
        have hne : m2.id ≠ m.id := by
          intro hh
          apply hm_nin
          rw [← hh]
          exact List.mem_map.mpr ⟨m2, hm2, rfl⟩
        exact not_both_starts (catalog_sep_incomp m hmC m2 hm2C hne.symm)
          (catalog_sep_incomp m2 hm2C m hmC hne) hn
      exact h0.trans hframe
    obtain ⟨hrec, hcache, hdeps, hmods⟩ := processEntry_congr env mc now tset st R1 mods1
      cache1 mods2 F OUT1 m (fun ts hts hnot => hskip m (List.mem_cons_self _ _) ts hts hnot)
      hFm hcur hOm
    have hFt : ∀ m2 ∈ tl, ∀ k, strStarts k (m2.id ++ "-") = true →
        dirGet F k = dirGet (processList env mc now tset st tl
          (processEntry env mc now tset st mods1 cache1 m).mods
          (processEntry env mc now tset st mods1 cache1 m).cache).cache k := by
      intro m2 hm2 k hk
      exact hF m2 (List.mem_cons_of_mem _ hm2) k hk
    have hOt : ∀ m2 ∈ tl, ∀ n, strStarts n (m2.id ++ "__") = true →
        dirGet OUT1 n = dirGet (processList env mc now tset st tl
          (processEntry env mc now tset st mods1 cache1 m).mods
          (processEntry env mc now tset st mods1 cache1 m).cache).mods n := by
      intro m2 hm2 n hn
      exact hOs m2 (List.mem_cons_of_mem _ hm2) n hn
    obtain ⟨ih1, ih2, ih3, ih4⟩ := ih (processEntry env mc now tset st mods1 cache1 m).mods
      (processEntry env mc now tset st mods1 cache1 m).cache
      (processEntry env mc now tset ⟨st.enabled, R1⟩ mods2 F m).mods
      hnd2 (fun x hx => hmem x (List.mem_cons_of_mem _ hx))
      (fun x hx => hskip x (List.mem_cons_of_mem _ hx)) hFt hmods hOt
    simp only [processList]
    rw [hcache, hrec, hdeps]
    rw [ih1, ih3]
    exact ⟨rfl, ih2, rfl, ih4⟩

theorem catalogIds_nodup : (CATALOG.map (fun m => m.id)).Nodup := by decide

/-- The start state of a refresh call's dependency walk. -/
def refreshWalkInit (env : Env) (mc : String) (now : Nat) (targets : Option (List String))
    (st : ModsState) (mods cache : Dir) : WalkState :=
  { queue := (processList env mc now (refreshTset targets) st CATALOG mods cache).queue,
    visited := [],
    installed := collectInstalledModIds env
      (match refreshTset targets with
        | some _ => (processList env mc now (refreshTset targets) st CATALOG mods cache).mods
        | none => cleanAutoDependencyFiles
            (processList env mc now (refreshTset targets) st CATALOG mods cache).mods),
    mods :=
      (match refreshTset targets with
        | some _ => (processList env mc now (refreshTset targets) st CATALOG mods cache).mods
        | none => cleanAutoDependencyFiles
            (processList env mc now (refreshTset targets) st CATALOG mods cache).mods),
    cache := (processList env mc now (refreshTset targets) st CATALOG mods cache).cache,
    plog := [], ilog := [] }

theorem refresh_walk_eq2 (env : Env) (mc : String) (now : Nat)
    (targets : Option (List String)) (fuel : Nat) (st : ModsState) (mods cache : Dir) :
    (refreshModsForInstance env mc now targets fuel st mods cache).walk
      = depWalk env mc fuel (refreshWalkInit env mc now targets st mods cache) :=
  refresh_walk_eq env mc now targets fuel st mods cache

theorem refresh_mods_walk (env : Env) (mc : String) (now : Nat)
    (targets : Option (List String)) (fuel : Nat) (st : ModsState) (mods cache : Dir) :
    (refreshModsForInstance env mc now targets fuel st mods cache).mods
      = (depWalk env mc fuel (refreshWalkInit env mc now targets st mods cache)).mods := by
  rw [show (refreshModsForInstance env mc now targets fuel st mods cache).mods
      = (refreshModsForInstance env mc now targets fuel st mods cache).walk.mods from rfl]
  rw [refresh_walk_eq2]

theorem refresh_cache_walk (env : Env) (mc : String) (now : Nat)
    (targets : Option (List String)) (fuel : Nat) (st : ModsState) (mods cache : Dir) :
    (refreshModsForInstance env mc now targets fuel st mods cache).cache
      = (depWalk env mc fuel (refreshWalkInit env mc now targets st mods cache)).cache := by
  rw [show (refreshModsForInstance env mc now targets fuel st mods cache).cache
      = (refreshModsForInstance env mc now targets fuel st mods cache).walk.cache from rfl]
  rw [refresh_walk_eq2]

theorem refreshWalkInit_mods (env : Env) (mc : String) (now : Nat)
    (targets : Option (List String)) (st : ModsState) (mods cache : Dir) :
    (refreshWalkInit env mc now targets st mods cache).mods
      = match refreshTset targets with
        | some _ => (processList env mc now (refreshTset targets) st CATALOG mods cache).mods
        | none => cleanAutoDependencyFiles
            (processList env mc now (refreshTset targets) st CATALOG mods cache).mods := rfl

/-- Claim C4 (amended): calling `refreshModsForInstance` twice with the same
arguments, unchanged provider responses, an unchanged cache AND the same
`Date.now()` reading produces, after the second call, an identical persisted
`ContentState` (enabled map and resolved records), an identical cache
directory (the second call performs no download and no cache write: every
entry and dependency is served from cache or repeats the identical failure),
an unchanged installed file for every non-dependency name, and — for a full
(non-targeted) refresh — an unchanged mods directory outright, dependency
files included.  Side conditions: the mods directory has duplicate-free file
names (true of a real directory), and distinct dependency refs never collide
on the same dependency cache key (the key embeds the ref itself). -/
theorem C4_refresh_idempotent :
    ∀ (env : Env) (mc : String) (now : Nat) (targets : Option (List String)) (fuel : Nat)
      (st : ModsState) (mods cache : Dir),
      dirNodup mods →
      (∀ (d d2 : String) (r r2 : RInfo), d ≠ d2 →
          env.resolveLatest d mc = .ok (some r) → env.resolveLatest d2 mc = .ok (some r2) →
          depCacheName d r ≠ depCacheName d2 r2) →
      ((refreshModsForInstance env mc now targets fuel
          (refreshModsForInstance env mc now targets fuel st mods cache).state
          (refreshModsForInstance env mc now targets fuel st mods cache).mods
          (refreshModsForInstance env mc now targets fuel st mods cache).cache).state
        = (refreshModsForInstance env mc now targets fuel st mods cache).state)
      ∧ ((refreshModsForInstance env mc now targets fuel
          (refreshModsForInstance env mc now targets fuel st mods cache).state
          (refreshModsForInstance env mc now targets fuel st mods cache).mods
          (refreshModsForInstance env mc now targets fuel st mods cache).cache).cache
        = (refreshModsForInstance env mc now targets fuel st mods cache).cache)
      ∧ (∀ n, strStarts n "dep__" = false →
          dirGet (refreshModsForInstance env mc now targets fuel
            (refreshModsForInstance env mc now targets fuel st mods cache).state
            (refreshModsForInstance env mc now targets fuel st mods cache).mods
            (refreshModsForInstance env mc now targets fuel st mods cache).cache).mods n
          = dirGet (refreshModsForInstance env mc now targets fuel st mods cache).mods n)
      ∧ (targets = none →
          ∀ n, dirGet (refreshModsForInstance env mc now targets fuel
            (refreshModsForInstance env mc now targets fuel st mods cache).state
            (refreshModsForInstance env mc now targets fuel st mods cache).mods
            (refreshModsForInstance env mc now targets fuel st mods cache).cache).mods n
          = dirGet (refreshModsForInstance env mc now targets fuel st mods cache).mods n) := by
  intro env mc now targets fuel st mods cache hN Hinj
  have hskip : ∀ m ∈ CATALOG, ∀ ts, refreshTset targets = some ts → m.id ∉ ts →
      assocFind (processList env mc now (refreshTset targets) st CATALOG mods cache).resolved
        m.id = assocFind st.resolved m.id := by
    intro m hm ts hts hnot
    rw [hts]
    exact processList_resolved_skipped ts CATALOG mods cache m hm catalogIds_nodup hnot
  have hF : ∀ m ∈ CATALOG, ∀ k, strStarts k (m.id ++ "-") = true →
      dirGet (refreshModsForInstance env mc now targets fuel st mods cache).cache k
        = dirGet (processList env mc now (refreshTset targets) st CATALOG mods cache).cache
            k := by
    intro m hm k hk
    have hdep : strStarts k "dep-" = false :=
      not_both_starts ((catalog_depdash_incomp m hm).2) ((catalog_depdash_incomp m hm).1) hk
    rw [refresh_cache_walk]
    exact depWalk_cache_frame fuel _ k hdep
  have hO : ∀ m ∈ CATALOG, ∀ n, strStarts n (m.id ++ "__") = true →
      dirGet (refreshModsForInstance env mc now targets fuel st mods cache).mods n
        = dirGet (processList env mc now (refreshTset targets) st CATALOG mods cache).mods
            n := by
    intro m hm n hn
    have hdep : strStarts n "dep__" = false :=
      not_both_starts (catalog_dep_incomp m hm).2 (catalog_dep_incomp m hm).1 hn
    rw [refresh_mods_walk]
    rw [depWalk_mods_frame fuel _ n hdep]
    rw [refreshWalkInit_mods]
    cases refreshTset targets with
    | some ts => rfl
    | none =>
      rw [dirGet_cleanDeps]
      rw [if_neg (by rw [hdep]; simp)]
  obtain ⟨h1, h2, h3, h4⟩ := processList_congr env mc now (refreshTset targets) st
    (processList env mc now (refreshTset targets) st CATALOG mods cache).resolved
    (refreshModsForInstance env mc now targets fuel st mods cache).cache
    (refreshModsForInstance env mc now targets fuel st mods cache).mods
    CATALOG mods cache
    (refreshModsForInstance env mc now targets fuel st mods cache).mods
    catalogIds_nodup (fun m hm => hm) hskip hF (fun n => rfl) hO
  have hstate : (refreshModsForInstance env mc now targets fuel st mods cache).state
      = ⟨st.enabled,
          (processList env mc now (refreshTset targets) st CATALOG mods cache).resolved⟩ :=
    rfl
  rw [hstate]
  have hq2 : (refreshWalkInit env mc now targets
      (⟨st.enabled,
        (processList env mc now (refreshTset targets) st CATALOG mods cache).resolved⟩
          : ModsState)
      (refreshModsForInstance env mc now targets fuel st mods cache).mods
      (refreshModsForInstance env mc now targets fuel st mods cache).cache).queue
      = (refreshWalkInit env mc now targets st mods cache).queue := h3
  have hc2 : (refreshWalkInit env mc now targets
      (⟨st.enabled,
        (processList env mc now (refreshTset targets) st CATALOG mods cache).resolved⟩
          : ModsState)
      (refreshModsForInstance env mc now targets fuel st mods cache).mods
      (refreshModsForInstance env mc now targets fuel st mods cache).cache).cache
      = (depWalk env mc fuel (refreshWalkInit env mc now targets st mods cache)).cache := by
    rw [← refresh_walk_eq2 env mc now targets fuel st mods cache]
    exact h2
  obtain ⟨hsimc, hsimm⟩ := depWalk_sim env mc Hinj fuel
    (refreshWalkInit env mc now targets st mods cache)
    (refreshWalkInit env mc now targets
      (⟨st.enabled,
        (processList env mc now (refreshTset targets) st CATALOG mods cache).resolved⟩
          : ModsState)
      (refreshModsForInstance env mc now targets fuel st mods cache).mods
      (refreshModsForInstance env mc now targets fuel st mods cache).cache)
    hq2 rfl hc2
  refine ⟨?_, ?_, ?_, ?_⟩
  · exact congrArg (fun r => ({ enabled := st.enabled, resolved := r } : ModsState)) h1
  · rw [refresh_cache_walk, hsimc]
    exact h2
  · intro n hdep
    rw [refresh_mods_walk]
    rw [depWalk_mods_frame fuel _ n hdep]
    rw [refreshWalkInit_mods]
    have hmm2 : dirGet (match refreshTset targets with
        | some _ => (processList env mc now (refreshTset targets)
            (⟨st.enabled,
              (processList env mc now (refreshTset targets) st CATALOG mods cache).resolved⟩
                : ModsState) CATALOG
            (refreshModsForInstance env mc now targets fuel st mods cache).mods
            (refreshModsForInstance env mc now targets fuel st mods cache).cache).mods
        | none => cleanAutoDependencyFiles
            (processList env mc now (refreshTset targets)
              (⟨st.enabled,
                (processList env mc now (refreshTset targets) st CATALOG mods
                  cache).resolved⟩ : ModsState) CATALOG
              (refreshModsForInstance env mc now targets fuel st mods cache).mods
              (refreshModsForInstance env mc now targets fuel st mods cache).cache).mods) n
        = dirGet (processList env mc now (refreshTset targets)
            (⟨st.enabled,
              (processList env mc now (refreshTset targets) st CATALOG mods cache).resolved⟩
                : ModsState) CATALOG
            (refreshModsForInstance env mc now targets fuel st mods cache).mods
            (refreshModsForInstance env mc now targets fuel st mods cache).cache).mods n := by
      cases refreshTset targets with
      | some ts => rfl
      | none =>
        rw [dirGet_cleanDeps]
        rw [if_neg (by rw [hdep]; simp)]
    rw [hmm2]
    exact h4 n
  · intro htn
    subst htn
    have hTN : refreshTset (none : Option (List String)) = none := rfl
    have hpass1N : dirNodup
        (processList env mc now (refreshTset none) st CATALOG mods cache).mods :=
      processList_mods_nodup env mc now (refreshTset none) st CATALOG mods cache hN
    have hN1 : dirNodup (cleanAutoDependencyFiles
        (processList env mc now (refreshTset none) st CATALOG mods cache).mods) :=
      dirNodup_filter _ _ hpass1N
    have hO1mN : dirNodup (refreshModsForInstance env mc now none fuel st mods cache).mods := by
      rw [refresh_mods_walk env mc now none fuel st mods cache]
      apply depWalk_mods_nodup
      exact hN1
    have hpass2N : dirNodup (processList env mc now (refreshTset none)
        (⟨st.enabled,
          (processList env mc now (refreshTset none) st CATALOG mods cache).resolved⟩
            : ModsState) CATALOG
        (refreshModsForInstance env mc now none fuel st mods cache).mods
        (refreshModsForInstance env mc now none fuel st mods cache).cache).mods :=
      processList_mods_nodup env mc now (refreshTset none) _ CATALOG _ _ hO1mN
    have hN2 : dirNodup (cleanAutoDependencyFiles
        (processList env mc now (refreshTset none)
          (⟨st.enabled,
            (processList env mc now (refreshTset none) st CATALOG mods cache).resolved⟩
              : ModsState) CATALOG
          (refreshModsForInstance env mc now none fuel st mods cache).mods
          (refreshModsForInstance env mc now none fuel st mods cache).cache).mods) :=
      dirNodup_filter _ _ hpass2N
    have hO1walkm : (refreshModsForInstance env mc now none fuel st mods cache).mods
        = (depWalk env mc fuel (refreshWalkInit env mc now none st mods cache)).mods :=
      refresh_mods_walk env mc now none fuel st mods cache
    have hO1framem : ∀ n, strStarts n "dep__" = false →
        dirGet (refreshModsForInstance env mc now none fuel st mods cache).mods n
          = dirGet (processList env mc now (refreshTset none) st CATALOG mods cache).mods
              n := by
      intro n hd
      rw [hO1walkm]
      rw [depWalk_mods_frame fuel _ n hd]
      rw [refreshWalkInit_mods]
      rw [hTN]
      dsimp only
      rw [dirGet_cleanDeps]
      rw [if_neg (by rw [hd]; simp)]
    have hjarpw : ∀ n, strEnds n ".jar" = true →
        dirGet (cleanAutoDependencyFiles
          (processList env mc now (refreshTset none)
            (⟨st.enabled,
              (processList env mc now (refreshTset none) st CATALOG mods cache).resolved⟩
                : ModsState) CATALOG
            (refreshModsForInstance env mc now none fuel st mods cache).mods
            (refreshModsForInstance env mc now none fuel st mods cache).cache).mods) n
          = dirGet (cleanAutoDependencyFiles
              (processList env mc now (refreshTset none) st CATALOG mods cache).mods) n := by
      intro n hj
      rw [dirGet_cleanDeps, dirGet_cleanDeps]
      by_cases hd : strStarts n "dep__" = true
      · rw [if_pos (by rw [hd, hj]; rfl), if_pos (by rw [hd, hj]; rfl)]
      · have hd2 : strStarts n "dep__" = false := by
          cases hsd : strStarts n "dep__"
          · rfl
          · exact absurd hsd hd
        rw [if_neg (by rw [hd2]; simp), if_neg (by rw [hd2]; simp)]
        rw [h4 n]
        exact hO1framem n hd2
    have hins : ∀ x : String, x ∈ (refreshWalkInit env mc now none
        (⟨st.enabled,
          (processList env mc now (refreshTset none) st CATALOG mods cache).resolved⟩
            : ModsState)
        (refreshModsForInstance env mc now none fuel st mods cache).mods
        (refreshModsForInstance env mc now none fuel st mods cache).cache).installed
        ↔ x ∈ (refreshWalkInit env mc now none st mods cache).installed := by
      intro x
      exact collect_mem_congr hN2 hN1 hjarpw x
    have hm0 : ∀ n, dirGet (refreshWalkInit env mc now none
        (⟨st.enabled,
          (processList env mc now (refreshTset none) st CATALOG mods cache).resolved⟩
            : ModsState)
        (refreshModsForInstance env mc now none fuel st mods cache).mods
        (refreshModsForInstance env mc now none fuel st mods cache).cache).mods n
        = dirGet (refreshWalkInit env mc now none st mods cache).mods n
        ∨ dirGet (refreshWalkInit env mc now none
            (⟨st.enabled,
              (processList env mc now (refreshTset none) st CATALOG mods cache).resolved⟩
                : ModsState)
            (refreshModsForInstance env mc now none fuel st mods cache).mods
            (refreshModsForInstance env mc now none fuel st mods cache).cache).mods n
          = dirGet (depWalk env mc fuel (refreshWalkInit env mc now none st mods
              cache)).mods n := by
      intro n
      by_cases hd : strStarts n "dep__" = true
      · by_cases hj : strEnds n ".jar" = true
        · left
          show dirGet (cleanAutoDependencyFiles
              (processList env mc now (refreshTset none)
                (⟨st.enabled,
                  (processList env mc now (refreshTset none) st CATALOG mods
                    cache).resolved⟩ : ModsState) CATALOG
                (refreshModsForInstance env mc now none fuel st mods cache).mods
                (refreshModsForInstance env mc now none fuel st mods cache).cache).mods) n
            = dirGet (cleanAutoDependencyFiles
                (processList env mc now (refreshTset none) st CATALOG mods cache).mods) n
          rw [dirGet_cleanDeps, dirGet_cleanDeps]
          rw [if_pos (by rw [hd, hj]; rfl), if_pos (by rw [hd, hj]; rfl)]
        · have hj2 : strEnds n ".jar" = false := by
            cases hsj : strEnds n ".jar"
            · rfl
            · exact absurd hsj hj
          right
          show dirGet (cleanAutoDependencyFiles
              (processList env mc now (refreshTset none)
                (⟨st.enabled,
                  (processList env mc now (refreshTset none) st CATALOG mods
                    cache).resolved⟩ : ModsState) CATALOG
                (refreshModsForInstance env mc now none fuel st mods cache).mods
                (refreshModsForInstance env mc now none fuel st mods cache).cache).mods) n
            = dirGet (depWalk env mc fuel (refreshWalkInit env mc now none st mods
                cache)).mods n
          rw [dirGet_cleanDeps]
          rw [if_neg (by rw [hj2]; simp)]
          rw [h4 n]
          rw [hO1walkm]
      · have hd2 : strStarts n "dep__" = false := by
          cases hsd : strStarts n "dep__"
          · rfl
          · exact absurd hsd hd
        right
        show dirGet (cleanAutoDependencyFiles
            (processList env mc now (refreshTset none)
              (⟨st.enabled,
                (processList env mc now (refreshTset none) st CATALOG mods
                  cache).resolved⟩ : ModsState) CATALOG
              (refreshModsForInstance env mc now none fuel st mods cache).mods
              (refreshModsForInstance env mc now none fuel st mods cache).cache).mods) n
          = dirGet (depWalk env mc fuel (refreshWalkInit env mc now none st mods
              cache)).mods n
        rw [dirGet_cleanDeps]
        rw [if_neg (by rw [hd2]; simp)]
        rw [h4 n]
        rw [hO1walkm]
    intro n
    rw [refresh_mods_walk]
    rw [hO1walkm]
    exact hsimm hins hm0 n

def C4cex_env : Env :=
  { resolveLatest := fun _ _ => .ok none, download := fun _ => .error "offline",
    sha1Of := fun _ => "", fabricModId := fun _ => none }

def C4cex_out1 : RefreshOut :=
  refreshModsForInstance C4cex_env "1.21" 0 none 4 defaultState [] []

def C4cex_out2 : RefreshOut :=
  refreshModsForInstance C4cex_env "1.21" 1 none 4 C4cex_out1.state C4cex_out1.mods
    C4cex_out1.cache

/-- Claim C4 as stated is false on the code: between two successive calls the
clock advances, and every resolved record embeds `lastCheckedAt: Date.now()`,
so a second refresh with identical provider responses and an unchanged cache
persists a different `ContentState` than the first. -/
theorem C4_counterexample : C4cex_out2.state ≠ C4cex_out1.state := by decide

def C4wit_env : Env :=
  { resolveLatest := fun p _ =>
      if p = "AANobbMI" then .ok (some ⟨"1.0", "s.jar", "uS", some "HS", none, ["A"]⟩)
      else if p = "A" then .ok (some ⟨"1.0", "a.jar", "uA", some "HA", none, []⟩)
      else .ok none,
    download := fun u =>
      if u = "uS" then .ok [1] else if u = "uA" then .ok [2] else .error "404",
    sha1Of := fun b => if b = [1] then "HS" else if b = [2] then "HA" else "?",
    fabricModId := fun _ => none }

/-- Witness for C4 at a concrete input with an actual dependency install:
the second refresh persists exactly the first refresh's state. -/
theorem C4_witness :
    (refreshModsForInstance C4wit_env "1.20.1" 0 none 4
        (refreshModsForInstance C4wit_env "1.20.1" 0 none 4
          { enabled := [("sodium", true)], resolved := [] } [] []).state
        (refreshModsForInstance C4wit_env "1.20.1" 0 none 4
          { enabled := [("sodium", true)], resolved := [] } [] []).mods
        (refreshModsForInstance C4wit_env "1.20.1" 0 none 4
          { enabled := [("sodium", true)], resolved := [] } [] []).cache).state
      = (refreshModsForInstance C4wit_env "1.20.1" 0 none 4
          { enabled := [("sodium", true)], resolved := [] } [] []).state := by
  refine (C4_refresh_idempotent C4wit_env "1.20.1" 0 none 4
    { enabled := [("sodium", true)], resolved := [] } [] [] (by decide) ?_).1
  intro d d2 r r2 hne h1 h2
  by_cases hd1 : d = "AANobbMI"
  · subst hd1
    have hval : C4wit_env.resolveLatest "AANobbMI" "1.20.1"
        = .ok (some ⟨"1.0", "s.jar", "uS", some "HS", none, ["A"]⟩) := rfl
    rw [hval] at h1
    injection h1 with hh
    injection hh with hh2
    rw [← hh2]
    by_cases hd2 : d2 = "A"
    · subst hd2
      have hval2 : C4wit_env.resolveLatest "A" "1.20.1"
          = .ok (some ⟨"1.0", "a.jar", "uA", some "HA", none, []⟩) := rfl
      rw [hval2] at h2
      injection h2 with hg
      injection hg with hg2
      rw [← hg2]
      decide
    · simp only [C4wit_env] at h2
      rw [if_neg (fun hh3 => hne hh3.symm), if_neg hd2] at h2
      injection h2 with hg
      exact Option.noConfusion hg
  · by_cases hd1b : d = "A"
    · subst hd1b
      have hval : C4wit_env.resolveLatest "A" "1.20.1"
          = .ok (some ⟨"1.0", "a.jar", "uA", some "HA", none, []⟩) := rfl
      rw [hval] at h1
      injection h1 with hh
      injection hh with hh2
      rw [← hh2]
      by_cases hd2 : d2 = "AANobbMI"
      · subst hd2
        have hval2 : C4wit_env.resolveLatest "AANobbMI" "1.20.1"
            = .ok (some ⟨"1.0", "s.jar", "uS", some "HS", none, ["A"]⟩) := rfl
        rw [hval2] at h2
        injection h2 with hg
        injection hg with hg2
        rw [← hg2]
        decide
      · simp only [C4wit_env] at h2
        rw [if_neg hd2, if_neg (fun hh3 => hne hh3.symm)] at h2
        injection h2 with hg
        exact Option.noConfusion hg
    · simp only [C4wit_env] at h1
      rw [if_neg hd1, if_neg hd1b] at h1
      injection h1 with hh
      exact Option.noConfusion hh

def C1cex_env1 : Env :=
  { resolveLatest := fun proj _ =>
      if proj = "AANobbMI" then .ok (some ⟨"1.0", "a.zip", "u1", some "H1", none, []⟩)
      else .ok none,
    download := fun u => if u = "u1" then .ok [1] else .error "404",
    sha1Of := fun b => if b = [1] then "H1" else "?",
    fabricModId := fun _ => none }

def C1cex_env2 : Env :=
  { resolveLatest := fun proj _ =>
      if proj = "AANobbMI" then .ok (some ⟨"2.0", "b.jar", "u2", some "H2", none, []⟩)
      else .ok none,
    download := fun u => if u = "u2" then .ok [2] else .error "404",
    sha1Of := fun _ => "BAD",
    fabricModId := fun _ => none }

def C1cex_out1 : RefreshOut :=
  refreshModsForInstance C1cex_env1 "1.20.1" 0 none 1
    { enabled := [("sodium", true)], resolved := [] } [] []

def C1cex_out2 : RefreshOut :=
  refreshModsForInstance C1cex_env2 "1.20.1" 1 none 1
    C1cex_out1.state C1cex_out1.mods C1cex_out1.cache

/-- Claim C1 as stated is false on the code in its removal clause: a refresh
installs the upstream file name under the entry's `<id>__` prefix whatever
its extension, but `cleanOldFilesForCatalogId` only removes files ending in
`.jar`/`.jar.disabled`.  Here a first refresh installed `sodium__a.zip`; a
second refresh whose download mismatches its declared sha1 records
`status=error` for `sodium` — yet the previously installed `sodium__a.zip`
survives in the mods directory. -/
theorem C1_counterexample :
    dirGet C1cex_out1.mods "sodium__a.zip" = some [1]
    ∧ (assocFind C1cex_out2.state.resolved "sodium").map (fun x => x.status) = some .error
    ∧ (assocFind C1cex_out2.state.resolved "sodium").map (fun x => x.error)
        = some (some "SHA1 mismatch for sodium")
    ∧ dirGet C1cex_out2.mods "sodium__a.zip" = some [1]
    ∧ strStarts "sodium__a.zip" ("sodium" ++ "__") = true := by decide
